import Mathlib

/-!
# DevOps assessment: question catalog, scoring, lifecycle and access control

A shallow embedding of `internal/models/question.go`, of the assessment store of
`internal/models/assessment.go`, of `SaveResponses`, `CalculateResults` and
`StartAssessment` of `internal/services/survey-service.go`, of the handler
`SaveResponses` of `internal/handlers/survey-handler.go`, of the permission checks
of `internal/models/role.go` and of `ValidateSession` of
`internal/auth/authentication.go`.

Modelling conventions

* Go slices are Lean lists; a `for ... range` loop with an accumulator is a
  `List.foldl`, a loop that rewrites every element in place is a `List.map`.
* `float64` scores are exact rationals (`ℚ`): rounding, infinities and NaN are
  outside the model.
* A method that mutates the survey through its pointer returns the new survey.
* Go maps are association lists with pairwise distinct keys; the order in which
  `range` visits a map is not fixed by the language, so it is a parameter of
  the one function that ranges over a map.
* The timestamps of `Response` and `SectionScore` are never read or written by
  the modelled functions and are left out.
-/

set_option linter.dupNamespace false
set_option linter.unusedVariables false

namespace Models

/-! ## Data model -/

/-- Answer represents a possible answer to a question. -/
structure Answer where
  ID : String
  Answer : String
  Score : ℚ
  Value : String
deriving DecidableEq, Repr

/-- Question represents a survey question; `Type_` is the Go field `Type`. -/
structure Question where
  ID : String
  Type_ : String
  SubCategory : String
  QuestionText : String
  Answers : List Answer
deriving DecidableEq, Repr

/-- Section represents a section of the survey. -/
structure Section where
  SectionName : String
  SpiderPos : Int
  Questions : List Question
  HasSubCategories : Bool
deriving DecidableEq, Repr

/-- Survey represents the entire survey structure. -/
structure Survey where
  Sections : List Section
deriving DecidableEq, Repr

/-- Response holds the selected answer IDs of one question of an assessment. -/
structure Response where
  ID : Int
  AssessmentID : Int
  QuestionID : String
  AnswerIDs : List String
deriving DecidableEq, Repr

/-- SectionScore represents the score for a section (or a subcategory). -/
structure SectionScore where
  ID : Int
  AssessmentID : Int
  SectionName : String
  Score : ℚ
  MaxScore : ℚ
  Percentage : ℚ
deriving DecidableEq, Repr

/-! ## Scoring of one question -/

/-- CalculateQuestionScore: the score of a question from its checked answers. -/
def CalculateQuestionScore (question : Question) : ℚ :=
  if question.Type_ = "Banner" then 0
  else
    question.Answers.foldl
      (fun score answer => if answer.Value = "checked" then score + answer.Score else score) 0

/-- CalculateQuestionMaxScore: the maximum possible score of a question. -/
def CalculateQuestionMaxScore (question : Question) : ℚ :=
  if question.Type_ = "Banner" then 0
  else if question.Type_ = "Option" then
    question.Answers.foldl
      (fun maxScore answer => if answer.Score > maxScore then answer.Score else maxScore) 0
  else if question.Type_ = "Checkbox" then
    question.Answers.foldl (fun maxScore answer => maxScore + answer.Score) 0
  else 0

/-! ## Section scores -/

/-- CalculateSectionScores calculates scores for all sections. -/
def CalculateSectionScores (survey : Survey) (assessmentID : Int) : List SectionScore :=
  survey.Sections.foldl
    (fun scores sec =>
      let totals : ℚ × ℚ :=
        sec.Questions.foldl
          (fun acc question =>
            (acc.1 + CalculateQuestionScore question, acc.2 + CalculateQuestionMaxScore question))
          (0, 0)
      let score := totals.1
      let maxScore := totals.2
      if maxScore > 0 then
        scores ++ [{ ID := 0, AssessmentID := assessmentID, SectionName := sec.SectionName,
                     Score := score, MaxScore := maxScore,
                     Percentage := (score / maxScore) * 100 }]
      else scores)
    []

/-! ## Go maps with string keys -/

/-- The Go lookup `v, exists := m[k]` on an association list. -/
def mapLookup {β : Type} : List (String × β) → String → Option β
  | [], _ => none
  | (k', v') :: m, k => if k' = k then some v' else mapLookup m k

/-- The Go assignment `m[k] = v`: overwrite the entry of `k`, or add one. -/
def mapStore {β : Type} : List (String × β) → String → β → List (String × β)
  | [], k, v => [(k, v)]
  | (k', v') :: m, k, v => if k' = k then (k, v) :: m else (k', v') :: mapStore m k v

/-! ## Loading: identifiers and subcategory detection -/

/-- The Go format `fmt.Sprintf("S%d-Q%d", s, q)`. -/
def questionIDFormat (s q : Nat) : String :=
  "S" ++ Nat.repr s ++ "-Q" ++ Nat.repr q

/-- The Go format `fmt.Sprintf("S%d-Q%d-A%d", s, q, a)`. -/
def answerIDFormat (s q a : Nat) : String :=
  "S" ++ Nat.repr s ++ "-Q" ++ Nat.repr q ++ "-A" ++ Nat.repr a

/-- The body of the two outer loops of `assignQuestionIDs`, for the question at
`(sectionIndex, questionIndex)`. -/
def assignQuestionID (sectionIndex questionIndex : Nat) (question : Question) : Question :=
  if question.Type_ ≠ "Banner" then
    let answers :=
      if question.Answers.length = 0 then
        [{ ID := "", Answer := "Yes", Score := 1, Value := "" },
         { ID := "", Answer := "No", Score := 0, Value := "" }]
      else question.Answers
    { question with
      ID := questionIDFormat (sectionIndex + 1) (questionIndex + 1)
      Answers := answers.mapIdx (fun answerIndex answer =>
        { answer with
          ID := answerIDFormat (sectionIndex + 1) (questionIndex + 1) (answerIndex + 1)
          Value := if answer.Value = "" then "" else answer.Value }) }
  else question

/-- assignQuestionIDs assigns unique IDs to questions and answers. -/
def assignQuestionIDs (survey : Survey) : Survey :=
  { Sections := survey.Sections.mapIdx (fun sectionIndex sec =>
      { sec with Questions := sec.Questions.mapIdx (assignQuestionID sectionIndex) }) }

/-- The inner loop of `detectSubCategories`: stop at the first labelled question. -/
def hasSubCategories : List Question → Bool
  | [] => false
  | question :: rest => if question.SubCategory ≠ "" then true else hasSubCategories rest

/-- detectSubCategories detects if sections have subcategories. -/
def detectSubCategories (survey : Survey) : Survey :=
  { Sections := survey.Sections.map (fun sec =>
      { sec with HasSubCategories := hasSubCategories sec.Questions }) }

/-- The part of `LoadQuestions` after the JSON parse of the section list. -/
def LoadQuestions (sections : List Section) : Survey :=
  detectSubCategories (assignQuestionIDs { Sections := sections })

/-! ## Applying and extracting responses -/

/-- The first loop of `ApplyResponses`: the lookup map from question ID to answer IDs. -/
def buildResponseMap (responses : List Response) : List (String × List String) :=
  responses.foldl (fun responseMap response =>
    mapStore responseMap response.QuestionID response.AnswerIDs) []

/-- The body of the second loop of `ApplyResponses` for one question. -/
def applyToQuestion (responseMap : List (String × List String)) (question : Question) :
    Question :=
  match mapLookup responseMap question.ID with
  | some answerIDs =>
    let reset := question.Answers.map (fun answer => { answer with Value := "" })
    let marked := answerIDs.foldl (fun answers answerID =>
      answers.map (fun answer =>
        if answer.ID = answerID then { answer with Value := "checked" } else answer)) reset
    { question with Answers := marked }
  | none => question

/-- ApplyResponses applies saved responses to the survey structure (its error is always nil). -/
def ApplyResponses (survey : Survey) (responses : List Response) : Survey :=
  let responseMap := buildResponseMap responses
  { Sections := survey.Sections.map (fun sec =>
      { sec with Questions := sec.Questions.map (applyToQuestion responseMap) }) }

/-- The body of the loops of `ExtractResponses` for one question. -/
def extractFromQuestion (assessmentID : Int) (responses : List Response) (question : Question) :
    List Response :=
  if question.Type_ ≠ "Banner" ∧ question.ID ≠ "" then
    let answerIDs := question.Answers.foldl (fun answerIDs answer =>
      if answer.Value = "checked" then answerIDs ++ [answer.ID] else answerIDs) []
    if answerIDs.length > 0 then
      responses ++ [{ ID := 0, AssessmentID := assessmentID, QuestionID := question.ID,
                      AnswerIDs := answerIDs }]
    else responses
  else responses

/-- ExtractResponses extracts the current responses from the survey. -/
def ExtractResponses (survey : Survey) (assessmentID : Int) : List Response :=
  survey.Sections.foldl (fun responses sec =>
    sec.Questions.foldl (extractFromQuestion assessmentID) responses) []

/-! ## Subcategory scores -/

/-- The body of the grouping loop of `CalculateSubCategoryScores` for one question. -/
def addToSubCategory (assessmentID : Int) (subCategoryScores : List (String × SectionScore))
    (question : Question) : List (String × SectionScore) :=
  if question.SubCategory ≠ "" then
    let m1 :=
      match mapLookup subCategoryScores question.SubCategory with
      | some _ => subCategoryScores
      | none =>
        mapStore subCategoryScores question.SubCategory
          { ID := 0, AssessmentID := assessmentID, SectionName := question.SubCategory,
            Score := 0, MaxScore := 0, Percentage := 0 }
    let m2 :=
      match mapLookup m1 question.SubCategory with
      | some e =>
        mapStore m1 question.SubCategory
          { e with Score := e.Score + CalculateQuestionScore question }
      | none => m1
    match mapLookup m2 question.SubCategory with
    | some e =>
      mapStore m2 question.SubCategory
        { e with MaxScore := e.MaxScore + CalculateQuestionMaxScore question }
    | none => m2
  else subCategoryScores

/-- CalculateSubCategoryScores calculates scores for subcategories within a section.
`rangeOrder m` is the order in which Go's `range` visits the entries of the map `m`. -/
def CalculateSubCategoryScores
    (rangeOrder : List (String × SectionScore) → List (String × SectionScore))
    (survey : Survey) (sectionName : String) (assessmentID : Int) : List SectionScore :=
  match survey.Sections.find? (fun sec => decide (sec.SectionName = sectionName)) with
  | none => []
  | some targetSection =>
    let subCategoryScores := targetSection.Questions.foldl (addToSubCategory assessmentID) []
    (rangeOrder subCategoryScores).foldl (fun scores entry =>
      let score := entry.2
      if score.MaxScore > 0 then
        scores ++ [{ score with Percentage := (score.Score / score.MaxScore) * 100 }]
      else scores) []

/-! ## Errors and the database

The services work on a MySQL database (schema of `internal/database/migrations.go`).  A table
is the list of its rows, instants are integers, and an SQL statement is a function on the
tables.  A write fails on a foreign-key violation, and a write to `section_scores` also when
the server rejects a value (`ScoreColumns`); a read through `GetMany` has a `RowsOutcome`.
Connection failures of the other statements are outside the model, and SQL string equality is
exact equality except for the unique key of `section_scores`.  A Go function returning
`error` returns the database it leaves behind together with its result, so that the writes
made before a failure stay visible. -/

/-- Go error values: the sentinel errors of the packages, `errors.New` / `fmt.Errorf` without
`%w` (`New`), and `fmt.Errorf("msg: %w", err)` (`Wrap`). -/
inductive Error where
  | ErrAssessmentNotFound
  | ErrInvalidStatus
  | ErrUserNotFound
  | ErrSessionNotFound
  | ErrSessionExpired
  | ErrTeamNotFound
  | ErrInvalidCredentials
  | ErrUserInactive
  | New (msg : String)
  | Wrap (msg : String) (err : Error)
deriving DecidableEq, Repr

deriving instance DecidableEq for Except

/-- The method `Error()` of a Go error value: its message. -/
def Error.Error : Error → String
  | .ErrAssessmentNotFound => "assessment not found"
  | .ErrInvalidStatus => "invalid assessment status"
  | .ErrUserNotFound => "user not found"
  | .ErrSessionNotFound => "session not found"
  | .ErrSessionExpired => "session has expired"
  | .ErrTeamNotFound => "team not found"
  | .ErrInvalidCredentials => "invalid credentials"
  | .ErrUserInactive => "user account is inactive"
  | .New msg => msg
  | .Wrap msg err => msg ++ ": " ++ err.Error

/-- Assessment represents a DevOps maturity assessment (a row of `assessments`). -/
structure Assessment where
  ID : Int
  TeamID : Int
  CreatedBy : Int
  SessionID : String
  Status : String
  CreatedAt : Int
  CompletedAt : Option Int
deriving DecidableEq, Repr

/-- User represents a user (a row of `users`, without its timestamps). -/
structure User where
  ID : Int
  Email : String
  PasswordHash : String
  FirstName : String
  LastName : String
  IsActive : Bool
deriving DecidableEq, Repr

/-- Team is a row of `teams`: `GroupID` is the nullable column `group_id`. -/
structure Team where
  ID : Int
  Name : String
  GroupID : Option Int
deriving DecidableEq, Repr

/-- Permission represents a permission (a row of `permissions`). -/
structure Permission where
  ID : Int
  Resource : String
  Action : String
deriving DecidableEq, Repr

/-- A row of `role_permissions`. -/
structure RolePermission where
  RoleID : Int
  PermissionID : Int
deriving DecidableEq, Repr

/-- A row of `user_groups`. -/
structure UserGroup where
  UserID : Int
  GroupID : Int
  RoleID : Int
deriving DecidableEq, Repr

/-- A row of `user_teams`. -/
structure UserTeam where
  UserID : Int
  TeamID : Int
  RoleID : Int
deriving DecidableEq, Repr

/-- Session represents a user session (a row of `user_sessions`; `User` is loaded separately). -/
structure Session where
  ID : Int
  UserID : Int
  SessionToken : String
  ExpiresAt : Int
  CreatedAt : Int
  UpdatedAt : Int
  User : Option User
deriving DecidableEq, Repr

/-- The tables of the database that the modelled functions read or write. -/
structure Database where
  users : List User
  teams : List Team
  permissions : List Permission
  role_permissions : List RolePermission
  user_groups : List UserGroup
  user_teams : List UserTeam
  assessments : List Assessment
  responses : List Response
  section_scores : List SectionScore
  user_sessions : List Session
deriving DecidableEq, Repr

/-- Assessment status constant `StatusInProgress`. -/
def StatusInProgress : String := "in_progress"

/-- Assessment status constant `StatusCompleted`. -/
def StatusCompleted : String := "completed"

/-- Permission constant `ResourceAssessment`. -/
def ResourceAssessment : String := "assessment"

/-- Permission constant `ActionUpdate`. -/
def ActionUpdate : String := "update"

/-- The value of an `AUTO_INCREMENT` key for a new row: larger than every key in use. -/
def nextID (ids : List Int) : Int := ids.foldl max 0 + 1

/-! ## AssessmentService -/

/-- GetAssessmentByID retrieves an assessment by ID. -/
def AssessmentService.GetAssessmentByID (db : Database) (id : Int) : Except Error Assessment :=
  match db.assessments.find? (fun a => decide (a.ID = id)) with
  | some assessment => .ok assessment
  | none => .error Error.ErrAssessmentNotFound

/-- CreateAssessment creates a new assessment; `generated` is the value of the absent helper
`generateSessionID()` and `now` the database clock. -/
def AssessmentService.CreateAssessment (db : Database) (now : Int) (generated : String)
    (assessment : Assessment) : Database × Except Error Assessment :=
  let status := if assessment.Status = "" then StatusInProgress else assessment.Status
  if status ≠ StatusInProgress ∧ status ≠ StatusCompleted then
    (db, .error Error.ErrInvalidStatus)
  else
    let sessionID := if assessment.SessionID = "" then generated else assessment.SessionID
    if db.teams.any (fun t => decide (t.ID = assessment.TeamID)) ∧
        db.users.any (fun u => decide (u.ID = assessment.CreatedBy)) then
      let id := nextID (db.assessments.map (fun a => a.ID))
      let db1 := { db with
        assessments := db.assessments ++
          [{ ID := id, TeamID := assessment.TeamID, CreatedBy := assessment.CreatedBy,
             SessionID := sessionID, Status := status, CreatedAt := now,
             CompletedAt := none }] }
      (db1, AssessmentService.GetAssessmentByID db1 id)
    else
      (db, .error (Error.Wrap "failed to create assessment"
        (Error.New "foreign key constraint fails")))

/-- SaveResponse saves or updates a response for an assessment
(`INSERT ... ON DUPLICATE KEY UPDATE` on the key `(assessment_id, question_id)`). -/
def AssessmentService.SaveResponse (db : Database) (response : Response) :
    Except Error Database :=
  if db.assessments.any (fun a => decide (a.ID = response.AssessmentID)) then
    if db.responses.any (fun r => decide (r.AssessmentID = response.AssessmentID ∧
        r.QuestionID = response.QuestionID)) then
      .ok { db with
        responses := db.responses.map (fun r =>
          if r.AssessmentID = response.AssessmentID ∧ r.QuestionID = response.QuestionID then
            { r with AnswerIDs := response.AnswerIDs }
          else r) }
    else
      .ok { db with
        responses := db.responses ++
          [{ ID := nextID (db.responses.map (fun r => r.ID)),
             AssessmentID := response.AssessmentID, QuestionID := response.QuestionID,
             AnswerIDs := response.AnswerIDs }] }
  else
    .error (Error.Wrap "failed to save response" (Error.New "foreign key constraint fails"))

/-- What the row loop of a caller of `GetMany` meets.  `GetMany` runs the query and cancels
the context of the query when it returns, before the caller iterates over the rows, and no
caller reads `rows.Err()`: the loop can see every row, end early without an error, or get an
error from `Scan`; the query itself can fail. -/
inductive RowsOutcome where
  | complete
  | stopsAfter (n : Nat)
  | scanFails (n : Nat) (err : Error)
  | queryFails (err : Error)
deriving DecidableEq, Repr

/-- The row loop of a caller of `GetMany` over the result set `rows`; `getMessage` and
`scanMessage` are the messages with which the caller wraps the two errors. -/
def iterateRows {α : Type} (read : RowsOutcome) (getMessage scanMessage : String)
    (rows : List α) : Except Error (List α) :=
  match read with
  | .complete => .ok rows
  | .stopsAfter n => .ok (rows.take n)
  | .scanFails n err =>
    if n < rows.length then .error (Error.Wrap scanMessage err) else .ok rows
  | .queryFails err =>
    .error (Error.Wrap getMessage (Error.Wrap "failed to execute query" err))

/-- The result set of the query of `GetAssessmentResponses`: the responses of the assessment,
`ORDER BY question_id`. -/
def responseRows (db : Database) (assessmentID : Int) : List Response :=
  (db.responses.filter (fun r => decide (r.AssessmentID = assessmentID))).insertionSort
    (fun a b => a.QuestionID ≤ b.QuestionID)

/-- GetAssessmentResponses retrieves all responses for an assessment; `read` is what the row
loop meets. -/
def AssessmentService.GetAssessmentResponses (read : RowsOutcome) (db : Database)
    (assessmentID : Int) : Except Error (List Response) :=
  iterateRows read "failed to get responses" "failed to scan response"
    (responseRows db assessmentID)

/-- How the server treats the values written to `section_scores`: `toDecimal` is the
conversion of a value written to a `DECIMAL(5,2)` column and `nameKey` the class of a
`section_name` under the collation of the column (two names are the same key when their
classes are equal); `none` is a value that the server rejects (out of range, too long). -/
structure ScoreColumns where
  toDecimal : ℚ → Option ℚ
  nameKey : String → Option String

/-- The write of `SaveSectionScore` once the server has accepted the values: the rows with
the key `(assessment_id, section_name)` get the new numbers, or a row is added. -/
def upsertSectionScore (columns : ScoreColumns) (db : Database) (score : SectionScore)
    (key : String) (s m p : ℚ) : Database :=
  if db.section_scores.any (fun r => decide (r.AssessmentID = score.AssessmentID ∧
      columns.nameKey r.SectionName = some key)) then
    { db with
      section_scores := db.section_scores.map (fun r =>
        if r.AssessmentID = score.AssessmentID ∧ columns.nameKey r.SectionName = some key then
          { r with Score := s, MaxScore := m, Percentage := p }
        else r) }
  else
    { db with
      section_scores := db.section_scores ++
        [{ ID := nextID (db.section_scores.map (fun r => r.ID)),
           AssessmentID := score.AssessmentID, SectionName := score.SectionName,
           Score := s, MaxScore := m, Percentage := p }] }

/-- SaveSectionScore saves or updates a section score
(`INSERT ... ON DUPLICATE KEY UPDATE` on the key `(assessment_id, section_name)`). -/
def AssessmentService.SaveSectionScore (columns : ScoreColumns) (db : Database)
    (score : SectionScore) : Except Error Database :=
  if db.assessments.any (fun a => decide (a.ID = score.AssessmentID)) then
    match columns.nameKey score.SectionName with
    | none =>
      .error (Error.Wrap "failed to save section score" (Error.New "value rejected"))
    | some key =>
      match columns.toDecimal score.Score with
      | none =>
        .error (Error.Wrap "failed to save section score" (Error.New "value rejected"))
      | some s =>
        match columns.toDecimal score.MaxScore with
        | none =>
          .error (Error.Wrap "failed to save section score" (Error.New "value rejected"))
        | some m =>
          match columns.toDecimal score.Percentage with
          | none =>
            .error (Error.Wrap "failed to save section score" (Error.New "value rejected"))
          | some p => .ok (upsertSectionScore columns db score key s m p)
  else
    .error (Error.Wrap "failed to save section score"
      (Error.New "foreign key constraint fails"))

/-- The result set of the query of `GetAssessmentScores`: the section scores of the
assessment, `ORDER BY section_name`. -/
def sectionScoreRows (db : Database) (assessmentID : Int) : List SectionScore :=
  (db.section_scores.filter (fun r => decide (r.AssessmentID = assessmentID))).insertionSort
    (fun a b => a.SectionName ≤ b.SectionName)

/-- GetAssessmentScores retrieves all section scores for an assessment; `read` is what the
row loop meets. -/
def AssessmentService.GetAssessmentScores (read : RowsOutcome) (db : Database)
    (assessmentID : Int) : Except Error (List SectionScore) :=
  iterateRows read "failed to get section scores" "failed to scan section score"
    (sectionScoreRows db assessmentID)

/-- CompleteAssessment marks an assessment as completed: the `UPDATE` touches the rows with
this ID whose status is `in_progress`, and the call fails when it touched none. -/
def AssessmentService.CompleteAssessment (db : Database) (now : Int) (assessmentID : Int) :
    Except Error Database :=
  let affected := (db.assessments.filter (fun a =>
    decide (a.ID = assessmentID ∧ a.Status = StatusInProgress))).length
  if affected = 0 then
    .error (Error.New "assessment not found or already completed")
  else
    .ok { db with
      assessments := db.assessments.map (fun a =>
        if a.ID = assessmentID ∧ a.Status = StatusInProgress then
          { a with Status := StatusCompleted, CompletedAt := some now }
        else a) }

/-! ## Section lookup by URL name -/

/-- SectionNameToURLName: remove commas, replace spaces with hyphens, lower-case.
`toLower` is Go's `unicode.ToLower` on one rune. -/
def SectionNameToURLName (toLower : Char → Char) (sectionName : String) : String :=
  let urlName := sectionName.data.filter (fun c => decide (c ≠ ','))
  let urlName := urlName.map (fun c => if c = ' ' then '-' else c)
  String.mk (urlName.map toLower)

/-- GetSectionByURLName returns a section by its URL-friendly name. -/
def GetSectionByURLName (toLower : Char → Char) (survey : Survey) (urlName : String) :
    Except Error Section :=
  match survey.Sections.find?
      (fun sec => decide (SectionNameToURLName toLower sec.SectionName = urlName)) with
  | some sec => .ok sec
  | none => .error (Error.New ("section not found: " ++ urlName))

/-! ## SurveyService

`source` is the outcome of reading and parsing the questions file, `SaveResponse` the method
of the assessment service that the survey service calls. -/

/-- The answer IDs that the body of the loop of `SaveResponses` collects for one question. -/
def collectAnswerIDs (formData : List (String × List String)) (question : Question) :
    List String :=
  if question.Type_ = "Option" then
    match mapLookup formData question.ID with
    | some (first :: _) => [first]
    | some [] => []
    | none => []
  else if question.Type_ = "Checkbox" then
    question.Answers.foldl (fun answerIDs answer =>
      match mapLookup formData answer.ID with
      | some _ => answerIDs ++ [answer.ID]
      | none => answerIDs) []
  else []

/-- The loop of `SaveResponses` over the questions of the section. -/
def saveQuestionResponses {σ : Type} (SaveResponse : σ → Response → Except Error σ)
    (assessmentID : Int) (formData : List (String × List String)) :
    List Question → σ → σ × Except Error Unit
  | [], st => (st, .ok ())
  | question :: rest, st =>
    if question.Type_ = "Banner" ∨ question.ID = "" then
      saveQuestionResponses SaveResponse assessmentID formData rest st
    else
      let response : Response :=
        { ID := 0, AssessmentID := assessmentID, QuestionID := question.ID,
          AnswerIDs := collectAnswerIDs formData question }
      if response.AnswerIDs.length > 0 then
        match SaveResponse st response with
        | .error err => (st, .error (Error.Wrap "failed to save response" err))
        | .ok st1 => saveQuestionResponses SaveResponse assessmentID formData rest st1
      else
        saveQuestionResponses SaveResponse assessmentID formData rest st

/-- SaveResponses saves responses for a specific section. -/
def SurveyService.SaveResponses {σ : Type} (SaveResponse : σ → Response → Except Error σ)
    (toLower : Char → Char) (source : Except Error (List Section)) (st : σ)
    (assessmentID : Int) (sectionName : String) (formData : List (String × List String)) :
    σ × Except Error Unit :=
  match source with
  | .error err => (st, .error (Error.Wrap "failed to load questions" err))
  | .ok sections =>
    let survey := LoadQuestions sections
    match GetSectionByURLName toLower survey sectionName with
    | .error err => (st, .error err)
    | .ok sec => saveQuestionResponses SaveResponse assessmentID formData sec.Questions st

/-- AssessmentResults contains complete assessment results. -/
structure AssessmentResults where
  AssessmentID : Int
  Team : Option Team
  SectionScores : List SectionScore
  SubCategoryScores : List (String × List SectionScore)
  Survey : Survey
deriving DecidableEq, Repr

/-- The loop of `CalculateResults` that saves the section scores. -/
def saveSectionScores (columns : ScoreColumns) : List SectionScore → Database →
    Database × Except Error Unit
  | [], db => (db, .ok ())
  | score :: rest, db =>
    match AssessmentService.SaveSectionScore columns db score with
    | .error err => (db, .error (Error.Wrap "failed to save section score" err))
    | .ok db1 => saveSectionScores columns rest db1

/-- The loop of `CalculateResults` that collects the subcategory scores. -/
def collectSubCategoryScores
    (rangeOrder : List (String × SectionScore) → List (String × SectionScore))
    (survey : Survey) (assessmentID : Int) : List (String × List SectionScore) :=
  survey.Sections.foldl (fun m sec =>
    if sec.HasSubCategories then
      let subScores := CalculateSubCategoryScores rangeOrder survey sec.SectionName assessmentID
      if subScores.length > 0 then mapStore m sec.SectionName subScores else m
    else m) []

/-- CalculateResults calculates and saves the assessment results. -/
def SurveyService.CalculateResults
    (rangeOrder : List (String × SectionScore) → List (String × SectionScore))
    (columns : ScoreColumns) (read : RowsOutcome) (source : Except Error (List Section))
    (now : Int) (db : Database) (assessmentID : Int) :
    Database × Except Error AssessmentResults :=
  match source with
  | .error err => (db, .error (Error.Wrap "failed to load questions" err))
  | .ok sections =>
    let survey := LoadQuestions sections
    match AssessmentService.GetAssessmentResponses read db assessmentID with
    | .error err => (db, .error (Error.Wrap "failed to load responses" err))
    | .ok responses =>
      let survey := ApplyResponses survey responses
      let sectionScores := CalculateSectionScores survey assessmentID
      match saveSectionScores columns sectionScores db with
      | (db1, .error err) => (db1, .error err)
      | (db1, .ok _) =>
        match AssessmentService.CompleteAssessment db1 now assessmentID with
        | .error err => (db1, .error (Error.Wrap "failed to complete assessment" err))
        | .ok db2 =>
          (db2, .ok
            { AssessmentID := assessmentID, Team := none, SectionScores := sectionScores,
              SubCategoryScores := collectSubCategoryScores rangeOrder survey assessmentID,
              Survey := survey })

/-- StartAssessment creates a new assessment for a team. -/
def SurveyService.StartAssessment (source : Except Error (List Section)) (now : Int)
    (generated : String) (db : Database) (teamID userID : Int) :
    Database × Except Error (Assessment × Survey) :=
  match AssessmentService.CreateAssessment db now generated
      { ID := 0, TeamID := teamID, CreatedBy := userID, SessionID := "",
        Status := StatusInProgress, CreatedAt := 0, CompletedAt := none } with
  | (db1, .error err) => (db1, .error (Error.Wrap "failed to create assessment" err))
  | (db1, .ok assessment) =>
    match source with
    | .error err => (db1, .error (Error.Wrap "failed to load questions" err))
    | .ok sections => (db1, .ok (assessment, LoadQuestions sections))

/-! ## RBACService -/

/-- CheckUserPermission checks if a user has a specific permission: the `UNION` of the
permission IDs reached through `user_teams` and through `user_groups` is not empty. -/
def RBACService.CheckUserPermission (db : Database) (userID : Int)
    (resource action : String) : Bool :=
  let teamPermissions : List Int :=
    db.user_teams.flatMap (fun ut =>
      db.role_permissions.flatMap (fun rp =>
        (db.permissions.filter (fun p =>
          decide (ut.RoleID = rp.RoleID ∧ rp.PermissionID = p.ID ∧ ut.UserID = userID ∧
            p.Resource = resource ∧ p.Action = action))).map (fun p => p.ID)))
  let groupPermissions : List Int :=
    db.user_groups.flatMap (fun ug =>
      db.role_permissions.flatMap (fun rp =>
        (db.permissions.filter (fun p =>
          decide (ug.RoleID = rp.RoleID ∧ rp.PermissionID = p.ID ∧ ug.UserID = userID ∧
            p.Resource = resource ∧ p.Action = action))).map (fun p => p.ID)))
  decide ((teamPermissions ++ groupPermissions).dedup.length > 0)

/-- CheckTeamPermission checks if a user has a specific permission for a team. -/
def RBACService.CheckTeamPermission (db : Database) (userID teamID : Int)
    (resource action : String) : Bool :=
  let hasDirectPermission :=
    decide ((db.user_teams.flatMap (fun ut =>
      db.role_permissions.flatMap (fun rp =>
        db.permissions.filter (fun p =>
          decide (ut.RoleID = rp.RoleID ∧ rp.PermissionID = p.ID ∧ ut.UserID = userID ∧
            ut.TeamID = teamID ∧ p.Resource = resource ∧ p.Action = action))))).length > 0)
  if hasDirectPermission then true
  else
    decide ((db.teams.flatMap (fun t =>
      db.user_groups.flatMap (fun ug =>
        db.role_permissions.flatMap (fun rp =>
          db.permissions.filter (fun p =>
            decide (t.GroupID = some ug.GroupID ∧ ug.RoleID = rp.RoleID ∧
              rp.PermissionID = p.ID ∧ t.ID = teamID ∧ ug.UserID = userID ∧
              p.Resource = resource ∧ p.Action = action)))))).length > 0)

/-! ## SurveyHandler -/

/-- SaveResponses saves responses for a section: the HTTP handler.  `idParam` is the result of
`strconv.Atoi` on the URL parameter, `currentUser` the user of the request context and `body`
the outcome of binding the request body to `SaveResponsesRequest`.  The result is the HTTP
status with its message. -/
def SurveyHandler.SaveResponses (toLower : Char → Char)
    (source : Except Error (List Section)) (db : Database) (idParam : Option Int)
    (sectionName : String) (currentUser : Option User)
    (body : Except Error (List (String × List String))) : Database × (Nat × String) :=
  match idParam with
  | none => (db, (400, "Invalid assessment ID"))
  | some assessmentID =>
    if sectionName = "" then (db, (400, "Section name required"))
    else
      match currentUser with
      | none => (db, (401, "Not authenticated"))
      | some user =>
        match AssessmentService.GetAssessmentByID db assessmentID with
        | .error err =>
          if err = Error.ErrAssessmentNotFound then (db, (404, "Assessment not found"))
          else (db, (500, "Failed to load assessment"))
        | .ok assessment =>
          if RBACService.CheckTeamPermission db user.ID assessment.TeamID
              ResourceAssessment ActionUpdate = false then
            (db, (403, "Insufficient permissions"))
          else if assessment.Status ≠ StatusInProgress then
            (db, (400, "Assessment is already completed"))
          else
            match body with
            | .error err => (db, (400, err.Error))
            | .ok responses =>
              match SurveyService.SaveResponses AssessmentService.SaveResponse toLower source
                  db assessmentID sectionName responses with
              | (db1, .error err) => (db1, (500, err.Error))
              | (db1, .ok _) => (db1, (200, "Responses saved successfully"))

/-! ## AuthService -/

/-- GetUserByID retrieves a user by ID. -/
def UserService.GetUserByID (db : Database) (id : Int) : Except Error User :=
  match db.users.find? (fun u => decide (u.ID = id)) with
  | some user => .ok user
  | none => .error Error.ErrUserNotFound

/-- DeleteSession deletes a session. -/
def AuthService.DeleteSession (db : Database) (token : String) : Database :=
  { db with user_sessions := db.user_sessions.filter (fun s => decide (s.SessionToken ≠ token)) }

/-- TouchSession updates the session's last activity time (`dbNow` is the database clock). -/
def AuthService.TouchSession (db : Database) (dbNow : Int) (sessionID : Int) : Database :=
  { db with
    user_sessions := db.user_sessions.map (fun s =>
      if s.ID = sessionID then { s with UpdatedAt := dbNow } else s) }

/-- ValidateSession validates a session token and returns the session; `now` is
`time.Now()`. -/
def AuthService.ValidateSession (db : Database) (now dbNow : Int) (token : String) :
    Database × Except Error Session :=
  match db.user_sessions.find? (fun s => decide (s.SessionToken = token)) with
  | none => (db, .error Error.ErrSessionNotFound)
  | some session =>
    if now > session.ExpiresAt then
      (AuthService.DeleteSession db token, .error Error.ErrSessionExpired)
    else
      match UserService.GetUserByID db session.UserID with
      | .error err => (db, .error (Error.Wrap "failed to get user" err))
      | .ok user =>
        (AuthService.TouchSession db dbNow session.ID, .ok { session with User := some user })

/-! ## UserService: deactivation and credentials -/

/-- GetUserByEmail retrieves a user by email. -/
def UserService.GetUserByEmail (db : Database) (email : String) : Except Error User :=
  match db.users.find? (fun u => decide (u.Email = email)) with
  | some user => .ok user
  | none => .error Error.ErrUserNotFound

/-- DeleteUser soft deletes a user by setting is_active to false; the call fails when the
`UPDATE` changed no row. -/
def UserService.DeleteUser (db : Database) (userID : Int) : Database × Except Error Unit :=
  let affected := (db.users.filter (fun u => decide (u.ID = userID ∧ u.IsActive = true))).length
  let db1 := { db with
    users := db.users.map (fun u => if u.ID = userID then { u with IsActive := false } else u) }
  if affected = 0 then (db1, .error Error.ErrUserNotFound) else (db1, .ok ())

/-- ValidateCredentials validates user credentials; `passwordMatches hash password` is
`bcrypt.CompareHashAndPassword`. -/
def UserService.ValidateCredentials (passwordMatches : String → String → Bool)
    (db : Database) (email password : String) : Except Error User :=
  match UserService.GetUserByEmail db email with
  | .error err =>
    if err = Error.ErrUserNotFound then .error Error.ErrInvalidCredentials else .error err
  | .ok user =>
    if user.IsActive = false then .error Error.ErrUserInactive
    else if passwordMatches user.PasswordHash password = false then
      .error Error.ErrInvalidCredentials
    else .ok user

/-! ## Results and CSV export

`formatFloat` is `strconv.FormatFloat(x, 'f', 1, 64)` (and the verb `%.1f`), `isSpace` is
`unicode.IsSpace`.  The CSV writer receives rows of cells; its encoding is outside the
model. -/

/-- GetTeamByID retrieves a team by ID. -/
def TeamService.GetTeamByID (db : Database) (id : Int) : Except Error Team :=
  match db.teams.find? (fun t => decide (t.ID = id)) with
  | some team => .ok team
  | none => .error Error.ErrTeamNotFound

/-- GetAssessmentResults retrieves calculated results for a completed assessment;
`scoresRead` and `responsesRead` are what its two row loops meet. -/
def SurveyService.GetAssessmentResults
    (rangeOrder : List (String × SectionScore) → List (String × SectionScore))
    (scoresRead responsesRead : RowsOutcome)
    (source : Except Error (List Section)) (db : Database) (assessmentID : Int) :
    Except Error AssessmentResults :=
  match AssessmentService.GetAssessmentByID db assessmentID with
  | .error err => .error err
  | .ok assessment =>
    if assessment.Status ≠ StatusCompleted then
      .error (Error.New "assessment is not completed")
    else
      match AssessmentService.GetAssessmentScores scoresRead db assessmentID with
      | .error err => .error (Error.Wrap "failed to load section scores" err)
      | .ok sectionScores =>
        match source with
        | .error err => .error (Error.Wrap "failed to load questions" err)
        | .ok sections =>
          let survey := LoadQuestions sections
          match AssessmentService.GetAssessmentResponses responsesRead db assessmentID with
          | .error err => .error (Error.Wrap "failed to load responses" err)
          | .ok responses =>
            let survey := ApplyResponses survey responses
            .ok { AssessmentID := assessmentID,
                  Team := match TeamService.GetTeamByID db assessment.TeamID with
                    | .ok team => some team
                    | .error _ => none,
                  SectionScores := sectionScores,
                  SubCategoryScores :=
                    collectSubCategoryScores rangeOrder survey assessmentID,
                  Survey := survey }

/-- The Go function `strings.TrimSpace`: leading and trailing white space removed. -/
def TrimSpace (isSpace : Char → Bool) (s : String) : String :=
  String.mk (((s.data.dropWhile isSpace).reverse.dropWhile isSpace).reverse)

/-- The "Possible Answers" text of a row, before trimming. -/
def possibleAnswersText (formatFloat : ℚ → String) (question : Question) : String :=
  let start :=
    if question.Type_ = "Option" then "Choose one of:\n"
    else if question.Type_ = "Checkbox" then "Choose all that apply:\n"
    else ""
  question.Answers.foldl (fun text answer =>
    text ++ (answer.Answer ++ " (" ++ formatFloat answer.Score ++ ")\n")) start

/-- The "Answer(s)" text of a row, before trimming: for every answer ID of the response the
text of the first answer with that ID, followed by a newline. -/
def selectedAnswersText (responseMap : List (String × List String)) (question : Question) :
    String :=
  match mapLookup responseMap question.ID with
  | some answerIDs =>
    answerIDs.foldl (fun text answerID =>
      match question.Answers.find? (fun answer => decide (answer.ID = answerID)) with
      | some answer => text ++ (answer.Answer ++ "\n")
      | none => text) ""
  | none => ""

/-- The achieved score of a row: the score loop of `ExportAssessmentCSV`. -/
def exportScore (responseMap : List (String × List String)) (question : Question) : ℚ :=
  match mapLookup responseMap question.ID with
  | some answerIDs =>
    answerIDs.foldl (fun score answerID =>
      question.Answers.foldl (fun score answer =>
        if answer.ID = answerID ∧ answer.Value = "checked" then score + answer.Score
        else score) score) 0
  | none => 0

/-- The row that `ExportAssessmentCSV` writes for a question. -/
def exportRow (formatFloat : ℚ → String) (isSpace : Char → Bool)
    (responseMap : List (String × List String)) (sec : Section) (question : Question) :
    List String :=
  [sec.SectionName,
   question.SubCategory,
   question.QuestionText,
   TrimSpace isSpace (possibleAnswersText formatFloat question),
   formatFloat (CalculateQuestionMaxScore question),
   TrimSpace isSpace (selectedAnswersText responseMap question),
   formatFloat (exportScore responseMap question)]

/-- The header row of the CSV export. -/
def exportHeader : List String :=
  ["Section", "Sub Category", "Question", "Possible Answers", "Max Score", "Answer(s)", "Score"]

/-- ExportAssessmentCSV exports assessment results to CSV format: the rows handed to the CSV
writer, and the error returned; `scoresRead`, `responsesRead` and `exportRead` are what the
three row loops meet. -/
def SurveyService.ExportAssessmentCSV
    (rangeOrder : List (String × SectionScore) → List (String × SectionScore))
    (formatFloat : ℚ → String) (isSpace : Char → Bool)
    (scoresRead responsesRead exportRead : RowsOutcome)
    (source : Except Error (List Section)) (db : Database) (assessmentID : Int) :
    List (List String) × Except Error Unit :=
  match SurveyService.GetAssessmentResults rangeOrder scoresRead responsesRead source db
      assessmentID with
  | .error err => ([], .error err)
  | .ok results =>
    match AssessmentService.GetAssessmentResponses exportRead db assessmentID with
    | .error err => ([exportHeader], .error (Error.Wrap "failed to load responses" err))
    | .ok responses =>
      let responseMap := buildResponseMap responses
      (results.Survey.Sections.foldl (fun rows sec =>
        sec.Questions.foldl (fun rows question =>
          if question.Answers.length = 0 then rows
          else rows ++ [exportRow formatFloat isSpace responseMap sec question]) rows)
        [exportHeader], .ok ())

/-! ## ResultsHandler -/

/-- ChartData of the results page. -/
structure ChartData where
  Labels : List String
  Data : List ℚ
  Title : String
deriving DecidableEq, Repr

/-- The function prepareChartData prepares data for the radar chart (`none` is a nil
pointer). -/
def ResultsHandler.prepareChartData (results : Option AssessmentResults) : ChartData :=
  match results with
  | none => { Labels := [], Data := [], Title := "DevOps Maturity by Area" }
  | some results =>
    let labelsAndData := results.SectionScores.foldl (fun (acc : List String × List ℚ) score =>
      (acc.1 ++ [score.SectionName], acc.2 ++ [score.Percentage])) ([], [])
    { Labels := labelsAndData.1, Data := labelsAndData.2, Title := "DevOps Maturity by Area" }

/-! ## Vocabulary used to state the properties -/

/-- The rational `m` is the maximum of the list `l`: it occurs in `l` and bounds it. -/
def IsMaximumOf (m : ℚ) (l : List ℚ) : Prop :=
  m ∈ l ∧ ∀ x ∈ l, x ≤ m

/-- The answer carries the flag `"checked"`. -/
def isChecked (a : Answer) : Bool := decide (a.Value = "checked")

/-- All questions of the survey, in catalog order. -/
def questionsOf (survey : Survey) : List Question :=
  survey.Sections.flatMap (fun sec => sec.Questions)

/-- The checked / not-checked flag of every answer, by section, question and answer position. -/
def checkedFlags (survey : Survey) : List (List (List Bool)) :=
  survey.Sections.map (fun sec => sec.Questions.map (fun q => q.Answers.map isChecked))

/-- The response that a Go map built from `responses` holds for `questionID`: the last one. -/
def lastResponseFor (responses : List Response) (questionID : String) : Option Response :=
  responses.reverse.find? (fun r => decide (r.QuestionID = questionID))

/-- The IDs of the checked answers of a question, in answer order. -/
def checkedIDs (q : Question) : List String :=
  (q.Answers.filter isChecked).map (fun a => a.ID)

/-- The response that extraction produces for one question, if any: a question is covered when
it is not a Banner, has a non-empty ID and has at least one checked answer. -/
def extractOne (assessmentID : Int) (q : Question) : Option Response :=
  if q.Type_ ≠ "Banner" ∧ q.ID ≠ "" ∧ checkedIDs q ≠ [] then
    some { ID := 0, AssessmentID := assessmentID, QuestionID := q.ID, AnswerIDs := checkedIDs q }
  else none

/-- The distinct non-empty subcategory labels among the questions. -/
def subCategoryLabels (questions : List Question) : List String :=
  ((questions.map (fun q => q.SubCategory)).filter (fun l => decide (l ≠ ""))).dedup

/-- The running totals of the questions labelled `label`: the map entry of that label. -/
def groupTotals (assessmentID : Int) (questions : List Question) (label : String) :
    SectionScore :=
  { ID := 0, AssessmentID := assessmentID, SectionName := label,
    Score := ((questions.filter (fun q => decide (q.SubCategory = label))).map
      CalculateQuestionScore).sum,
    MaxScore := ((questions.filter (fun q => decide (q.SubCategory = label))).map
      CalculateQuestionMaxScore).sum,
    Percentage := 0 }

/-- The subcategory entry of `label`: score and max score summed over the questions labelled
`label`, and the percentage `Score / MaxScore * 100`. -/
def subCategoryEntry (assessmentID : Int) (questions : List Question) (label : String) :
    SectionScore :=
  { ID := 0, AssessmentID := assessmentID, SectionName := label,
    Score := ((questions.filter (fun q => decide (q.SubCategory = label))).map
      CalculateQuestionScore).sum,
    MaxScore := ((questions.filter (fun q => decide (q.SubCategory = label))).map
      CalculateQuestionMaxScore).sum,
    Percentage :=
      ((questions.filter (fun q => decide (q.SubCategory = label))).map
        CalculateQuestionScore).sum
      / ((questions.filter (fun q => decide (q.SubCategory = label))).map
        CalculateQuestionMaxScore).sum * 100 }

/-- The selection that the form map holds for a question: for an Option question the first
value under the question's ID, when that key is present with at least one value; for a Checkbox
question the question's answer IDs, in answer order, that occur as keys of the form map. -/
def selectionOf (formData : List (String × List String)) (q : Question) : List String :=
  if q.Type_ = "Option" then
    match mapLookup formData q.ID with
    | some (first :: _) => [first]
    | _ => []
  else if q.Type_ = "Checkbox" then
    (q.Answers.filter (fun a => (mapLookup formData a.ID).isSome)).map (fun a => a.ID)
  else []

/-- Saving the responses of a list one after the other, stopping at the first failure. -/
def saveInOrder {σ : Type} (SaveResponse : σ → Response → Except Error σ) :
    List Response → σ → σ × Except Error Unit
  | [], st => (st, .ok ())
  | response :: rest, st =>
    match SaveResponse st response with
    | .error err => (st, .error (Error.Wrap "failed to save response" err))
    | .ok st1 => saveInOrder SaveResponse rest st1

/-- A ledger that accepts every response and records the calls in order. -/
def recordCall (log : List Response) (response : Response) : Except Error (List Response) :=
  .ok (log ++ [response])

/-- The stored response of a question of an assessment, if any. -/
def storedResponse (db : Database) (assessmentID : Int) (questionID : String) :
    Option Response :=
  db.responses.find? (fun r => decide (r.AssessmentID = assessmentID ∧ r.QuestionID = questionID))

/-- A call of the assessment lifecycle: Start, Save (a section's responses) or Complete (with
what the row loop of its read meets). -/
inductive LifecycleCall where
  | Start (teamID userID : Int) (generated : String) (now : Int)
  | Save (assessmentID : Int) (sectionName : String) (formData : List (String × List String))
  | Complete (assessmentID : Int) (now : Int) (read : RowsOutcome)
deriving Repr

/-- The database after one lifecycle call (whether the call succeeds or fails). -/
def runCall (rangeOrder : List (String × SectionScore) → List (String × SectionScore))
    (columns : ScoreColumns) (toLower : Char → Char) (source : Except Error (List Section))
    (db : Database) : LifecycleCall → Database
  | .Start teamID userID generated now =>
    (SurveyService.StartAssessment source now generated db teamID userID).1
  | .Save assessmentID sectionName formData =>
    (SurveyService.SaveResponses AssessmentService.SaveResponse toLower source db assessmentID
      sectionName formData).1
  | .Complete assessmentID now read =>
    (SurveyService.CalculateResults rangeOrder columns read source now db assessmentID).1

/-- The database after a sequence of lifecycle calls. -/
def runCalls (rangeOrder : List (String × SectionScore) → List (String × SectionScore))
    (columns : ScoreColumns) (toLower : Char → Char) (source : Except Error (List Section))
    (calls : List LifecycleCall) (db : Database) : Database :=
  calls.foldl (runCall rangeOrder columns toLower source) db

/-- The rows of `assessments` with the given ID. -/
def assessmentRows (db : Database) (assessmentID : Int) : List Assessment :=
  db.assessments.filter (fun a => decide (a.ID = assessmentID))

/-- The role grants the permission `(resource, action)`: `role_permissions` links it to a row
of `permissions` with that resource and action. -/
def roleGrants (db : Database) (roleID : Int) (resource action : String) : Prop :=
  ∃ rp ∈ db.role_permissions, rp.RoleID = roleID ∧
    ∃ p ∈ db.permissions, p.ID = rp.PermissionID ∧ p.Resource = resource ∧ p.Action = action

/-- The number written by a list of decimal digits. -/
def decodeDigits (l : List Char) : Nat :=
  l.foldl (fun acc c => acc * 10 + (c.toNat - 48)) 0

/-- The URL name in the words of the specification: the lower-cased name with every comma
removed and every space replaced by a hyphen. -/
def specSlug (toLower : Char → Char) (name : String) : String :=
  let lower := name.data.map toLower
  let noCommas := lower.filter (fun c => decide (c ≠ ','))
  String.mk (noCommas.map (fun c => if c = ' ' then '-' else c))

/-- The radar position of the section with a given name. -/
def spiderPosOf (survey : Survey) (sectionName : String) : Option Int :=
  (survey.Sections.find? (fun sec => decide (sec.SectionName = sectionName))).map
    (fun sec => sec.SpiderPos)

/-- The data rows of the export over a loaded catalog: one row for every question with at
least one answer, sections in order and questions in order within a section.  The question
of a row carries the flags of the responses applied by `GetAssessmentResults` (`flags`), and
the row is built with the answer IDs read by the export (`ids`). -/
def exportRows (formatFloat : ℚ → String) (isSpace : Char → Bool)
    (flags ids : List (String × List String)) (survey : Survey) : List (List String) :=
  survey.Sections.flatMap (fun sec =>
    (sec.Questions.filter (fun q => decide (q.Answers.length ≠ 0))).map
      (fun q => exportRow formatFloat isSpace ids sec (applyToQuestion flags q)))

/-- A string with its trailing white space removed and nothing else. -/
def trimTrailing (isSpace : Char → Bool) (s : String) : String :=
  String.mk ((s.data.reverse.dropWhile isSpace).reverse)

/-- The texts of the selected answers of a question, one per line: for every answer ID of the
response, in the order of the response, the text of the first answer of the question with
that ID followed by a newline (an ID of no answer contributes nothing). -/
def selectedTexts (q : Question) (answerIDs : List String) : String :=
  String.join (answerIDs.filterMap (fun answerID =>
    (q.Answers.find? (fun answer => decide (answer.ID = answerID))).map
      (fun answer => answer.Answer ++ "\n")))

/-- The server accepts the name and the three numbers of a section score. -/
def accepts (columns : ScoreColumns) (e : SectionScore) : Prop :=
  (columns.nameKey e.SectionName).isSome ∧ (columns.toDecimal e.Score).isSome ∧
  (columns.toDecimal e.MaxScore).isSome ∧ (columns.toDecimal e.Percentage).isSome

instance (columns : ScoreColumns) (e : SectionScore) : Decidable (accepts columns e) := by
  unfold accepts
  exact inferInstance

/-- An Option question whose single answer has a negative score. -/
def negativeOption : Question :=
  { ID := "S1-Q1", Type_ := "Option", SubCategory := "", QuestionText := "Penalty?",
    Answers := [{ ID := "S1-Q1-A1", Answer := "Yes", Score := -1, Value := "" }] }

/-- The implicit yes/no Option question. -/
def yesNoOption : Question :=
  { ID := "S1-Q1", Type_ := "Option", SubCategory := "", QuestionText := "Do you deploy daily?",
    Answers := [{ ID := "S1-Q1-A1", Answer := "Yes", Score := 1, Value := "checked" },
                { ID := "S1-Q1-A2", Answer := "No", Score := 0, Value := "" }] }

/-- A catalog with one Option question whose answers score 1 and 2. -/
def twoAnswerCatalog : Survey :=
  { Sections :=
      [{ SectionName := "Culture", SpiderPos := 1, HasSubCategories := false,
         Questions :=
           [{ ID := "S1-Q1", Type_ := "Option", SubCategory := "",
              QuestionText := "How often do you release?",
              Answers := [{ ID := "S1-Q1-A1", Answer := "Monthly", Score := 1, Value := "" },
                          { ID := "S1-Q1-A2", Answer := "Daily", Score := 2, Value := "" }] }] }] }

/-- A response that selects both answers of the Option question of `twoAnswerCatalog`. -/
def bothAnswers : List Response :=
  [{ ID := 1, AssessmentID := 7, QuestionID := "S1-Q1",
     AnswerIDs := ["S1-Q1-A1", "S1-Q1-A2"] }]

/-- A response that selects the first answer of the Option question of `twoAnswerCatalog`. -/
def firstAnswer : List Response :=
  [{ ID := 1, AssessmentID := 7, QuestionID := "S1-Q1", AnswerIDs := ["S1-Q1-A1"] }]

/-- The section score of `twoAnswerCatalog` after the response `firstAnswer`: 1 of 2. -/
def halfScore : SectionScore :=
  { ID := 0, AssessmentID := 7, SectionName := "Culture", Score := 1, MaxScore := 2,
    Percentage := 50 }

/-- A parsed section list in which a Banner carries an authored ID and an authored answer ID
(both fields are read from the JSON source), next to a yes/no question answered "Yes". -/
def parsedWithBannerID : List Section :=
  [{ SectionName := "Culture", SpiderPos := 1, HasSubCategories := false,
     Questions :=
       [{ ID := "", Type_ := "Option", SubCategory := "",
          QuestionText := "Do you deploy daily?",
          Answers := [{ ID := "", Answer := "Yes", Score := 1, Value := "checked" },
                      { ID := "", Answer := "No", Score := 0, Value := "" }] },
        { ID := "S1-Q1", Type_ := "Banner", SubCategory := "",
          QuestionText := "Next: delivery",
          Answers := [{ ID := "S1-Q1-A1", Answer := "", Score := 0, Value := "" }] }] }]

/-- A parsed Banner, without ID and without answers. -/
def welcomeBanner : Question :=
  { ID := "", Type_ := "Banner", SubCategory := "", QuestionText := "Welcome", Answers := [] }

/-- A parsed Option question with authored answers, the first one checked. -/
def deployQuestion : Question :=
  { ID := "", Type_ := "Option", SubCategory := "", QuestionText := "Do you deploy daily?",
    Answers := [{ ID := "", Answer := "Often", Score := 1, Value := "checked" },
                { ID := "", Answer := "Rarely", Score := 0, Value := "" }] }

/-- A parsed Checkbox question with three authored answers, two of them checked. -/
def checksQuestion : Question :=
  { ID := "", Type_ := "Checkbox", SubCategory := "",
    QuestionText := "Which checks run on every commit?",
    Answers := [{ ID := "", Answer := "Unit tests", Score := 2, Value := "checked" },
                { ID := "", Answer := "Lint", Score := 1, Value := "" },
                { ID := "", Answer := "Security scan", Score := 3, Value := "checked" }] }

/-- A parsed Option question without authored answers. -/
def bareQuestion : Question :=
  { ID := "", Type_ := "Option", SubCategory := "", QuestionText := "Is trunk always green?",
    Answers := [] }

/-- A parsed section: a Banner followed by three questions. -/
def cultureSection : Section :=
  { SectionName := "Culture", SpiderPos := 1, HasSubCategories := false,
    Questions := [welcomeBanner, deployQuestion, checksQuestion, bareQuestion] }

/-- A parsed section list with one section. -/
def parsedAnswered : List Section := [cultureSection]

/-- A section whose questions carry the labels Build, Test, Build and no label. -/
def deliverySection : Section :=
  { SectionName := "Delivery", SpiderPos := 2, HasSubCategories := true,
    Questions :=
      [{ ID := "S1-Q1", Type_ := "Checkbox", SubCategory := "Build",
         QuestionText := "Which build steps are automated?",
         Answers := [{ ID := "S1-Q1-A1", Answer := "Compile", Score := 2, Value := "checked" },
                     { ID := "S1-Q1-A2", Answer := "Package", Score := 1, Value := "" }] },
       { ID := "S1-Q2", Type_ := "Option", SubCategory := "Test",
         QuestionText := "Do tests gate every merge?",
         Answers := [{ ID := "S1-Q2-A1", Answer := "Yes", Score := 1, Value := "checked" },
                     { ID := "S1-Q2-A2", Answer := "No", Score := 0, Value := "" }] },
       { ID := "S1-Q3", Type_ := "Option", SubCategory := "Build",
         QuestionText := "Are builds reproducible?",
         Answers := [{ ID := "S1-Q3-A1", Answer := "Yes", Score := 1, Value := "" },
                     { ID := "S1-Q3-A2", Answer := "No", Score := 0, Value := "checked" }] },
       { ID := "S1-Q4", Type_ := "Option", SubCategory := "",
         QuestionText := "Is the pipeline documented?",
         Answers := [{ ID := "S1-Q4-A1", Answer := "Yes", Score := 1, Value := "checked" },
                     { ID := "S1-Q4-A2", Answer := "No", Score := 0, Value := "" }] }] }

/-- A catalog with the single section `deliverySection`. -/
def labelledCatalog : Survey := { Sections := [deliverySection] }

/-- A parsed section list without authored flags: a Banner and a question without answers. -/
def parsedClean : List Section :=
  [{ SectionName := "Culture", SpiderPos := 1, HasSubCategories := false,
     Questions := [welcomeBanner, bareQuestion] }]

/-- The question `bareQuestion` as loaded at position `(0, 1)`. -/
def loadedBareQuestion : Question :=
  { ID := "S1-Q2", Type_ := "Option", SubCategory := "",
    QuestionText := "Is trunk always green?",
    Answers := [{ ID := "S1-Q2-A1", Answer := "Yes", Score := 1, Value := "" },
                { ID := "S1-Q2-A2", Answer := "No", Score := 0, Value := "" }] }

/-- The section of `parsedClean` as loaded. -/
def loadedCleanSection : Section :=
  { SectionName := "Culture", SpiderPos := 1, HasSubCategories := false,
    Questions := [welcomeBanner, loadedBareQuestion] }

/-- A form map: `S1-Q2` answered with its first answer, and the checkbox `S1-Q3-A3` ticked. -/
def sampleForm : List (String × List String) :=
  [("S1-Q2", ["S1-Q2-A1"]), ("S1-Q3-A3", ["on"])]

/-- The section of `parsedAnswered` as loaded. -/
def loadedCultureSection : Section :=
  { SectionName := "Culture", SpiderPos := 1, HasSubCategories := false,
    Questions :=
      [welcomeBanner,
       { ID := "S1-Q2", Type_ := "Option", SubCategory := "",
         QuestionText := "Do you deploy daily?",
         Answers := [{ ID := "S1-Q2-A1", Answer := "Often", Score := 1, Value := "checked" },
                     { ID := "S1-Q2-A2", Answer := "Rarely", Score := 0, Value := "" }] },
       { ID := "S1-Q3", Type_ := "Checkbox", SubCategory := "",
         QuestionText := "Which checks run on every commit?",
         Answers := [{ ID := "S1-Q3-A1", Answer := "Unit tests", Score := 2, Value := "checked" },
                     { ID := "S1-Q3-A2", Answer := "Lint", Score := 1, Value := "" },
                     { ID := "S1-Q3-A3", Answer := "Security scan", Score := 3,
                       Value := "checked" }] },
       { ID := "S1-Q4", Type_ := "Option", SubCategory := "",
         QuestionText := "Is trunk always green?",
         Answers := [{ ID := "S1-Q4-A1", Answer := "Yes", Score := 1, Value := "" },
                     { ID := "S1-Q4-A2", Answer := "No", Score := 0, Value := "" }] }] }

/-- A database with one in-progress assessment (ID 1) that holds a response for `S1-Q4`. -/
def sampleDB : Database :=
  { users := [{ ID := 1, Email := "ana@example.org", PasswordHash := "x", FirstName := "Ana",
                LastName := "Diaz", IsActive := true }],
    teams := [{ ID := 1, Name := "Platform", GroupID := none }],
    permissions := [{ ID := 1, Resource := "assessment", Action := "update" }],
    role_permissions := [{ RoleID := 1, PermissionID := 1 }],
    user_groups := [],
    user_teams := [{ UserID := 1, TeamID := 1, RoleID := 1 }],
    assessments := [{ ID := 1, TeamID := 1, CreatedBy := 1, SessionID := "s-1",
                      Status := "in_progress", CreatedAt := 100, CompletedAt := none }],
    responses := [{ ID := 1, AssessmentID := 1, QuestionID := "S1-Q4",
                    AnswerIDs := ["S1-Q4-A2"] }],
    section_scores := [],
    user_sessions := [] }

/-- The database `sampleDB` with its assessment completed at instant 200. -/
def completedDB : Database :=
  { sampleDB with
    assessments := [{ ID := 1, TeamID := 1, CreatedBy := 1, SessionID := "s-1",
                      Status := "completed", CreatedAt := 100, CompletedAt := some 200 }] }

/-- The assessment of `completedDB`. -/
def completedAssessment : Assessment :=
  { ID := 1, TeamID := 1, CreatedBy := 1, SessionID := "s-1", Status := "completed",
    CreatedAt := 100, CompletedAt := some 200 }

/-- The user of `sampleDB`. -/
def sampleUser : User :=
  { ID := 1, Email := "ana@example.org", PasswordHash := "x", FirstName := "Ana",
    LastName := "Diaz", IsActive := true }

/-- A parsed catalog with one section whose only question is an Option question with the
implicit answers Yes (1) and No (0). -/
def singleCatalog : List Section :=
  [{ SectionName := "Culture", SpiderPos := 1, HasSubCategories := false,
     Questions := [bareQuestion] }]

/-- A parsed catalog with two sections of the same name. -/
def duplicateNames : List Section :=
  [{ SectionName := "Culture", SpiderPos := 1, HasSubCategories := false,
     Questions := [bareQuestion] },
   { SectionName := "Culture", SpiderPos := 2, HasSubCategories := false,
     Questions := [bareQuestion] }]

/-- The database `sampleDB` with the stored responses `{S1-Q1: [S1-Q1-A1]}`. -/
def answeredDB : Database :=
  { sampleDB with
    responses := [{ ID := 1, AssessmentID := 1, QuestionID := "S1-Q1",
                    AnswerIDs := ["S1-Q1-A1"] }] }

/-- The assessment of `sampleDB` and `answeredDB`. -/
def sampleAssessment : Assessment :=
  { ID := 1, TeamID := 1, CreatedBy := 1, SessionID := "s-1", Status := "in_progress",
    CreatedAt := 100, CompletedAt := none }

/-- The catalog loaded from `singleCatalog` with the response `S1-Q1-A1` applied. -/
def appliedSingle : Survey :=
  { Sections :=
      [{ SectionName := "Culture", SpiderPos := 1, HasSubCategories := false,
         Questions :=
           [{ ID := "S1-Q1", Type_ := "Option", SubCategory := "",
              QuestionText := "Is trunk always green?",
              Answers := [{ ID := "S1-Q1-A1", Answer := "Yes", Score := 1, Value := "checked" },
                          { ID := "S1-Q1-A2", Answer := "No", Score := 0, Value := "" }] }] }] }

/-- The catalog loaded from `duplicateNames` with the response `S1-Q1-A1` applied. -/
def appliedDuplicate : Survey :=
  { Sections :=
      [{ SectionName := "Culture", SpiderPos := 1, HasSubCategories := false,
         Questions :=
           [{ ID := "S1-Q1", Type_ := "Option", SubCategory := "",
              QuestionText := "Is trunk always green?",
              Answers := [{ ID := "S1-Q1-A1", Answer := "Yes", Score := 1, Value := "checked" },
                          { ID := "S1-Q1-A2", Answer := "No", Score := 0, Value := "" }] }] },
       { SectionName := "Culture", SpiderPos := 2, HasSubCategories := false,
         Questions :=
           [{ ID := "S2-Q1", Type_ := "Option", SubCategory := "",
              QuestionText := "Is trunk always green?",
              Answers := [{ ID := "S2-Q1-A1", Answer := "Yes", Score := 1, Value := "" },
                          { ID := "S2-Q1-A2", Answer := "No", Score := 0, Value := "" }] }] }] }

/-- The section score 1 of 1 (100 percent) of the section Culture for assessment 1. -/
def fullScore : SectionScore :=
  { ID := 0, AssessmentID := 1, SectionName := "Culture", Score := 1, MaxScore := 1,
    Percentage := 100 }

/-- The section score 0 of 1 (0 percent) of the section Culture for assessment 1. -/
def zeroScore : SectionScore :=
  { ID := 0, AssessmentID := 1, SectionName := "Culture", Score := 0, MaxScore := 1,
    Percentage := 0 }

/-- A database whose assessment 1 is completed, with the persisted section score 0 of 1 and
the stored responses `{S1-Q1: [S1-Q1-A1]}`. -/
def staleDB : Database :=
  { completedDB with
    responses := [{ ID := 1, AssessmentID := 1, QuestionID := "S1-Q1",
                    AnswerIDs := ["S1-Q1-A1"] }],
    section_scores := [{ ID := 1, AssessmentID := 1, SectionName := "Culture", Score := 0,
                         MaxScore := 1, Percentage := 0 }] }

/-- A membership store: user 1 holds role 1 (assessment:read) on team 1, which has no group;
team 2 belongs to group 5, on which user 2 holds role 1. -/
def membershipDB : Database :=
  { users := [], assessments := [], responses := [], section_scores := [],
    user_sessions := [],
    teams := [{ ID := 1, Name := "Platform", GroupID := none },
              { ID := 2, Name := "Payments", GroupID := some 5 }],
    permissions := [{ ID := 10, Resource := "assessment", Action := "read" }],
    role_permissions := [{ RoleID := 1, PermissionID := 10 }],
    user_groups := [{ UserID := 2, GroupID := 5, RoleID := 1 }],
    user_teams := [{ UserID := 1, TeamID := 1, RoleID := 1 }] }

/-- A session of user 1 that expires at instant 1000. -/
def sampleSession : Session :=
  { ID := 1, UserID := 1, SessionToken := "tok-1", ExpiresAt := 1000, CreatedAt := 10,
    UpdatedAt := 10, User := none }

/-- The database `sampleDB` with the session `sampleSession`. -/
def sessionDB : Database :=
  { sampleDB with user_sessions := [sampleSession] }

/-- A catalog whose second section comes first on the radar. -/
def chartCatalog : Survey :=
  { Sections :=
      [{ SectionName := "Culture", SpiderPos := 2, HasSubCategories := false, Questions := [] },
       { SectionName := "Delivery", SpiderPos := 1, HasSubCategories := false,
         Questions := [] }] }

/-- Results over `chartCatalog` with the section scores in the order of the section names,
as `GetAssessmentScores` returns them. -/
def chartResults : AssessmentResults :=
  { AssessmentID := 1, Team := none,
    SectionScores :=
      [{ ID := 1, AssessmentID := 1, SectionName := "Culture", Score := 1, MaxScore := 2,
         Percentage := 50 },
       { ID := 2, AssessmentID := 1, SectionName := "Delivery", Score := 3, MaxScore := 4,
         Percentage := 75 }],
    SubCategoryScores := [], Survey := chartCatalog }

/-- The one-decimal rendering of a non-negative rational with at most one decimal digit, as
`strconv.FormatFloat(x, 'f', 1, 64)` prints such a value. -/
def formatTenths (x : ℚ) : String :=
  let tenths := (Int.floor (x * 10)).toNat
  Nat.repr (tenths / 10) ++ "." ++ Nat.repr (tenths % 10)

/-- A parsed catalog with one Checkbox question whose first answer text starts with a
space. -/
def spacedCatalog : List Section :=
  [{ SectionName := "Culture", SpiderPos := 1, HasSubCategories := false,
     Questions :=
       [{ ID := "", Type_ := "Checkbox", SubCategory := "",
          QuestionText := "Which reviews happen?",
          Answers := [{ ID := "", Answer := " Design review", Score := 1, Value := "" },
                      { ID := "", Answer := "Code review", Score := 2, Value := "" }] }] }]

/-- The database `completedDB` with the stored response `{S1-Q1: [S1-Q1-A1, S1-Q1-A2]}`. -/
def bothSelectedDB : Database :=
  { completedDB with
    responses := [{ ID := 1, AssessmentID := 1, QuestionID := "S1-Q1",
                    AnswerIDs := ["S1-Q1-A1", "S1-Q1-A2"] }] }

/-- The Checkbox question of `spacedCatalog` after loading. -/
def loadedSpacedQuestion : Question :=
  { ID := "S1-Q1", Type_ := "Checkbox", SubCategory := "",
    QuestionText := "Which reviews happen?",
    Answers := [{ ID := "S1-Q1-A1", Answer := " Design review", Score := 1, Value := "" },
                { ID := "S1-Q1-A2", Answer := "Code review", Score := 2, Value := "" }] }

/-- The section of `spacedCatalog` after loading. -/
def loadedSpacedSection : Section :=
  { SectionName := "Culture", SpiderPos := 1, HasSubCategories := false,
    Questions := [loadedSpacedQuestion] }

/-- The stored response of `bothSelectedDB`. -/
def bothSelected : Response :=
  { ID := 1, AssessmentID := 1, QuestionID := "S1-Q1",
    AnswerIDs := ["S1-Q1-A1", "S1-Q1-A2"] }

/-- A stored response list whose only response names the answer `S1-Q1-A1` twice. -/
def repeatedChoice : List Response :=
  [{ ID := 1, AssessmentID := 1, QuestionID := "S1-Q1",
     AnswerIDs := ["S1-Q1-A1", "S1-Q1-A1"] }]

/-- A stored response list whose only response selects the answer `S1-Q1-A1`. -/
def singleChoice : List Response :=
  [{ ID := 1, AssessmentID := 1, QuestionID := "S1-Q1", AnswerIDs := ["S1-Q1-A1"] }]

/-- The question of `singleCatalog` after loading. -/
def loadedSingleQuestion : Question :=
  { ID := "S1-Q1", Type_ := "Option", SubCategory := "",
    QuestionText := "Is trunk always green?",
    Answers := [{ ID := "S1-Q1-A1", Answer := "Yes", Score := 1, Value := "" },
                { ID := "S1-Q1-A2", Answer := "No", Score := 0, Value := "" }] }

/-- A form map that submits the value `bogus` for the Option question `S1-Q2`. -/
def bogusForm : List (String × List String) :=
  [("S1-Q2", ["bogus"])]

/-- The response recorded for the Checkbox question `S1-Q3` under `sampleForm`. -/
def checkboxResponse : Response :=
  { ID := 0, AssessmentID := 1, QuestionID := "S1-Q3", AnswerIDs := ["S1-Q3-A3"] }

/-- A section in which every question that is not a Banner carries a label; the questions
labelled Docs have the maximum score 0. -/
def groupedSection : Section :=
  { SectionName := "Delivery", SpiderPos := 1, HasSubCategories := true,
    Questions :=
      [{ ID := "", Type_ := "Banner", SubCategory := "", QuestionText := "Delivery",
         Answers := [] },
       { ID := "S1-Q2", Type_ := "Checkbox", SubCategory := "Build",
         QuestionText := "Which build steps are automated?",
         Answers := [{ ID := "S1-Q2-A1", Answer := "Compile", Score := 2, Value := "checked" },
                     { ID := "S1-Q2-A2", Answer := "Package", Score := 1, Value := "" }] },
       { ID := "S1-Q3", Type_ := "Option", SubCategory := "Docs",
         QuestionText := "Is the pipeline documented?",
         Answers := [{ ID := "S1-Q3-A1", Answer := "Yes", Score := 0, Value := "checked" },
                     { ID := "S1-Q3-A2", Answer := "No", Score := 0, Value := "" }] },
       { ID := "S1-Q4", Type_ := "Option", SubCategory := "Build",
         QuestionText := "Are builds reproducible?",
         Answers := [{ ID := "S1-Q4-A1", Answer := "Yes", Score := 1, Value := "checked" },
                     { ID := "S1-Q4-A2", Answer := "No", Score := 0, Value := "" }] }] }

/-- A catalog with the single section `groupedSection`. -/
def groupedCatalog : Survey := { Sections := [groupedSection] }

/-- A server in strict mode whose collation ignores the case of ASCII letters: numbers of
magnitude below 1000 are stored (the examples have at most two decimals, which the column
keeps), names of at most 100 characters are accepted and compared without case. -/
def sampleColumns : ScoreColumns :=
  { toDecimal := fun x => if -1000 < x ∧ x < 1000 then some x else none,
    nameKey := fun name =>
      if name.length ≤ 100 then some (String.mk (name.data.map Char.toLower)) else none }

/-- The database `completedDB` with the stored response `{S1-Q1: [S1-Q1-A1, S1-Q1-A1]}` and
the persisted section score 1 of 1. -/
def repeatedDB : Database :=
  { completedDB with
    responses := [{ ID := 1, AssessmentID := 1, QuestionID := "S1-Q1",
                    AnswerIDs := ["S1-Q1-A1", "S1-Q1-A1"] }],
    section_scores := [{ ID := 1, AssessmentID := 1, SectionName := "Culture", Score := 1,
                         MaxScore := 1, Percentage := 100 }] }

/-! ## Loop lemmas -/

theorem foldl_add_eq_sum {α : Type} (f : α → ℚ) (l : List α) (init : ℚ) :
    l.foldl (fun acc x => acc + f x) init = init + (l.map f).sum := by
  induction l generalizing init with
  | nil => simp
  | cons x xs ih => simp [ih, add_assoc]

theorem foldl_cond_add_eq_sum {α : Type} (p : α → Bool) (f : α → ℚ) (l : List α) (init : ℚ) :
    l.foldl (fun acc x => if p x then acc + f x else acc) init
      = init + ((l.filter p).map f).sum := by
  induction l generalizing init with
  | nil => simp
  | cons x xs ih =>
    by_cases hp : p x = true
    · simp [ih, hp, add_assoc]
    · simp [ih, hp]

theorem foldl_max_ge_init {α : Type} (f : α → ℚ) (l : List α) (init : ℚ) :
    init ≤ l.foldl (fun m x => if f x > m then f x else m) init := by
  induction l generalizing init with
  | nil => simp
  | cons x xs ih =>
    simp only [List.foldl_cons]
    split
    · exact le_trans (le_of_lt (by assumption)) (ih _)
    · exact ih _

theorem foldl_max_ge_mem {α : Type} (f : α → ℚ) (l : List α) (init : ℚ) :
    ∀ x ∈ l, f x ≤ l.foldl (fun m x => if f x > m then f x else m) init := by
  induction l generalizing init with
  | nil => simp
  | cons y ys ih =>
    intro x hx
    simp only [List.foldl_cons]
    rcases List.mem_cons.1 hx with rfl | hx
    · split
      · exact foldl_max_ge_init f ys _
      · exact le_trans (not_lt.1 (by assumption)) (foldl_max_ge_init f ys _)
    · exact ih _ x hx

theorem foldl_max_eq_init_or_mem {α : Type} (f : α → ℚ) (l : List α) (init : ℚ) :
    l.foldl (fun m x => if f x > m then f x else m) init = init ∨
      ∃ x ∈ l, l.foldl (fun m x => if f x > m then f x else m) init = f x := by
  induction l generalizing init with
  | nil => simp
  | cons y ys ih =>
    simp only [List.foldl_cons]
    split
    · rcases ih (f y) with h | ⟨x, hx, h⟩
      · exact Or.inr ⟨y, List.mem_cons_self _ _, h⟩
      · exact Or.inr ⟨x, List.mem_cons_of_mem _ hx, h⟩
    · rcases ih init with h | ⟨x, hx, h⟩
      · exact Or.inl h
      · exact Or.inr ⟨x, List.mem_cons_of_mem _ hx, h⟩

/-! ## C1, C8: score and maximum score of one question -/

/-- C1: evaluation at the failing input.  For the Option question `negativeOption`, whose only
answer scores `-1`, the highest answer score is `-1`, but `CalculateQuestionMaxScore` returns
`0`, the value with which its running maximum starts, which is not the maximum of the answer
scores. -/
theorem CalculateQuestionMaxScore_negativeOption :
    negativeOption.Type_ = "Option" ∧
    negativeOption.Answers.map (fun a => a.Score) = [-1] ∧
    IsMaximumOf (-1) (negativeOption.Answers.map (fun a => a.Score)) ∧
    CalculateQuestionMaxScore negativeOption = 0 ∧
    ¬ IsMaximumOf (CalculateQuestionMaxScore negativeOption)
        (negativeOption.Answers.map (fun a => a.Score)) := by
  refine ⟨by decide, by decide, ?_, by decide, ?_⟩
  · unfold IsMaximumOf
    decide
  · unfold IsMaximumOf
    decide

/-- What `CalculateQuestionMaxScore` computes: `0` for a Banner, the sum of all answer scores
for a Checkbox, and for an Option the maximum of the answer scores as soon as one answer has a
non-negative score, and `0` when no answer has a non-negative score. -/
theorem CalculateQuestionMaxScore_spec (q : Question) :
    (q.Type_ = "Banner" → CalculateQuestionMaxScore q = 0) ∧
    (q.Type_ = "Checkbox" →
      CalculateQuestionMaxScore q = (q.Answers.map (fun a => a.Score)).sum) ∧
    (q.Type_ = "Option" → (∃ a ∈ q.Answers, 0 ≤ a.Score) →
      IsMaximumOf (CalculateQuestionMaxScore q) (q.Answers.map (fun a => a.Score))) ∧
    (q.Type_ = "Option" → (∀ a ∈ q.Answers, a.Score < 0) → CalculateQuestionMaxScore q = 0) := by
  refine ⟨?_, ?_, ?_, ?_⟩
  · intro h
    simp [CalculateQuestionMaxScore, h]
  · intro h
    simp [CalculateQuestionMaxScore, h, foldl_add_eq_sum]
  · intro h ⟨a, ha, hpos⟩
    have hT : CalculateQuestionMaxScore q
        = q.Answers.foldl (fun m x => if x.Score > m then x.Score else m) 0 := by
      simp [CalculateQuestionMaxScore, h]
    rw [hT]
    refine ⟨?_, ?_⟩
    · rcases foldl_max_eq_init_or_mem (fun x : Answer => x.Score) q.Answers 0 with h0 | ⟨x, hx, hx2⟩
      · have hle := foldl_max_ge_mem (fun x : Answer => x.Score) q.Answers 0 a ha
        have hz : a.Score = 0 := le_antisymm (h0 ▸ hle) hpos
        rw [h0]
        exact List.mem_map.2 ⟨a, ha, hz⟩
      · rw [hx2]
        exact List.mem_map.2 ⟨x, hx, rfl⟩
    · intro x hx
      obtain ⟨b, hb, rfl⟩ := List.mem_map.1 hx
      exact foldl_max_ge_mem (fun x : Answer => x.Score) q.Answers 0 b hb
  · intro h hneg
    have hT : CalculateQuestionMaxScore q
        = q.Answers.foldl (fun m x => if x.Score > m then x.Score else m) 0 := by
      simp [CalculateQuestionMaxScore, h]
    rw [hT]
    rcases foldl_max_eq_init_or_mem (fun x : Answer => x.Score) q.Answers 0 with h0 | ⟨x, hx, hx2⟩
    · exact h0
    · have h1 := foldl_max_ge_init (fun x : Answer => x.Score) q.Answers 0
      have h2 := hneg x hx
      rw [hx2] at h1
      exact absurd h1 (not_le.2 h2)

/-- On the yes/no Option question the maximum score is the maximum of the answer scores
`[1, 0]`. -/
theorem CalculateQuestionMaxScore_spec_witness :
    IsMaximumOf (CalculateQuestionMaxScore yesNoOption)
      (yesNoOption.Answers.map (fun a => a.Score)) :=
  (CalculateQuestionMaxScore_spec yesNoOption).2.2.1 (by decide)
    ⟨{ ID := "S1-Q1-A1", Answer := "Yes", Score := 1, Value := "checked" }, by decide, by decide⟩

/-- C8: `CalculateQuestionScore` is `0` for a Banner, whatever flags its answers carry, and for
every other question the sum of the scores of the answers whose `Value` is `"checked"`. -/
theorem CalculateQuestionScore_spec (q : Question) :
    CalculateQuestionScore q =
      if q.Type_ = "Banner" then 0
      else ((q.Answers.filter (fun a => decide (a.Value = "checked"))).map
              (fun a => a.Score)).sum := by
  unfold CalculateQuestionScore
  split
  · rfl
  · have := foldl_cond_add_eq_sum (fun a : Answer => decide (a.Value = "checked"))
      (fun a => a.Score) q.Answers 0
    simpa using this

/-! ## C2: section scores -/

theorem foldl_cond_append {α β : Type} (p : α → Bool) (g : α → β) (l : List α)
    (init : List β) :
    l.foldl (fun acc x => if p x then acc ++ [g x] else acc) init
      = init ++ (l.filter p).map g := by
  induction l generalizing init with
  | nil => simp
  | cons x xs ih =>
    by_cases hp : p x = true
    · simp [ih, hp]
    · simp [ih, hp]

theorem foldl_totals (qs : List Question) (a b : ℚ) :
    qs.foldl (fun (acc : ℚ × ℚ) question =>
        (acc.1 + CalculateQuestionScore question, acc.2 + CalculateQuestionMaxScore question))
      (a, b)
      = (a + (qs.map CalculateQuestionScore).sum, b + (qs.map CalculateQuestionMaxScore).sum) := by
  induction qs generalizing a b with
  | nil => simp
  | cons q qs ih => simp [ih, add_assoc]

/-- C2: `CalculateSectionScores` returns, in catalog order, exactly the sections whose summed
`CalculateQuestionMaxScore` is positive, each with `Score` the sum of `CalculateQuestionScore`,
`MaxScore` the sum of `CalculateQuestionMaxScore` and `Percentage = Score / MaxScore * 100`. -/
theorem CalculateSectionScores_spec (survey : Survey) (assessmentID : Int) :
    CalculateSectionScores survey assessmentID =
      (survey.Sections.filter
          (fun sec => decide (0 < (sec.Questions.map CalculateQuestionMaxScore).sum))).map
        (fun sec =>
          { ID := 0, AssessmentID := assessmentID, SectionName := sec.SectionName,
            Score := (sec.Questions.map CalculateQuestionScore).sum,
            MaxScore := (sec.Questions.map CalculateQuestionMaxScore).sum,
            Percentage := (sec.Questions.map CalculateQuestionScore).sum
              / (sec.Questions.map CalculateQuestionMaxScore).sum * 100 }) := by
  unfold CalculateSectionScores
  have h := foldl_cond_append
    (fun sec : Section => decide (0 < (sec.Questions.map CalculateQuestionMaxScore).sum))
    (fun sec : Section =>
      ({ ID := 0, AssessmentID := assessmentID, SectionName := sec.SectionName,
         Score := (sec.Questions.map CalculateQuestionScore).sum,
         MaxScore := (sec.Questions.map CalculateQuestionMaxScore).sum,
         Percentage := (sec.Questions.map CalculateQuestionScore).sum
           / (sec.Questions.map CalculateQuestionMaxScore).sum * 100 } : SectionScore))
    survey.Sections []
  have ht : ∀ qs : List Question,
      qs.foldl (fun (acc : ℚ × ℚ) question =>
          (acc.1 + CalculateQuestionScore question, acc.2 + CalculateQuestionMaxScore question))
        (0, 0)
        = ((qs.map CalculateQuestionScore).sum, (qs.map CalculateQuestionMaxScore).sum) := by
    intro qs
    simpa using foldl_totals qs 0 0
  simp only [ht]
  simpa using h

/-! ## C4: applying responses -/

theorem mapLookup_mapStore {β : Type} (m : List (String × β)) (k : String) (v : β)
    (k' : String) :
    mapLookup (mapStore m k v) k' = if k = k' then some v else mapLookup m k' := by
  induction m with
  | nil => simp [mapStore, mapLookup]
  | cons e m ih =>
    obtain ⟨k0, v0⟩ := e
    by_cases h0 : k0 = k
    · subst h0
      by_cases h1 : k0 = k'
      · simp [mapStore, mapLookup, h1]
      · simp [mapStore, mapLookup, h1]
    · by_cases h1 : k0 = k'
      · subst h1
        have h2 : ¬ k = k0 := fun h => h0 h.symm
        simp [mapStore, mapLookup, h0, h2]
      · simp [mapStore, mapLookup, h0, h1, ih]

theorem mapLookup_foldl_store (responses : List Response) (m : List (String × List String))
    (k : String) :
    mapLookup (responses.foldl (fun responseMap response =>
        mapStore responseMap response.QuestionID response.AnswerIDs) m) k
      = match lastResponseFor responses k with
        | some r => some r.AnswerIDs
        | none => mapLookup m k := by
  induction responses generalizing m with
  | nil => simp [lastResponseFor]
  | cons r rs ih =>
    rw [List.foldl_cons, ih]
    unfold lastResponseFor
    rw [List.reverse_cons, List.find?_append]
    cases hfind : List.find? (fun r => decide (r.QuestionID = k)) rs.reverse with
    | some r' => simp
    | none =>
      by_cases hk : r.QuestionID = k
      · simp [mapLookup_mapStore, hk]
      · simp [mapLookup_mapStore, hk]

theorem mapLookup_buildResponseMap (responses : List Response) (k : String) :
    mapLookup (buildResponseMap responses) k
      = (lastResponseFor responses k).map (fun r => r.AnswerIDs) := by
  unfold buildResponseMap
  rw [mapLookup_foldl_store]
  cases lastResponseFor responses k <;> simp [mapLookup]

theorem markLoop_eq (answerIDs : List String) (answers : List Answer) :
    answerIDs.foldl (fun answers answerID =>
        answers.map (fun answer =>
          if answer.ID = answerID then { answer with Value := "checked" } else answer)) answers
      = answers.map (fun answer =>
          if answer.ID ∈ answerIDs then { answer with Value := "checked" } else answer) := by
  induction answerIDs generalizing answers with
  | nil => simp
  | cons i ids ih =>
    rw [List.foldl_cons, ih, List.map_map]
    apply List.map_congr_left
    intro a _
    by_cases h1 : a.ID = i
    · by_cases h2 : a.ID ∈ ids
      · simp [h1, h2]
      · have h3 : i ∉ ids := h1 ▸ h2
        simp [h1, h3]
    · by_cases h2 : a.ID ∈ ids
      · simp [h1, h2]
      · simp [h1, h2]

theorem applyToQuestion_eq (responseMap : List (String × List String)) (q : Question) :
    applyToQuestion responseMap q =
      match mapLookup responseMap q.ID with
      | some answerIDs =>
        { q with Answers := q.Answers.map (fun a =>
            { a with Value := if a.ID ∈ answerIDs then "checked" else "" }) }
      | none => q := by
  unfold applyToQuestion
  cases mapLookup responseMap q.ID with
  | none => rfl
  | some ids =>
    simp only [markLoop_eq, List.map_map]
    congr 1
    apply List.map_congr_left
    intro a _
    by_cases h : a.ID ∈ ids
    · simp [h]
    · simp [h]

theorem ApplyResponses_last (survey : Survey) (responses : List Response) :
    ApplyResponses survey responses =
      { Sections := survey.Sections.map (fun sec =>
          { sec with Questions := sec.Questions.map (fun q =>
              match lastResponseFor responses q.ID with
              | some r =>
                { q with Answers := q.Answers.map (fun a =>
                    { a with Value := if a.ID ∈ r.AnswerIDs then "checked" else "" }) }
              | none => q) }) } := by
  simp only [ApplyResponses]
  congr 1
  apply List.map_congr_left
  intro sec _
  congr 1
  apply List.map_congr_left
  intro q _
  rw [applyToQuestion_eq, mapLookup_buildResponseMap]
  cases lastResponseFor responses q.ID <;> rfl

theorem lastResponseFor_of_unique (responses : List Response)
    (hunique : (responses.map (fun r => r.QuestionID)).Nodup) (r : Response)
    (hr : r ∈ responses) : lastResponseFor responses r.QuestionID = some r := by
  unfold lastResponseFor
  cases hf : responses.reverse.find? (fun x => decide (x.QuestionID = r.QuestionID)) with
  | none =>
    have := List.find?_eq_none.1 hf r (List.mem_reverse.2 hr)
    simp at this
  | some r' =>
    have hmem : r' ∈ responses := List.mem_reverse.1 (List.mem_of_find?_eq_some hf)
    have hid : r'.QuestionID = r.QuestionID := by simpa using List.find?_some hf
    rw [List.inj_on_of_nodup_map hunique hmem hr hid]

theorem find?_of_unique_response (responses : List Response)
    (hunique : (responses.map (fun r => r.QuestionID)).Nodup) (k : String) :
    responses.find? (fun r => decide (r.QuestionID = k)) = lastResponseFor responses k := by
  cases hf : responses.find? (fun r => decide (r.QuestionID = k)) with
  | none =>
    unfold lastResponseFor
    symm
    rw [List.find?_eq_none] at hf ⊢
    intro x hx
    exact hf x (List.mem_reverse.1 hx)
  | some r =>
    have hmem : r ∈ responses := List.mem_of_find?_eq_some hf
    have hid : r.QuestionID = k := by simpa using List.find?_some hf
    rw [← hid, lastResponseFor_of_unique responses hunique r hmem]

/-- C4: for a response list with at most one response per question (the unique key
`(assessment_id, question_id)` of the stored responses), after `ApplyResponses` each question
whose ID equals the questionID of a response has `Value = "checked"` on exactly those of its
answers whose ID is among that response's answer IDs and `Value = ""` on all its other
answers, whatever the flags were before the call; the questions named by no response, and all
other fields, are unchanged. -/
theorem ApplyResponses_checks (survey : Survey) (responses : List Response)
    (hunique : (responses.map (fun r => r.QuestionID)).Nodup) :
    ApplyResponses survey responses =
      { Sections := survey.Sections.map (fun sec =>
          { sec with Questions := sec.Questions.map (fun q =>
              match responses.find? (fun r => decide (r.QuestionID = q.ID)) with
              | some r =>
                { q with Answers := q.Answers.map (fun a =>
                    { a with Value := if a.ID ∈ r.AnswerIDs then "checked" else "" }) }
              | none => q) }) } ∧
    ∀ q ∈ questionsOf (ApplyResponses survey responses),
      ∀ r ∈ responses, r.QuestionID = q.ID →
        ∀ a ∈ q.Answers,
          (a.ID ∈ r.AnswerIDs → a.Value = "checked") ∧ (a.ID ∉ r.AnswerIDs → a.Value = "") := by
  constructor
  · rw [ApplyResponses_last]
    congr 1
    apply List.map_congr_left
    intro sec _
    congr 1
    apply List.map_congr_left
    intro q _
    rw [find?_of_unique_response responses hunique q.ID]
  · intro q hq r hr hid a ha
    rw [ApplyResponses_last] at hq
    simp only [questionsOf, List.mem_flatMap, List.mem_map] at hq
    obtain ⟨sec', ⟨sec, _, rfl⟩, hq⟩ := hq
    simp only [List.mem_map] at hq
    obtain ⟨q0, _, rfl⟩ := hq
    have hid0 : r.QuestionID = q0.ID := by
      rw [hid]
      cases lastResponseFor responses q0.ID <;> rfl
    have hlast := lastResponseFor_of_unique responses hunique r hr
    rw [hid0] at hlast
    rw [hlast] at ha
    simp only [List.mem_map] at ha
    obtain ⟨a0, _, rfl⟩ := ha
    by_cases hmem : a0.ID ∈ r.AnswerIDs
    · simp [hmem]
    · simp [hmem]

/-- Witness for C4: the catalog `twoAnswerCatalog` with the single response `firstAnswer`. -/
theorem ApplyResponses_checks_witness :
    (firstAnswer.map (fun r => r.QuestionID)).Nodup ∧
    ApplyResponses twoAnswerCatalog firstAnswer =
      { Sections := twoAnswerCatalog.Sections.map (fun sec =>
          { sec with Questions := sec.Questions.map (fun q =>
              match firstAnswer.find? (fun r => decide (r.QuestionID = q.ID)) with
              | some r =>
                { q with Answers := q.Answers.map (fun a =>
                    { a with Value := if a.ID ∈ r.AnswerIDs then "checked" else "" }) }
              | none => q) }) } ∧
    ∀ q ∈ questionsOf (ApplyResponses twoAnswerCatalog firstAnswer),
      ∀ r ∈ firstAnswer, r.QuestionID = q.ID →
        ∀ a ∈ q.Answers,
          (a.ID ∈ r.AnswerIDs → a.Value = "checked") ∧ (a.ID ∉ r.AnswerIDs → a.Value = "") :=
  ⟨by decide, ApplyResponses_checks twoAnswerCatalog firstAnswer (by decide)⟩

/-! ## C3: percentages of the section scores -/

theorem sum_filter_bounds (p : Answer → Bool) (l : List Answer)
    (h : ∀ a ∈ l, 0 ≤ a.Score) :
    0 ≤ ((l.filter p).map (fun a => a.Score)).sum ∧
      ((l.filter p).map (fun a => a.Score)).sum ≤ (l.map (fun a => a.Score)).sum := by
  induction l with
  | nil => simp
  | cons a l ih =>
    have ha : 0 ≤ a.Score := h a (List.mem_cons_self _ _)
    have ih2 := ih (fun b hb => h b (List.mem_cons_of_mem _ hb))
    by_cases hp : p a = true
    · simp only [List.filter_cons, hp, if_true, List.map_cons, List.sum_cons]
      constructor <;> linarith [ih2.1, ih2.2]
    · simp only [List.filter_cons, hp, List.map_cons, List.sum_cons]
      constructor
      · exact ih2.1
      · simp only [Bool.false_eq_true, if_false]
        linarith [ih2.2]

theorem sum_map_bounds {α : Type} (f g : α → ℚ) (l : List α)
    (h : ∀ x ∈ l, 0 ≤ f x ∧ f x ≤ g x) :
    0 ≤ (l.map f).sum ∧ (l.map f).sum ≤ (l.map g).sum := by
  induction l with
  | nil => simp
  | cons a l ih =>
    have ha := h a (List.mem_cons_self _ _)
    have ih2 := ih (fun b hb => h b (List.mem_cons_of_mem _ hb))
    simp only [List.map_cons, List.sum_cons]
    constructor <;> linarith [ha.1, ha.2, ih2.1, ih2.2]

theorem questionScore_bounds (q : Question)
    (hType : q.Type_ = "Option" ∨ q.Type_ = "Checkbox" ∨ q.Type_ = "Banner")
    (hScore : ∀ a ∈ q.Answers, 0 ≤ a.Score)
    (hOpt : q.Type_ = "Option" → (q.Answers.filter isChecked).length ≤ 1) :
    0 ≤ CalculateQuestionScore q ∧ CalculateQuestionScore q ≤ CalculateQuestionMaxScore q := by
  have hsum : ∀ l : List Answer, l.foldl
      (fun score answer => if answer.Value = "checked" then score + answer.Score else score) 0
      = ((l.filter isChecked).map (fun a => a.Score)).sum := by
    intro l
    have := foldl_cond_add_eq_sum isChecked (fun a => a.Score) l 0
    simpa [isChecked] using this
  rcases hType with hT | hT | hT
  · have hS : CalculateQuestionScore q
        = ((q.Answers.filter isChecked).map (fun a => a.Score)).sum := by
      simp [CalculateQuestionScore, hT, hsum]
    have hM : CalculateQuestionMaxScore q
        = q.Answers.foldl (fun m x => if x.Score > m then x.Score else m) 0 := by
      simp [CalculateQuestionMaxScore, hT]
    rw [hS, hM]
    refine ⟨(sum_filter_bounds isChecked q.Answers hScore).1, ?_⟩
    have hlen := hOpt hT
    cases hf : q.Answers.filter isChecked with
    | nil =>
      simpa using foldl_max_ge_init (fun x : Answer => x.Score) q.Answers 0
    | cons a rest =>
      rw [hf] at hlen
      have hrest : rest = [] := by
        cases rest with
        | nil => rfl
        | cons b r => simp at hlen
      subst hrest
      have hmem : a ∈ q.Answers := by
        have : a ∈ q.Answers.filter isChecked := by rw [hf]; exact List.mem_cons_self _ _
        exact (List.mem_filter.1 this).1
      simpa using foldl_max_ge_mem (fun x : Answer => x.Score) q.Answers 0 a hmem
  · have hS : CalculateQuestionScore q
        = ((q.Answers.filter isChecked).map (fun a => a.Score)).sum := by
      simp [CalculateQuestionScore, hT, hsum]
    have hM : CalculateQuestionMaxScore q = (q.Answers.map (fun a => a.Score)).sum := by
      simp [CalculateQuestionMaxScore, hT, foldl_add_eq_sum]
    rw [hS, hM]
    exact sum_filter_bounds isChecked q.Answers hScore
  · simp [CalculateQuestionScore, CalculateQuestionMaxScore, hT]

theorem foldl_totals_zero (qs : List Question) :
    qs.foldl (fun (acc : ℚ × ℚ) question =>
        (acc.1 + CalculateQuestionScore question, acc.2 + CalculateQuestionMaxScore question))
      (0, 0)
      = ((qs.map CalculateQuestionScore).sum, (qs.map CalculateQuestionMaxScore).sum) := by
  simpa using foldl_totals qs 0 0

theorem mem_CalculateSectionScores (survey : Survey) (assessmentID : Int) (e : SectionScore)
    (he : e ∈ CalculateSectionScores survey assessmentID) :
    ∃ sec ∈ survey.Sections,
      0 < (sec.Questions.map CalculateQuestionMaxScore).sum ∧
      e.Percentage = (sec.Questions.map CalculateQuestionScore).sum
        / (sec.Questions.map CalculateQuestionMaxScore).sum * 100 := by
  unfold CalculateSectionScores at he
  simp only [foldl_totals_zero] at he
  have h := foldl_cond_append
    (fun sec : Section => decide (0 < (sec.Questions.map CalculateQuestionMaxScore).sum))
    (fun sec : Section =>
      ({ ID := 0, AssessmentID := assessmentID, SectionName := sec.SectionName,
         Score := (sec.Questions.map CalculateQuestionScore).sum,
         MaxScore := (sec.Questions.map CalculateQuestionMaxScore).sum,
         Percentage := (sec.Questions.map CalculateQuestionScore).sum
           / (sec.Questions.map CalculateQuestionMaxScore).sum * 100 } : SectionScore))
    survey.Sections []
  simp only [decide_eq_true_eq, List.nil_append] at h
  simp only [gt_iff_lt] at he
  rw [h] at he
  obtain ⟨sec, hsec, rfl⟩ := List.mem_map.1 he
  have hf := List.mem_filter.1 hsec
  exact ⟨sec, hf.1, by simpa using hf.2, rfl⟩

theorem applyToQuestion_Type (responseMap : List (String × List String)) (q : Question) :
    (applyToQuestion responseMap q).Type_ = q.Type_ := by
  rw [applyToQuestion_eq]
  cases mapLookup responseMap q.ID <;> rfl

theorem applyToQuestion_scores (responseMap : List (String × List String)) (q : Question) :
    (applyToQuestion responseMap q).Answers.map (fun a => a.Score)
      = q.Answers.map (fun a => a.Score) := by
  rw [applyToQuestion_eq]
  cases mapLookup responseMap q.ID with
  | none => rfl
  | some ids => simp [List.map_map, Function.comp_def]

/-- C3 (as stated) fails: on a catalog with one Option question whose answers score 1 and 2,
a response selecting both answers gives the section score 3 of 2, a percentage of 150. -/
theorem percentage_not_always_bounded :
    ¬ (∀ (survey : Survey) (responses : List Response) (assessmentID : Int),
        ∀ e ∈ CalculateSectionScores (ApplyResponses survey responses) assessmentID,
          0 ≤ e.Percentage ∧ e.Percentage ≤ 100) := by
  intro h
  have hc : CalculateSectionScores (ApplyResponses twoAnswerCatalog bothAnswers) 7
      = [{ ID := 0, AssessmentID := 7, SectionName := "Culture", Score := 3, MaxScore := 2,
           Percentage := 150 }] := by
    simp [CalculateSectionScores, ApplyResponses, twoAnswerCatalog, bothAnswers,
      buildResponseMap, mapStore, applyToQuestion, mapLookup, CalculateQuestionScore,
      CalculateQuestionMaxScore]
    norm_num
  have h0 := h twoAnswerCatalog bothAnswers 7 _ (by rw [hc]; exact List.mem_singleton_self _)
  norm_num at h0

/-- C3 (amended): for every catalog whose question types are all Option, Checkbox or Banner,
whose answer scores are all non-negative and whose maximum scores add up, in every section,
to at most `2 ^ 1023` (so that no `float64` sum overflows), and every response list after
whose application no Option question has more than one checked answer, every entry that
`CalculateSectionScores` returns after `ApplyResponses` has `0 ≤ Percentage ≤ 100`. -/
theorem percentage_bounds (survey : Survey) (responses : List Response) (assessmentID : Int)
    (hType : ∀ sec ∈ survey.Sections, ∀ q ∈ sec.Questions,
      q.Type_ = "Option" ∨ q.Type_ = "Checkbox" ∨ q.Type_ = "Banner")
    (hScore : ∀ sec ∈ survey.Sections, ∀ q ∈ sec.Questions, ∀ a ∈ q.Answers, 0 ≤ a.Score)
    (hFinite : ∀ sec ∈ survey.Sections,
      (sec.Questions.map CalculateQuestionMaxScore).sum ≤ 2 ^ 1023)
    (hOpt : ∀ sec ∈ (ApplyResponses survey responses).Sections, ∀ q ∈ sec.Questions,
      q.Type_ = "Option" → (q.Answers.filter isChecked).length ≤ 1) :
    ∀ e ∈ CalculateSectionScores (ApplyResponses survey responses) assessmentID,
      0 ≤ e.Percentage ∧ e.Percentage ≤ 100 := by
  intro e he
  obtain ⟨sec', hsec', hpos, hpct⟩ := mem_CalculateSectionScores _ _ e he
  have hq : ∀ q' ∈ sec'.Questions,
      0 ≤ CalculateQuestionScore q' ∧ CalculateQuestionScore q' ≤ CalculateQuestionMaxScore q' := by
    intro q' hq'
    have hsec2 := hsec'
    simp only [ApplyResponses] at hsec2
    obtain ⟨sec, hsec, rfl⟩ := List.mem_map.1 hsec2
    obtain ⟨q, hq, rfl⟩ := List.mem_map.1 hq'
    apply questionScore_bounds
    · rw [applyToQuestion_Type]
      exact hType sec hsec q hq
    · intro a ha
      have hmem : a.Score ∈ (applyToQuestion (buildResponseMap responses) q).Answers.map
          (fun a => a.Score) := List.mem_map.2 ⟨a, ha, rfl⟩
      rw [applyToQuestion_scores] at hmem
      obtain ⟨b, hb, hba⟩ := List.mem_map.1 hmem
      rw [← hba]
      exact hScore sec hsec q hq b hb
    · exact hOpt _ hsec' _ hq'
  obtain ⟨h0, h1⟩ := sum_map_bounds CalculateQuestionScore CalculateQuestionMaxScore
    sec'.Questions hq
  rw [hpct]
  constructor
  · exact mul_nonneg (div_nonneg h0 (le_of_lt hpos)) (by norm_num)
  · have hle : (sec'.Questions.map CalculateQuestionScore).sum
        / (sec'.Questions.map CalculateQuestionMaxScore).sum ≤ 1 :=
      (div_le_one hpos).2 h1
    linarith

/-- Witness for C3 (amended): the one-question catalog with the response selecting its first
answer meets the hypotheses, and the percentage of its section score `halfScore` (50) lies
between 0 and 100. -/
theorem percentage_bounds_witness :
    0 ≤ halfScore.Percentage ∧ halfScore.Percentage ≤ 100 :=
  percentage_bounds twoAnswerCatalog firstAnswer 7 (by decide) (by decide)
    (by
      intro sec hsec
      simp only [twoAnswerCatalog, List.mem_singleton] at hsec
      subst hsec
      simp [CalculateQuestionMaxScore]
      norm_num)
    (by decide) halfScore
    (by
      have hc : CalculateSectionScores (ApplyResponses twoAnswerCatalog firstAnswer) 7
          = [halfScore] := by
        simp [CalculateSectionScores, ApplyResponses, twoAnswerCatalog, firstAnswer,
          buildResponseMap, mapStore, applyToQuestion, mapLookup, CalculateQuestionScore,
          CalculateQuestionMaxScore, halfScore]
        norm_num
      rw [hc]
      exact List.mem_singleton_self _)

/-! ## C5: extraction followed by application -/

theorem foldl_checkedIDs (answers : List Answer) :
    answers.foldl (fun answerIDs answer =>
        if answer.Value = "checked" then answerIDs ++ [answer.ID] else answerIDs) []
      = (answers.filter isChecked).map (fun a => a.ID) := by
  have h := foldl_cond_append isChecked (fun a : Answer => a.ID) answers []
  simpa [isChecked] using h

theorem extractFromQuestion_eq (assessmentID : Int) (responses : List Response)
    (q : Question) :
    extractFromQuestion assessmentID responses q
      = responses ++ (extractOne assessmentID q).toList := by
  unfold extractFromQuestion extractOne
  simp only [foldl_checkedIDs]
  by_cases h1 : q.Type_ ≠ "Banner" ∧ q.ID ≠ ""
  · by_cases h2 : checkedIDs q = []
    · have h3 : (q.Answers.filter isChecked).map (fun a => a.ID) = [] := h2
      simp [h1, h2, h3]
    · have h3 : (q.Answers.filter isChecked).map (fun a => a.ID) ≠ [] := h2
      have h4 : ((q.Answers.filter isChecked).map (fun a => a.ID)).length > 0 :=
        List.length_pos.2 h3
      have h5 : q.Type_ ≠ "Banner" ∧ q.ID ≠ "" ∧ checkedIDs q ≠ [] := ⟨h1.1, h1.2, h2⟩
      rw [if_pos h1, if_pos h5]
      simp only [h4, if_true, Option.toList]
      rfl
  · have h5 : ¬ (q.Type_ ≠ "Banner" ∧ q.ID ≠ "" ∧ checkedIDs q ≠ []) :=
      fun h => h1 ⟨h.1, h.2.1⟩
    rw [if_neg h1, if_neg h5]
    simp [Option.toList]

theorem foldl_extractFromQuestion (assessmentID : Int) (qs : List Question)
    (responses : List Response) :
    qs.foldl (extractFromQuestion assessmentID) responses
      = responses ++ qs.filterMap (extractOne assessmentID) := by
  induction qs generalizing responses with
  | nil => simp
  | cons q qs ih =>
    rw [List.foldl_cons, ih, extractFromQuestion_eq, List.filterMap_cons]
    cases extractOne assessmentID q <;> simp [Option.toList]

theorem foldl_sections_extract (assessmentID : Int) (secs : List Section)
    (responses : List Response) :
    secs.foldl (fun responses sec =>
        sec.Questions.foldl (extractFromQuestion assessmentID) responses) responses
      = responses ++ (secs.flatMap (fun sec => sec.Questions)).filterMap
          (extractOne assessmentID) := by
  induction secs generalizing responses with
  | nil => simp
  | cons sec secs ih =>
    rw [List.foldl_cons, ih, foldl_extractFromQuestion, List.flatMap_cons,
      List.filterMap_append, List.append_assoc]

theorem ExtractResponses_eq (survey : Survey) (assessmentID : Int) :
    ExtractResponses survey assessmentID
      = (questionsOf survey).filterMap (extractOne assessmentID) := by
  unfold ExtractResponses questionsOf
  rw [foldl_sections_extract]
  simp

theorem extractOne_some (assessmentID : Int) (q : Question) (r : Response)
    (h : extractOne assessmentID q = some r) :
    q.Type_ ≠ "Banner" ∧ q.ID ≠ "" ∧ r.QuestionID = q.ID ∧ r.AnswerIDs = checkedIDs q := by
  unfold extractOne at h
  split at h
  · rename_i hc
    cases h
    exact ⟨hc.1, hc.2.1, rfl, rfl⟩
  · cases h

theorem applyExtracted_flags (survey : Survey) (assessmentID : Int)
    (hQ : (((questionsOf survey).filter (fun q => decide (q.ID ≠ ""))).map
            (fun q => q.ID)).Nodup)
    (hA : ∀ q ∈ questionsOf survey, q.Type_ ≠ "Banner" → q.ID ≠ "" →
            (q.Answers.map (fun a => a.ID)).Nodup)
    (q : Question) (hq : q ∈ questionsOf survey) :
    (applyToQuestion (buildResponseMap (ExtractResponses survey assessmentID)) q).Answers.map
        isChecked
      = q.Answers.map isChecked := by
  rw [applyToQuestion_eq, mapLookup_buildResponseMap]
  cases hlast : lastResponseFor (ExtractResponses survey assessmentID) q.ID with
  | none => rfl
  | some r =>
    have hmem : r ∈ ExtractResponses survey assessmentID := by
      have := List.mem_of_find?_eq_some hlast
      exact List.mem_reverse.1 this
    have hid : r.QuestionID = q.ID := by
      have := List.find?_some hlast
      simpa using this
    rw [ExtractResponses_eq] at hmem
    obtain ⟨q', hq', hex⟩ := List.mem_filterMap.1 hmem
    obtain ⟨hB, hne, hrid, hans⟩ := extractOne_some assessmentID q' r hex
    have hqid : q'.ID = q.ID := hrid.symm.trans hid
    have hne2 : q.ID ≠ "" := hqid ▸ hne
    have hqq : q' = q := by
      apply List.inj_on_of_nodup_map hQ
      · exact List.mem_filter.2 ⟨hq', by simpa using hne⟩
      · exact List.mem_filter.2 ⟨hq, by simpa using hne2⟩
      · exact hqid
    subst hqq
    have hnd := hA q' hq hB hne
    simp only [Option.map_some', List.map_map]
    apply List.map_congr_left
    intro a ha
    simp only [Function.comp_apply, isChecked, hans]
    by_cases hin : a.ID ∈ checkedIDs q'
    · obtain ⟨a', ha', haid⟩ := List.mem_map.1 hin
      have hf := List.mem_filter.1 ha'
      have haa : a' = a := List.inj_on_of_nodup_map hnd hf.1 ha haid
      subst haa
      have hc : a'.Value = "checked" := by simpa [isChecked] using hf.2
      simp [hin, hc]
    · have hc : ¬ a.Value = "checked" := by
        intro hv
        apply hin
        exact List.mem_map.2 ⟨a, List.mem_filter.2 ⟨ha, by simp [isChecked, hv]⟩, rfl⟩
      simp [hin, hc]

/-- C5 (as stated) fails: in the catalog loaded from `parsedWithBannerID` the Banner carries the
authored ID `S1-Q1` of the answered first question, so applying the extracted responses checks
the Banner's answer `S1-Q1-A1`, which was not checked before. -/
theorem extract_apply_not_always_identity :
    ¬ (∀ (survey : Survey) (assessmentID : Int),
        checkedFlags (ApplyResponses survey (ExtractResponses survey assessmentID))
          = checkedFlags survey) := by
  intro h
  have h0 := h (LoadQuestions parsedWithBannerID) 7
  revert h0
  decide

/-- C5 (amended): for any catalog, with an arbitrary checked-state, in which the non-empty
question IDs are pairwise distinct and the answer IDs of every non-Banner question with a
non-empty ID are pairwise distinct, `ApplyResponses(catalog, ExtractResponses(catalog))` leaves
every answer of every question with the checked / not-checked flag it had before. -/
theorem extract_apply_roundtrip (survey : Survey) (assessmentID : Int)
    (hQ : (((questionsOf survey).filter (fun q => decide (q.ID ≠ ""))).map
            (fun q => q.ID)).Nodup)
    (hA : ∀ q ∈ questionsOf survey, q.Type_ ≠ "Banner" → q.ID ≠ "" →
            (q.Answers.map (fun a => a.ID)).Nodup) :
    checkedFlags (ApplyResponses survey (ExtractResponses survey assessmentID))
      = checkedFlags survey := by
  simp only [checkedFlags, ApplyResponses, List.map_map]
  apply List.map_congr_left
  intro sec hsec
  simp only [Function.comp_apply, List.map_map]
  apply List.map_congr_left
  intro q hq
  have hmem : q ∈ questionsOf survey := List.mem_flatMap.2 ⟨sec, hsec, hq⟩
  exact applyExtracted_flags survey assessmentID hQ hA q hmem

/-- Witness for C5 (amended): the catalog loaded from `parsedAnswered` has distinct IDs, and
extraction followed by application reproduces its flags. -/
theorem extract_apply_roundtrip_witness :
    checkedFlags (ApplyResponses (LoadQuestions parsedAnswered)
        (ExtractResponses (LoadQuestions parsedAnswered) 7))
      = checkedFlags (LoadQuestions parsedAnswered) :=
  extract_apply_roundtrip (LoadQuestions parsedAnswered) 7 (by decide) (by decide)

/-! ## C6, C7: positional identifiers and implicit answers -/

theorem assignQuestionIDs_getElem? (survey : Survey) (i j : Nat) (sec : Section)
    (q : Question) (hs : survey.Sections[i]? = some sec) (hq : sec.Questions[j]? = some q) :
    ∃ sec', (assignQuestionIDs survey).Sections[i]? = some sec' ∧
      sec'.Questions[j]? = some (assignQuestionID i j q) := by
  refine ⟨{ sec with Questions := sec.Questions.mapIdx (assignQuestionID i) }, ?_, ?_⟩
  · simp [assignQuestionIDs, List.getElem?_mapIdx, hs]
  · simp [List.getElem?_mapIdx, hq]

theorem map_mapIdx_of_forall {α β γ : Type} (g : β → γ) (h : α → γ) (l : List α)
    (f : Nat → α → β) (hf : ∀ i a, g (f i a) = h a) :
    (l.mapIdx f).map g = l.map h := by
  induction l generalizing f with
  | nil => simp
  | cons a l ih =>
    rw [List.mapIdx_cons, List.map_cons, List.map_cons, hf,
      ih (fun i => f (i + 1)) (fun i a => hf (i + 1) a)]

/-- C6: after `assignQuestionIDs` the question at 0-based position `(i, j)` is, when it is not
a Banner, identified by `S{i+1}-Q{j+1}` and its answer at 0-based index `k` by
`S{i+1}-Q{j+1}-A{k+1}` (decimal), and when it is a Banner it is exactly the parsed question. -/
theorem assignQuestionIDs_positional (survey : Survey) (i j : Nat) (sec : Section)
    (q : Question) (hs : survey.Sections[i]? = some sec) (hq : sec.Questions[j]? = some q) :
    ∃ sec' q', (assignQuestionIDs survey).Sections[i]? = some sec' ∧
      sec'.Questions[j]? = some q' ∧
      (q.Type_ = "Banner" → q' = q) ∧
      (q.Type_ ≠ "Banner" →
        q'.ID = "S" ++ Nat.repr (i + 1) ++ "-Q" ++ Nat.repr (j + 1) ∧
        ∀ (k : Nat) (a : Answer), q'.Answers[k]? = some a →
          a.ID = "S" ++ Nat.repr (i + 1) ++ "-Q" ++ Nat.repr (j + 1)
                  ++ "-A" ++ Nat.repr (k + 1)) := by
  obtain ⟨sec', h1, h2⟩ := assignQuestionIDs_getElem? survey i j sec q hs hq
  refine ⟨sec', assignQuestionID i j q, h1, h2, ?_, ?_⟩
  · intro hB
    simp [assignQuestionID, hB]
  · intro hB
    constructor
    · simp [assignQuestionID, hB, questionIDFormat]
    · intro k a hk
      simp [assignQuestionID, hB, List.getElem?_mapIdx] at hk
      obtain ⟨b, _, rfl⟩ := hk
      rfl

/-- Witness for C6: in the section list `parsedAnswered` the Checkbox question at position
`(0, 2)` becomes `S1-Q3` with answers `S1-Q3-A1`, `S1-Q3-A2`, `S1-Q3-A3`. -/
theorem assignQuestionIDs_positional_witness :
    ∃ sec' q', (assignQuestionIDs { Sections := parsedAnswered }).Sections[0]? = some sec' ∧
      sec'.Questions[2]? = some q' ∧
      (checksQuestion.Type_ = "Banner" → q' = checksQuestion) ∧
      (checksQuestion.Type_ ≠ "Banner" →
        q'.ID = "S" ++ Nat.repr (0 + 1) ++ "-Q" ++ Nat.repr (2 + 1) ∧
        ∀ (k : Nat) (a : Answer), q'.Answers[k]? = some a →
          a.ID = "S" ++ Nat.repr (0 + 1) ++ "-Q" ++ Nat.repr (2 + 1)
                  ++ "-A" ++ Nat.repr (k + 1)) :=
  assignQuestionIDs_positional { Sections := parsedAnswered } 0 2 cultureSection checksQuestion
    rfl rfl

/-- C7: after `assignQuestionIDs` a non-Banner question parsed without answers has exactly the
two answers `("Yes", 1)` and `("No", 0)`, in this order, and a non-Banner question parsed with
at least one answer keeps its answers' texts and scores, in the same number and order. -/
theorem assignQuestionIDs_answers (survey : Survey) (i j : Nat) (sec : Section)
    (q : Question) (hs : survey.Sections[i]? = some sec) (hq : sec.Questions[j]? = some q)
    (hT : q.Type_ ≠ "Banner") :
    ∃ sec' q', (assignQuestionIDs survey).Sections[i]? = some sec' ∧
      sec'.Questions[j]? = some q' ∧
      (q.Answers.length = 0 →
        q'.Answers.map (fun a => (a.Answer, a.Score)) = [("Yes", 1), ("No", 0)]) ∧
      (q.Answers.length ≠ 0 →
        q'.Answers.map (fun a => (a.Answer, a.Score))
          = q.Answers.map (fun a => (a.Answer, a.Score))) := by
  obtain ⟨sec', h1, h2⟩ := assignQuestionIDs_getElem? survey i j sec q hs hq
  refine ⟨sec', assignQuestionID i j q, h1, h2, ?_, ?_⟩
  · intro h0
    simp only [assignQuestionID, hT, ne_eq, not_false_eq_true, if_true, h0]
    rfl
  · intro h0
    simp only [assignQuestionID, hT, ne_eq, not_false_eq_true, if_true, h0, if_false]
    exact map_mapIdx_of_forall _ _ _ _ (fun _ _ => rfl)

/-- Witness for C7: the question of `parsedAnswered` at position `(0, 3)`, parsed without
answers, gets the answers `("Yes", 1)` and `("No", 0)`. -/
theorem assignQuestionIDs_answers_witness :
    ∃ sec' q', (assignQuestionIDs { Sections := parsedAnswered }).Sections[0]? = some sec' ∧
      sec'.Questions[3]? = some q' ∧
      (bareQuestion.Answers.length = 0 →
        q'.Answers.map (fun a => (a.Answer, a.Score)) = [("Yes", 1), ("No", 0)]) ∧
      (bareQuestion.Answers.length ≠ 0 →
        q'.Answers.map (fun a => (a.Answer, a.Score))
          = bareQuestion.Answers.map (fun a => (a.Answer, a.Score))) :=
  assignQuestionIDs_answers { Sections := parsedAnswered } 0 3 cultureSection bareQuestion
    rfl rfl (by decide)

/-! ## C9: subcategory scores -/

theorem keys_mapStore {β : Type} (m : List (String × β)) (k : String) (v : β) :
    (mapStore m k v).map Prod.fst
      = if k ∈ m.map Prod.fst then m.map Prod.fst else m.map Prod.fst ++ [k] := by
  induction m with
  | nil => simp [mapStore]
  | cons e m ih =>
    obtain ⟨k0, v0⟩ := e
    by_cases h0 : k0 = k
    · subst h0
      simp [mapStore]
    · have h1 : ¬ k = k0 := fun h => h0 h.symm
      simp only [mapStore, h0, if_false, List.map_cons, ih, List.mem_cons, h1, false_or]
      split <;> simp

theorem nodup_keys_mapStore {β : Type} (m : List (String × β)) (k : String) (v : β)
    (h : (m.map Prod.fst).Nodup) : ((mapStore m k v).map Prod.fst).Nodup := by
  rw [keys_mapStore]
  split
  · exact h
  · rename_i hk
    exact List.Nodup.append h (List.nodup_singleton k) (List.disjoint_singleton.2 hk)

theorem mem_iff_mapLookup {β : Type} (m : List (String × β))
    (h : (m.map Prod.fst).Nodup) (k : String) (v : β) :
    (k, v) ∈ m ↔ mapLookup m k = some v := by
  induction m with
  | nil => simp [mapLookup]
  | cons e m ih =>
    obtain ⟨k0, v0⟩ := e
    rw [List.map_cons, List.nodup_cons] at h
    by_cases h0 : k0 = k
    · subst h0
      have hnot : (k0, v) ∉ m := fun hm => h.1 (List.mem_map.2 ⟨(k0, v), hm, rfl⟩)
      simp only [mapLookup, if_true, List.mem_cons, Prod.mk.injEq, true_and, hnot, or_false,
        Option.some.injEq]
      exact eq_comm
    · have h1 : ¬ k = k0 := fun hk => h0 hk.symm
      simp only [mapLookup, h0, if_false, List.mem_cons, Prod.mk.injEq, h1, false_and, false_or]
      exact ih h.2

theorem nodup_keys_addToSubCategory (assessmentID : Int) (m : List (String × SectionScore))
    (q : Question) (h : (m.map Prod.fst).Nodup) :
    ((addToSubCategory assessmentID m q).map Prod.fst).Nodup := by
  unfold addToSubCategory
  split
  · have h1 : ((match mapLookup m q.SubCategory with
        | some _ => m
        | none => mapStore m q.SubCategory
            { ID := 0, AssessmentID := assessmentID, SectionName := q.SubCategory,
              Score := 0, MaxScore := 0, Percentage := 0 }).map Prod.fst).Nodup := by
      split
      · exact h
      · exact nodup_keys_mapStore _ _ _ h
    simp only
    generalize (match mapLookup m q.SubCategory with
        | some _ => m
        | none => mapStore m q.SubCategory
            { ID := 0, AssessmentID := assessmentID, SectionName := q.SubCategory,
              Score := 0, MaxScore := 0, Percentage := 0 }) = m1 at h1 ⊢
    have h2 : ((match mapLookup m1 q.SubCategory with
        | some e => mapStore m1 q.SubCategory
            { e with Score := e.Score + CalculateQuestionScore q }
        | none => m1).map Prod.fst).Nodup := by
      split
      · exact nodup_keys_mapStore _ _ _ h1
      · exact h1
    generalize (match mapLookup m1 q.SubCategory with
        | some e => mapStore m1 q.SubCategory
            { e with Score := e.Score + CalculateQuestionScore q }
        | none => m1) = m2 at h2 ⊢
    split
    · exact nodup_keys_mapStore _ _ _ h2
    · exact h2
  · exact h

theorem nodup_keys_fold (assessmentID : Int) (qs : List Question)
    (m : List (String × SectionScore)) (h : (m.map Prod.fst).Nodup) :
    ((qs.foldl (addToSubCategory assessmentID) m).map Prod.fst).Nodup := by
  induction qs generalizing m with
  | nil => exact h
  | cons q qs ih => exact ih _ (nodup_keys_addToSubCategory assessmentID m q h)

theorem mapLookup_addToSubCategory (assessmentID : Int) (m : List (String × SectionScore))
    (q : Question) (L : String) :
    mapLookup (addToSubCategory assessmentID m q) L =
      if q.SubCategory ≠ "" ∧ q.SubCategory = L then
        some { (mapLookup m L).getD
                { ID := 0, AssessmentID := assessmentID, SectionName := L,
                  Score := 0, MaxScore := 0, Percentage := 0 } with
               Score := ((mapLookup m L).getD
                { ID := 0, AssessmentID := assessmentID, SectionName := L,
                  Score := 0, MaxScore := 0, Percentage := 0 }).Score
                  + CalculateQuestionScore q
               MaxScore := ((mapLookup m L).getD
                { ID := 0, AssessmentID := assessmentID, SectionName := L,
                  Score := 0, MaxScore := 0, Percentage := 0 }).MaxScore
                  + CalculateQuestionMaxScore q }
      else mapLookup m L := by
  unfold addToSubCategory
  by_cases hK : q.SubCategory = ""
  · simp [hK]
  · by_cases hL : q.SubCategory = L
    · subst hL
      cases hm : mapLookup m q.SubCategory with
      | none => simp [hK, hm, mapLookup_mapStore]
      | some e => simp [hK, hm, mapLookup_mapStore]
    · cases hm : mapLookup m q.SubCategory with
      | none => simp [hK, hL, hm, mapLookup_mapStore]
      | some e => simp [hK, hL, hm, mapLookup_mapStore]

theorem groupTotals_append_same (assessmentID : Int) (qs : List Question) (q : Question) :
    groupTotals assessmentID (qs ++ [q]) q.SubCategory =
      { groupTotals assessmentID qs q.SubCategory with
        Score := (groupTotals assessmentID qs q.SubCategory).Score + CalculateQuestionScore q
        MaxScore :=
          (groupTotals assessmentID qs q.SubCategory).MaxScore + CalculateQuestionMaxScore q } := by
  simp [groupTotals, List.filter_append]

theorem groupTotals_append_other (assessmentID : Int) (qs : List Question) (q : Question)
    (L : String) (h : q.SubCategory ≠ L) :
    groupTotals assessmentID (qs ++ [q]) L = groupTotals assessmentID qs L := by
  simp [groupTotals, List.filter_append, h]

theorem groupTotals_absent (assessmentID : Int) (qs : List Question) (L : String)
    (h : L ∉ qs.map (fun q => q.SubCategory)) :
    groupTotals assessmentID qs L =
      { ID := 0, AssessmentID := assessmentID, SectionName := L,
        Score := 0, MaxScore := 0, Percentage := 0 } := by
  have hf : qs.filter (fun q => decide (q.SubCategory = L)) = [] := by
    rw [List.filter_eq_nil_iff]
    intro q hq hd
    exact h (List.mem_map.2 ⟨q, hq, by simpa using hd⟩)
  simp [groupTotals, hf]

theorem mapLookup_fold (assessmentID : Int) (qs : List Question) (L : String) :
    mapLookup (qs.foldl (addToSubCategory assessmentID) []) L =
      if L ≠ "" ∧ L ∈ qs.map (fun q => q.SubCategory) then
        some (groupTotals assessmentID qs L)
      else none := by
  induction qs using List.reverseRecOn with
  | nil => simp [mapLookup]
  | append_singleton qs q ih =>
    rw [List.foldl_append, List.foldl_cons, List.foldl_nil, mapLookup_addToSubCategory]
    by_cases hK : q.SubCategory ≠ "" ∧ q.SubCategory = L
    · obtain ⟨hne, rfl⟩ := hK
      have hmem : q.SubCategory ∈ (qs ++ [q]).map (fun q => q.SubCategory) := by simp
      have hc1 : q.SubCategory ≠ "" ∧ q.SubCategory = q.SubCategory := ⟨hne, rfl⟩
      have hc2 : q.SubCategory ≠ "" ∧
          q.SubCategory ∈ (qs ++ [q]).map (fun q => q.SubCategory) := ⟨hne, hmem⟩
      have hget : (mapLookup (qs.foldl (addToSubCategory assessmentID) []) q.SubCategory).getD
          { ID := 0, AssessmentID := assessmentID, SectionName := q.SubCategory,
            Score := 0, MaxScore := 0, Percentage := 0 }
          = groupTotals assessmentID qs q.SubCategory := by
        rw [ih]
        by_cases hin : q.SubCategory ∈ qs.map (fun q => q.SubCategory)
        · rw [if_pos ⟨hne, hin⟩]
          rfl
        · have hneg : ¬ (q.SubCategory ≠ "" ∧
              q.SubCategory ∈ qs.map (fun q => q.SubCategory)) := fun h => hin h.2
          rw [if_neg hneg, groupTotals_absent assessmentID qs q.SubCategory hin]
          rfl
      rw [if_pos hc1, if_pos hc2, hget, groupTotals_append_same]
    · rw [if_neg hK, ih]
      by_cases hL : L = ""
      · simp [hL]
      · have hKL : q.SubCategory ≠ L := by
          intro h
          exact hK ⟨by rw [h]; exact hL, h⟩
        have hiff : L ∈ (qs ++ [q]).map (fun q => q.SubCategory)
            ↔ L ∈ qs.map (fun q => q.SubCategory) := by
          simp only [List.map_append, List.map_cons, List.map_nil, List.mem_append,
            List.mem_singleton]
          constructor
          · rintro (h | h)
            · exact h
            · exact absurd h.symm hKL
          · exact Or.inl
        simp only [hiff, groupTotals_append_other assessmentID qs q L hKL]

theorem fold_perm_labels (assessmentID : Int) (qs : List Question) :
    (qs.foldl (addToSubCategory assessmentID) []).Perm
      ((subCategoryLabels qs).map (fun L => (L, groupTotals assessmentID qs L))) := by
  have hnd : ((qs.foldl (addToSubCategory assessmentID) []).map Prod.fst).Nodup :=
    nodup_keys_fold assessmentID qs [] (by simp)
  rw [List.perm_ext_iff_of_nodup (List.Nodup.of_map _ hnd)]
  · intro e
    obtain ⟨L, v⟩ := e
    rw [mem_iff_mapLookup _ hnd, mapLookup_fold]
    simp only [subCategoryLabels, List.mem_map, List.mem_dedup, List.mem_filter,
      decide_eq_true_eq, Prod.mk.injEq]
    constructor
    · intro h
      split at h
      · rename_i hc
        obtain ⟨q, hq, hqL⟩ := hc.2
        exact ⟨L, ⟨⟨q, hq, hqL⟩, hc.1⟩, rfl, Option.some.inj h⟩
      · cases h
    · rintro ⟨L', ⟨⟨q, hq, hqL⟩, hne⟩, rfl, rfl⟩
      rw [if_pos ⟨hne, ⟨q, hq, hqL⟩⟩]
  · apply List.Nodup.map
    · intro a b hab
      exact (Prod.mk.injEq _ _ _ _ ▸ hab).1
    · exact List.nodup_dedup _

theorem foldl_range_entries (entries : List (String × SectionScore)) :
    entries.foldl (fun scores entry =>
        let score := entry.2
        if score.MaxScore > 0 then
          scores ++ [{ score with Percentage := (score.Score / score.MaxScore) * 100 }]
        else scores) []
      = (entries.filter (fun e => decide (0 < e.2.MaxScore))).map
          (fun e => { e.2 with Percentage := (e.2.Score / e.2.MaxScore) * 100 }) := by
  have h := foldl_cond_append (fun e : String × SectionScore => decide (0 < e.2.MaxScore))
    (fun e => ({ e.2 with Percentage := (e.2.Score / e.2.MaxScore) * 100 } : SectionScore))
    entries []
  simpa using h

/-- C9: whatever order Go's `range` visits the map in, `CalculateSubCategoryScores` returns, as
a collection, exactly one entry per distinct non-empty subcategory label of the (first) section
with the given name whose summed max score is positive, with the scores and max scores summed
over the questions of that section carrying the label and `Percentage = Score / MaxScore * 100`;
an unknown section name yields the empty result. -/
theorem CalculateSubCategoryScores_spec
    (rangeOrder : List (String × SectionScore) → List (String × SectionScore))
    (hrange : ∀ m, (rangeOrder m).Perm m)
    (survey : Survey) (sectionName : String) (assessmentID : Int) :
    (CalculateSubCategoryScores rangeOrder survey sectionName assessmentID).Perm
        (match survey.Sections.find? (fun sec => decide (sec.SectionName = sectionName)) with
         | none => []
         | some sec =>
           ((subCategoryLabels sec.Questions).map
              (subCategoryEntry assessmentID sec.Questions)).filter
             (fun e => decide (0 < e.MaxScore))) ∧
      ((∀ sec ∈ survey.Sections, sec.SectionName ≠ sectionName) →
        CalculateSubCategoryScores rangeOrder survey sectionName assessmentID = []) := by
  constructor
  · unfold CalculateSubCategoryScores
    cases survey.Sections.find? (fun sec => decide (sec.SectionName = sectionName)) with
    | none => exact List.Perm.refl _
    | some sec =>
      simp only [foldl_range_entries]
      have h1 := ((hrange (sec.Questions.foldl (addToSubCategory assessmentID) [])).filter
        (fun e => decide (0 < e.2.MaxScore))).map
        (fun e => ({ e.2 with Percentage := (e.2.Score / e.2.MaxScore) * 100 } : SectionScore))
      have h2 := ((fold_perm_labels assessmentID sec.Questions).filter
        (fun e => decide (0 < e.2.MaxScore))).map
        (fun e => ({ e.2 with Percentage := (e.2.Score / e.2.MaxScore) * 100 } : SectionScore))
      refine (h1.trans h2).trans ?_
      rw [List.filter_map, List.filter_map, List.map_map]
      exact List.Perm.refl _
  · intro hno
    unfold CalculateSubCategoryScores
    have hfind : survey.Sections.find? (fun sec => decide (sec.SectionName = sectionName))
        = none := by
      rw [List.find?_eq_none]
      intro sec hsec
      simpa using hno sec hsec
    rw [hfind]

/-- Witness for C9: with `range` visiting the map in reverse insertion order, the subcategory
scores of the section Delivery of `labelledCatalog` are a permutation of the entries of its
labels Build and Test. -/
theorem CalculateSubCategoryScores_spec_witness :
    (CalculateSubCategoryScores List.reverse labelledCatalog "Delivery" 7).Perm
        (match labelledCatalog.Sections.find? (fun sec => decide (sec.SectionName = "Delivery"))
          with
         | none => []
         | some sec =>
           ((subCategoryLabels sec.Questions).map (subCategoryEntry 7 sec.Questions)).filter
             (fun e => decide (0 < e.MaxScore))) ∧
      ((∀ sec ∈ labelledCatalog.Sections, sec.SectionName ≠ "Delivery") →
        CalculateSubCategoryScores List.reverse labelledCatalog "Delivery" 7 = []) :=
  CalculateSubCategoryScores_spec List.reverse (fun m => List.reverse_perm m)
    labelledCatalog "Delivery" 7

/-! ## C10: order of the subcategory scores -/

/-- C10: evaluation at the failing input. On the section Delivery, whose labels first appear in
the order Build, Test, the entries come out as Test, Build when `range` visits the map in
reverse insertion order and as Build, Test when it visits it in insertion order: the order of
the result follows the map iteration order, not the order of first appearance. -/
theorem CalculateSubCategoryScores_order_follows_range :
    (CalculateSubCategoryScores List.reverse labelledCatalog "Delivery" 7).map
        (fun e => e.SectionName) = ["Test", "Build"] ∧
      (CalculateSubCategoryScores id labelledCatalog "Delivery" 7).map
        (fun e => e.SectionName) = ["Build", "Test"] := by
  constructor
  · simp [CalculateSubCategoryScores, labelledCatalog, deliverySection, addToSubCategory,
      mapLookup, mapStore, CalculateQuestionScore, CalculateQuestionMaxScore]
    norm_num
  · simp [CalculateSubCategoryScores, labelledCatalog, deliverySection, addToSubCategory,
      mapLookup, mapStore, CalculateQuestionScore, CalculateQuestionMaxScore]
    norm_num

/-! ## C11: questions without a response -/

theorem mem_mapIdx_of_forall {α β : Type} (P : α → Prop) (Q : β → Prop) (l : List α)
    (f : Nat → α → β) (hf : ∀ i a, P a → Q (f i a)) (hl : ∀ a ∈ l, P a) :
    ∀ b ∈ l.mapIdx f, Q b := by
  intro b hb
  obtain ⟨i, hi, rfl⟩ := List.mem_mapIdx.1 hb
  exact hf i _ (hl _ (List.getElem_mem hi))

theorem assignQuestionID_unchecked (i j : Nat) (q : Question)
    (h : ∀ a ∈ q.Answers, a.Value ≠ "checked") :
    ∀ a ∈ (assignQuestionID i j q).Answers, a.Value ≠ "checked" := by
  unfold assignQuestionID
  by_cases hB : q.Type_ = "Banner"
  · simpa [hB] using h
  · simp only [hB, ne_eq, not_false_eq_true, if_true]
    apply mem_mapIdx_of_forall (fun a : Answer => a.Value ≠ "checked")
      (fun a : Answer => a.Value ≠ "checked")
    · intro k a ha
      by_cases hv : a.Value = ""
      · simp [hv]
      · simpa [hv] using ha
    · intro a ha
      by_cases h0 : q.Answers.length = 0
      · simp only [h0, if_true, List.mem_cons, List.mem_singleton, List.not_mem_nil,
          or_false] at ha
        rcases ha with rfl | rfl <;> decide
      · simp only [h0, if_false] at ha
        exact h a ha

theorem LoadQuestions_unchecked (sections : List Section)
    (h : ∀ sec ∈ sections, ∀ q ∈ sec.Questions, ∀ a ∈ q.Answers, a.Value ≠ "checked") :
    ∀ sec ∈ (LoadQuestions sections).Sections, ∀ q ∈ sec.Questions,
      ∀ a ∈ q.Answers, a.Value ≠ "checked" := by
  intro sec hsec q hq
  simp only [LoadQuestions, detectSubCategories, assignQuestionIDs, List.mem_map] at hsec
  obtain ⟨sec1, hsec1, rfl⟩ := hsec
  obtain ⟨i, hi, rfl⟩ := List.mem_mapIdx.1 hsec1
  obtain ⟨j, hj, rfl⟩ := List.mem_mapIdx.1 hq
  exact assignQuestionID_unchecked i j _
    (h _ (List.getElem_mem hi) _ (List.getElem_mem hj))

theorem CalculateQuestionScore_unchecked (q : Question)
    (h : ∀ a ∈ q.Answers, a.Value ≠ "checked") : CalculateQuestionScore q = 0 := by
  unfold CalculateQuestionScore
  split
  · rfl
  · have hf : q.Answers.filter (fun a => decide (a.Value = "checked")) = [] := by
      rw [List.filter_eq_nil_iff]
      intro a ha
      simpa using h a ha
    have := foldl_cond_add_eq_sum (fun a : Answer => decide (a.Value = "checked"))
      (fun a => a.Score) q.Answers 0
    simp only [decide_eq_true_eq, hf, List.map_nil, List.sum_nil, add_zero] at this
    exact this

theorem applyToQuestion_unanswered (responses : List Response) (q : Question)
    (h : ∀ r ∈ responses, r.QuestionID ≠ q.ID) :
    applyToQuestion (buildResponseMap responses) q = q := by
  rw [applyToQuestion_eq, mapLookup_buildResponseMap]
  have hnone : lastResponseFor responses q.ID = none := by
    unfold lastResponseFor
    rw [List.find?_eq_none]
    intro r hr
    simpa using h r (List.mem_reverse.1 hr)
  rw [hnone]
  rfl

theorem CalculateQuestionMaxScore_applyToQuestion (responseMap : List (String × List String))
    (q : Question) :
    CalculateQuestionMaxScore (applyToQuestion responseMap q) = CalculateQuestionMaxScore q := by
  have hT := applyToQuestion_Type responseMap q
  have hS := applyToQuestion_scores responseMap q
  have h1 : ∀ l : List Answer,
      l.foldl (fun maxScore answer =>
          if answer.Score > maxScore then answer.Score else maxScore) (0 : ℚ)
        = (l.map (fun a => a.Score)).foldl (fun m x => if x > m then x else m) 0 := by
    intro l
    rw [List.foldl_map]
  have h2 : ∀ l : List Answer,
      l.foldl (fun maxScore answer => maxScore + answer.Score) (0 : ℚ)
        = (l.map (fun a => a.Score)).foldl (fun m x => m + x) 0 := by
    intro l
    rw [List.foldl_map]
  unfold CalculateQuestionMaxScore
  rw [hT, h1, h1, h2, h2, hS]

/-- C11 (as stated) fails: in the catalog loaded from `parsedAnswered`, whose source authors
`Value = "checked"` on answers, the questions keep checked answers after `ApplyResponses` with
an empty response list. -/
theorem unanswered_question_can_be_checked :
    ¬ (∀ (sections : List Section) (responses : List Response),
        ∀ sec ∈ (ApplyResponses (LoadQuestions sections) responses).Sections,
          ∀ q ∈ sec.Questions, (∀ r ∈ responses, r.QuestionID ≠ q.ID) →
            ∀ a ∈ q.Answers, a.Value ≠ "checked") := by
  intro h
  have h0 := h parsedAnswered []
  revert h0
  decide

/-- C11 (amended): for every catalog produced by `LoadQuestions` from a source in which no
answer is authored with `Value = "checked"`, and every response list, the question at any
position `(i, j)` whose ID is not the questionID of any response is unchanged by
`ApplyResponses` and has no answer flagged `"checked"`: its score is 0, and the summed
`CalculateQuestionMaxScore` of its section is what it was before the responses. -/
theorem unanswered_question_unchecked (sections : List Section) (responses : List Response)
    (i j : Nat) (sec : Section) (q : Question)
    (hclean : ∀ sec ∈ sections, ∀ q ∈ sec.Questions, ∀ a ∈ q.Answers, a.Value ≠ "checked")
    (hs : (LoadQuestions sections).Sections[i]? = some sec)
    (hq : sec.Questions[j]? = some q)
    (hno : ∀ r ∈ responses, r.QuestionID ≠ q.ID) :
    ∃ sec', (ApplyResponses (LoadQuestions sections) responses).Sections[i]? = some sec' ∧
      sec'.Questions[j]? = some q ∧
      (∀ a ∈ q.Answers, a.Value ≠ "checked") ∧
      CalculateQuestionScore q = 0 ∧
      (sec'.Questions.map CalculateQuestionMaxScore).sum
        = (sec.Questions.map CalculateQuestionMaxScore).sum := by
  have hun : ∀ a ∈ q.Answers, a.Value ≠ "checked" :=
    LoadQuestions_unchecked sections hclean sec (List.getElem?_mem hs) q (List.getElem?_mem hq)
  refine ⟨{ sec with Questions :=
      sec.Questions.map (applyToQuestion (buildResponseMap responses)) }, ?_, ?_, hun,
    CalculateQuestionScore_unchecked q hun, ?_⟩
  · simp [ApplyResponses, List.getElem?_map, hs]
  · simp [List.getElem?_map, hq, applyToQuestion_unanswered responses q hno]
  · simp only [List.map_map]
    congr 1
    apply List.map_congr_left
    intro q' _
    exact CalculateQuestionMaxScore_applyToQuestion _ q'

/-- Witness for C11 (amended): in the catalog loaded from `parsedClean`, the question `S1-Q2`
is not named by the response list `firstAnswer` (which names `S1-Q1`) and stays unchecked. -/
theorem unanswered_question_unchecked_witness :
    ∃ sec', (ApplyResponses (LoadQuestions parsedClean) firstAnswer).Sections[0]?
        = some sec' ∧
      sec'.Questions[1]? = some loadedBareQuestion ∧
      (∀ a ∈ loadedBareQuestion.Answers, a.Value ≠ "checked") ∧
      CalculateQuestionScore loadedBareQuestion = 0 ∧
      (sec'.Questions.map CalculateQuestionMaxScore).sum
        = (loadedCleanSection.Questions.map CalculateQuestionMaxScore).sum :=
  unanswered_question_unchecked parsedClean firstAnswer 0 1 loadedCleanSection
    loadedBareQuestion (by decide) (by decide) (by decide) (by decide)

/-! ## C12: what SaveResponses saves -/

theorem collectAnswerIDs_eq (formData : List (String × List String)) (q : Question) :
    collectAnswerIDs formData q = selectionOf formData q := by
  unfold collectAnswerIDs selectionOf
  by_cases hO : q.Type_ = "Option"
  · simp only [hO, if_true]
    cases mapLookup formData q.ID with
    | none => rfl
    | some values => cases values <;> rfl
  · by_cases hC : q.Type_ = "Checkbox"
    · rw [if_neg hO, if_neg hO, if_pos hC, if_pos hC]
      have h := foldl_cond_append (fun a : Answer => (mapLookup formData a.ID).isSome)
        (fun a : Answer => a.ID) q.Answers []
      simp only [List.nil_append] at h
      rw [← h]
      congr 1
      funext answerIDs answer
      cases mapLookup formData answer.ID <;> simp
    · rw [if_neg hO, if_neg hO, if_neg hC, if_neg hC]

theorem saveQuestionResponses_eq {σ : Type} (save : σ → Response → Except Error σ)
    (assessmentID : Int) (formData : List (String × List String)) (qs : List Question)
    (st : σ) :
    saveQuestionResponses save assessmentID formData qs st =
      saveInOrder save
        ((qs.filter (fun q => decide (¬ (q.Type_ = "Banner" ∨ q.ID = "") ∧
            selectionOf formData q ≠ []))).map
          (fun q => { ID := 0, AssessmentID := assessmentID, QuestionID := q.ID,
                      AnswerIDs := selectionOf formData q })) st := by
  induction qs generalizing st with
  | nil => rfl
  | cons q qs ih =>
    unfold saveQuestionResponses
    by_cases hskip : q.Type_ = "Banner" ∨ q.ID = ""
    · simp only [hskip, if_true, List.filter_cons, not_true_eq_false, false_and,
        decide_False, Bool.false_eq_true, if_false]
      exact ih st
    · by_cases hsel : selectionOf formData q = []
      · simp only [hskip, if_false, collectAnswerIDs_eq, hsel, List.length_nil, gt_iff_lt,
          lt_self_iff_false, List.filter_cons, ne_eq, not_true_eq_false, and_false,
          decide_False, Bool.false_eq_true]
        exact ih st
      · have hlen : (selectionOf formData q).length > 0 := List.length_pos.2 hsel
        simp only [hskip, if_false, collectAnswerIDs_eq, hlen, if_true, List.filter_cons,
          not_false_eq_true, ne_eq, hsel, and_self, decide_True, List.map_cons, saveInOrder]
        cases save st { ID := 0, AssessmentID := assessmentID, QuestionID := q.ID,
                        AnswerIDs := selectionOf formData q } with
        | error e => rfl
        | ok st1 => exact ih st1

theorem questionIDFormat_ne_empty (a b : Nat) : questionIDFormat a b ≠ "" := by
  intro h
  have := congrArg String.data h
  simp [questionIDFormat, String.data_append] at this

theorem LoadQuestions_ID_ne_empty (sections : List Section) :
    ∀ sec ∈ (LoadQuestions sections).Sections, ∀ q ∈ sec.Questions,
      q.Type_ ≠ "Banner" → q.ID ≠ "" := by
  intro sec hsec q hq hB
  simp only [LoadQuestions, detectSubCategories, assignQuestionIDs, List.mem_map] at hsec
  obtain ⟨sec1, hsec1, rfl⟩ := hsec
  obtain ⟨i, hi, rfl⟩ := List.mem_mapIdx.1 hsec1
  obtain ⟨j, hj, rfl⟩ := List.mem_mapIdx.1 hq
  unfold assignQuestionID at hB ⊢
  by_cases hB0 : (sections[i].Questions[j]).Type_ = "Banner"
  · simp [hB0] at hB
  · simp only [hB0, ne_eq, not_false_eq_true, if_true]
    exact questionIDFormat_ne_empty _ _

theorem GetSectionByURLName_mem (toLower : Char → Char) (survey : Survey) (urlName : String)
    (sec : Section) (h : GetSectionByURLName toLower survey urlName = .ok sec) :
    sec ∈ survey.Sections := by
  unfold GetSectionByURLName at h
  cases hf : survey.Sections.find?
      (fun sec => decide (SectionNameToURLName toLower sec.SectionName = urlName)) with
  | none => simp [hf] at h
  | some s =>
    simp only [hf, Except.ok.injEq] at h
    subst h
    exact List.mem_of_find?_eq_some hf

theorem saveInOrder_recordCall (l log : List Response) :
    saveInOrder recordCall l log = (log ++ l, .ok ()) := by
  induction l generalizing log with
  | nil => simp [saveInOrder]
  | cons r rs ih => simp [saveInOrder, recordCall, ih]

theorem SaveResponses_eq_saveInOrder {σ : Type} (save : σ → Response → Except Error σ)
    (toLower : Char → Char) (sections : List Section) (st : σ) (assessmentID : Int)
    (sectionName : String) (formData : List (String × List String)) (s : Section)
    (hs : GetSectionByURLName toLower (LoadQuestions sections) sectionName = .ok s) :
    SurveyService.SaveResponses save toLower (.ok sections) st assessmentID sectionName formData
      = saveInOrder save
          ((s.Questions.filter (fun q => decide (q.Type_ ≠ "Banner" ∧
              selectionOf formData q ≠ []))).map
            (fun q => { ID := 0, AssessmentID := assessmentID, QuestionID := q.ID,
                        AnswerIDs := selectionOf formData q })) st := by
  unfold SurveyService.SaveResponses
  simp only [hs, saveQuestionResponses_eq]
  congr 2
  apply List.filter_congr
  intro q hq
  have hid := LoadQuestions_ID_ne_empty sections s
    (GetSectionByURLName_mem toLower _ _ s hs) q hq
  by_cases hB : q.Type_ = "Banner"
  · simp [hB]
  · simp [hB, hid hB]

/-- C12: for a loaded catalog and a slug resolving to the section `s`, `SaveResponses` saves, in
question order and stopping only if a save fails, one response `(assessmentID, q.ID, selection)`
for exactly the non-Banner questions `q` of `s` whose selection is non-empty (the selection of
an Option question is the first value under `q.ID`, that of a Checkbox question the answer IDs
present as keys); with a ledger that records its calls, the recorded calls are exactly these
responses. -/
theorem SaveResponses_calls {σ : Type} (save : σ → Response → Except Error σ)
    (toLower : Char → Char) (sections : List Section) (st : σ) (assessmentID : Int)
    (sectionName : String) (formData : List (String × List String)) (s : Section)
    (hs : GetSectionByURLName toLower (LoadQuestions sections) sectionName = .ok s) :
    SurveyService.SaveResponses save toLower (.ok sections) st assessmentID sectionName formData
      = saveInOrder save
          ((s.Questions.filter (fun q => decide (q.Type_ ≠ "Banner" ∧
              selectionOf formData q ≠ []))).map
            (fun q => { ID := 0, AssessmentID := assessmentID, QuestionID := q.ID,
                        AnswerIDs := selectionOf formData q })) st ∧
    SurveyService.SaveResponses recordCall toLower (.ok sections) [] assessmentID sectionName
        formData
      = ((s.Questions.filter (fun q => decide (q.Type_ ≠ "Banner" ∧
              selectionOf formData q ≠ []))).map
            (fun q => { ID := 0, AssessmentID := assessmentID, QuestionID := q.ID,
                        AnswerIDs := selectionOf formData q }), .ok ()) := by
  constructor
  · exact SaveResponses_eq_saveInOrder save toLower sections st assessmentID sectionName
      formData s hs
  · rw [SaveResponses_eq_saveInOrder recordCall toLower sections [] assessmentID sectionName
      formData s hs, saveInOrder_recordCall]
    simp

/-- Witness for C12: on the catalog loaded from `parsedAnswered`, the slug `culture` and the
form map `sampleForm`, the recorded calls are the responses of `S1-Q2` and `S1-Q3`. -/
theorem SaveResponses_calls_witness :
    SurveyService.SaveResponses recordCall Char.toLower (.ok parsedAnswered) [] 1 "culture"
        sampleForm
      = saveInOrder recordCall
          ((loadedCultureSection.Questions.filter (fun q => decide (q.Type_ ≠ "Banner" ∧
              selectionOf sampleForm q ≠ []))).map
            (fun q => { ID := 0, AssessmentID := 1, QuestionID := q.ID,
                        AnswerIDs := selectionOf sampleForm q })) [] ∧
    SurveyService.SaveResponses recordCall Char.toLower (.ok parsedAnswered) [] 1 "culture"
        sampleForm
      = ((loadedCultureSection.Questions.filter (fun q => decide (q.Type_ ≠ "Banner" ∧
              selectionOf sampleForm q ≠ []))).map
            (fun q => { ID := 0, AssessmentID := 1, QuestionID := q.ID,
                        AnswerIDs := selectionOf sampleForm q }), .ok ()) :=
  SaveResponses_calls recordCall Char.toLower parsedAnswered [] 1 "culture" sampleForm
    loadedCultureSection (by decide)

/-! ## C13: what SaveResponses leaves untouched -/

theorem find?_map_of_fixed {α : Type} (p : α → Bool) (f : α → α) (l : List α)
    (h1 : ∀ x, p (f x) = p x) (h2 : ∀ x, p x = true → f x = x) :
    (l.map f).find? p = l.find? p := by
  induction l with
  | nil => rfl
  | cons x xs ih =>
    simp only [List.map_cons, List.find?_cons, h1]
    cases hp : p x with
    | true => simp [h2 x hp]
    | false => simpa using ih

theorem SaveResponse_frame (db db1 : Database) (r : Response) (a : Int) (k : String)
    (hsave : AssessmentService.SaveResponse db r = .ok db1)
    (hkey : ¬ (r.AssessmentID = a ∧ r.QuestionID = k)) :
    storedResponse db1 a k = storedResponse db a k := by
  unfold AssessmentService.SaveResponse at hsave
  split at hsave
  · split at hsave
    · simp only [Except.ok.injEq] at hsave
      subst hsave
      unfold storedResponse
      apply find?_map_of_fixed
      · intro x
        by_cases hx : x.AssessmentID = r.AssessmentID ∧ x.QuestionID = r.QuestionID
        · simp [hx]
        · simp [hx]
      · intro x hx
        have hx2 : x.AssessmentID = a ∧ x.QuestionID = k := by simpa using hx
        have hne : ¬ (x.AssessmentID = r.AssessmentID ∧ x.QuestionID = r.QuestionID) := by
          intro h
          exact hkey ⟨h.1 ▸ hx2.1, h.2 ▸ hx2.2⟩
        simp [hne]
    · simp only [Except.ok.injEq] at hsave
      subst hsave
      unfold storedResponse
      rw [List.find?_append]
      have hnew : List.find? (fun r0 : Response => decide (r0.AssessmentID = a ∧ r0.QuestionID = k))
          [{ ID := nextID (db.responses.map (fun r => r.ID)), AssessmentID := r.AssessmentID,
             QuestionID := r.QuestionID, AnswerIDs := r.AnswerIDs }] = none := by
        simp [List.find?_cons, hkey]
      rw [hnew]
      cases List.find? (fun r0 : Response => decide (r0.AssessmentID = a ∧ r0.QuestionID = k))
        db.responses <;> rfl
  · cases hsave

theorem saveInOrder_frame (l : List Response) (db : Database) (a : Int) (k : String)
    (h : ∀ r ∈ l, ¬ (r.AssessmentID = a ∧ r.QuestionID = k)) :
    storedResponse (saveInOrder AssessmentService.SaveResponse l db).1 a k
      = storedResponse db a k := by
  induction l generalizing db with
  | nil => rfl
  | cons r rs ih =>
    unfold saveInOrder
    cases hsave : AssessmentService.SaveResponse db r with
    | error e => rfl
    | ok db1 =>
      simp only
      rw [ih db1 (fun r' hr' => h r' (List.mem_cons_of_mem _ hr'))]
      exact SaveResponse_frame db db1 r a k hsave (h r (List.mem_cons_self _ _))

/-- C13: after `SaveResponses` on the section `s`, the stored response of a key
`(assessment, questionID)` is exactly what it was before (same row or still absent) whenever the
assessment is another one, or every question of `s` with that ID is a Banner or has an empty
selection; this covers the questions of `s` with zero selected answers and every question ID
outside `s`. -/
theorem SaveResponses_frame (toLower : Char → Char) (sections : List Section)
    (db : Database) (assessmentID : Int) (sectionName : String)
    (formData : List (String × List String)) (s : Section) (a : Int) (k : String)
    (hs : GetSectionByURLName toLower (LoadQuestions sections) sectionName = .ok s)
    (h : a ≠ assessmentID ∨
      ∀ q ∈ s.Questions, q.ID = k → q.Type_ = "Banner" ∨ selectionOf formData q = []) :
    storedResponse
        (SurveyService.SaveResponses AssessmentService.SaveResponse toLower (.ok sections) db
          assessmentID sectionName formData).1 a k
      = storedResponse db a k := by
  rw [SaveResponses_eq_saveInOrder AssessmentService.SaveResponse toLower sections db
    assessmentID sectionName formData s hs]
  apply saveInOrder_frame
  intro r hr hkey
  obtain ⟨q, hq, rfl⟩ := List.mem_map.1 hr
  have hf := List.mem_filter.1 hq
  have hcond : q.Type_ ≠ "Banner" ∧ selectionOf formData q ≠ [] := by simpa using hf.2
  rcases h with h | h
  · exact h hkey.1.symm
  · rcases h q hf.1 hkey.2 with hB | hsel
    · exact hcond.1 hB
    · exact hcond.2 hsel

/-- Witness for C13: saving `sampleForm` (which selects nothing for `S1-Q4`) into assessment 1
of `sampleDB` leaves the stored response of `S1-Q4` as it was. -/
theorem SaveResponses_frame_witness :
    storedResponse
        (SurveyService.SaveResponses AssessmentService.SaveResponse Char.toLower
          (.ok parsedAnswered) sampleDB 1 "culture" sampleForm).1 1 "S1-Q4"
      = storedResponse sampleDB 1 "S1-Q4" :=
  SaveResponses_frame Char.toLower parsedAnswered sampleDB 1 "culture" sampleForm
    loadedCultureSection 1 "S1-Q4" (by decide) (Or.inr (by decide))

/-! ## C14: saving into a completed assessment -/

/-- C14 (as stated) fails for the service: `SurveyService.SaveResponses` on the completed
assessment 1 of `completedDB` succeeds and changes its stored responses. -/
theorem service_saves_into_completed :
    ¬ (∀ (toLower : Char → Char) (sections : List Section) (db : Database)
        (assessmentID : Int) (sectionName : String) (formData : List (String × List String))
        (assessment : Assessment),
        AssessmentService.GetAssessmentByID db assessmentID = .ok assessment →
        assessment.Status = StatusCompleted →
        (∃ err, (SurveyService.SaveResponses AssessmentService.SaveResponse toLower
            (.ok sections) db assessmentID sectionName formData).2 = .error err) ∧
        (SurveyService.SaveResponses AssessmentService.SaveResponse toLower
            (.ok sections) db assessmentID sectionName formData).1.responses
          = db.responses) := by
  intro h
  have h0 := (h Char.toLower parsedAnswered completedDB 1 "culture" sampleForm
    completedAssessment (by decide) (by decide)).2
  revert h0
  decide

/-- C14 (amended): when the assessment of the request has status completed, the HTTP handler
`SurveyHandler.SaveResponses` leaves the database unchanged and does not answer 200; for an
authenticated user with the update permission on the assessment's team and a non-empty section
name it answers 400 "Assessment is already completed".  The guard is the handler's. -/
theorem handler_rejects_completed (toLower : Char → Char)
    (source : Except Error (List Section)) (db : Database) (assessmentID : Int)
    (sectionName : String) (currentUser : Option User)
    (body : Except Error (List (String × List String))) (assessment : Assessment)
    (hfind : AssessmentService.GetAssessmentByID db assessmentID = .ok assessment)
    (hstatus : assessment.Status = StatusCompleted) :
    (SurveyHandler.SaveResponses toLower source db (some assessmentID) sectionName currentUser
        body).1 = db ∧
    (SurveyHandler.SaveResponses toLower source db (some assessmentID) sectionName currentUser
        body).2.1 ≠ 200 ∧
    (∀ user, currentUser = some user → sectionName ≠ "" →
      RBACService.CheckTeamPermission db user.ID assessment.TeamID ResourceAssessment
        ActionUpdate = true →
      (SurveyHandler.SaveResponses toLower source db (some assessmentID) sectionName currentUser
        body).2 = (400, "Assessment is already completed")) := by
  have hne : assessment.Status ≠ StatusInProgress := by
    rw [hstatus]
    decide
  unfold SurveyHandler.SaveResponses
  simp only [hfind]
  by_cases hsec : sectionName = ""
  · simp [hsec]
  · cases currentUser with
    | none => simp [hsec]
    | some user =>
      by_cases hperm : RBACService.CheckTeamPermission db user.ID assessment.TeamID
          ResourceAssessment ActionUpdate = true
      · simp [hsec, hperm, hne]
      · have hf : RBACService.CheckTeamPermission db user.ID assessment.TeamID
            ResourceAssessment ActionUpdate = false := by simpa using hperm
        simp [hsec, hf]

/-- Witness for C14 (amended): the handler on the completed assessment 1 of `completedDB`. -/
theorem handler_rejects_completed_witness :
    (SurveyHandler.SaveResponses Char.toLower (.ok parsedAnswered) completedDB (some 1)
        "culture" (some sampleUser) (.ok sampleForm)).1 = completedDB ∧
    (SurveyHandler.SaveResponses Char.toLower (.ok parsedAnswered) completedDB (some 1)
        "culture" (some sampleUser) (.ok sampleForm)).2.1 ≠ 200 ∧
    (∀ user, some sampleUser = some user → "culture" ≠ "" →
      RBACService.CheckTeamPermission completedDB user.ID completedAssessment.TeamID
        ResourceAssessment ActionUpdate = true →
      (SurveyHandler.SaveResponses Char.toLower (.ok parsedAnswered) completedDB (some 1)
        "culture" (some sampleUser) (.ok sampleForm)).2
        = (400, "Assessment is already completed")) :=
  handler_rejects_completed Char.toLower (.ok parsedAnswered) completedDB 1 "culture"
    (some sampleUser) (.ok sampleForm) completedAssessment (by decide) (by decide)

/-! ## C15: completing an in-progress assessment -/

theorem GetAssessmentByID_ok (db : Database) (id : Int) (a : Assessment)
    (h : AssessmentService.GetAssessmentByID db id = .ok a) :
    db.assessments.find? (fun x => decide (x.ID = id)) = some a ∧ a ∈ db.assessments ∧
      a.ID = id := by
  unfold AssessmentService.GetAssessmentByID at h
  cases hf : db.assessments.find? (fun x => decide (x.ID = id)) with
  | none => simp [hf] at h
  | some b =>
    simp only [hf, Except.ok.injEq] at h
    subst h
    exact ⟨rfl, List.mem_of_find?_eq_some hf, by simpa using List.find?_some hf⟩

theorem upsertSectionScore_assessments (columns : ScoreColumns) (db : Database)
    (score : SectionScore) (key : String) (s m p : ℚ) :
    (upsertSectionScore columns db score key s m p).assessments = db.assessments := by
  unfold upsertSectionScore
  split <;> rfl

theorem upsertSectionScore_row (columns : ScoreColumns) (db : Database)
    (score : SectionScore) (key : String) (s m p : ℚ)
    (hkey : columns.nameKey score.SectionName = some key) :
    ∃ row ∈ (upsertSectionScore columns db score key s m p).section_scores,
      row.AssessmentID = score.AssessmentID ∧ columns.nameKey row.SectionName = some key ∧
      row.Score = s ∧ row.MaxScore = m ∧ row.Percentage = p := by
  unfold upsertSectionScore
  by_cases hex : db.section_scores.any (fun r => decide (r.AssessmentID = score.AssessmentID ∧
      columns.nameKey r.SectionName = some key)) = true
  · rw [if_pos hex]
    obtain ⟨r, hr, hk⟩ := List.any_eq_true.1 hex
    have hk2 : r.AssessmentID = score.AssessmentID ∧ columns.nameKey r.SectionName = some key := by
      simpa using hk
    refine ⟨{ r with Score := s, MaxScore := m, Percentage := p }, ?_, hk2.1, hk2.2, rfl, rfl,
      rfl⟩
    apply List.mem_map.2
    exact ⟨r, hr, by rw [if_pos hk2]⟩
  · rw [if_neg hex]
    exact ⟨_, List.mem_append_right _ (List.mem_singleton_self _), rfl, hkey, rfl, rfl, rfl⟩

theorem upsertSectionScore_keeps (columns : ScoreColumns) (db : Database)
    (score : SectionScore) (key : String) (s m p : ℚ) (row : SectionScore)
    (hrow : row ∈ db.section_scores)
    (hne : ¬ (row.AssessmentID = score.AssessmentID ∧
      columns.nameKey row.SectionName = some key)) :
    row ∈ (upsertSectionScore columns db score key s m p).section_scores := by
  unfold upsertSectionScore
  split
  · apply List.mem_map.2
    exact ⟨row, hrow, by rw [if_neg hne]⟩
  · exact List.mem_append_left _ hrow

theorem SaveSectionScore_accepted (columns : ScoreColumns) (db : Database)
    (score : SectionScore) (key : String) (s m p : ℚ)
    (hfk : db.assessments.any (fun a => decide (a.ID = score.AssessmentID)) = true)
    (hkey : columns.nameKey score.SectionName = some key)
    (hs : columns.toDecimal score.Score = some s)
    (hm : columns.toDecimal score.MaxScore = some m)
    (hp : columns.toDecimal score.Percentage = some p) :
    AssessmentService.SaveSectionScore columns db score
      = .ok (upsertSectionScore columns db score key s m p) := by
  unfold AssessmentService.SaveSectionScore
  rw [if_pos hfk]
  simp only [hkey, hs, hm, hp]

theorem SaveSectionScore_assessments (columns : ScoreColumns) (db db1 : Database)
    (s : SectionScore) (h : AssessmentService.SaveSectionScore columns db s = .ok db1) :
    db1.assessments = db.assessments := by
  unfold AssessmentService.SaveSectionScore at h
  split at h
  · cases hk : columns.nameKey s.SectionName with
    | none => simp [hk] at h
    | some key =>
      cases h1 : columns.toDecimal s.Score with
      | none => simp [hk, h1] at h
      | some sv =>
        cases h2 : columns.toDecimal s.MaxScore with
        | none => simp [hk, h1, h2] at h
        | some mv =>
          cases h3 : columns.toDecimal s.Percentage with
          | none => simp [hk, h1, h2, h3] at h
          | some pv =>
            simp only [hk, h1, h2, h3, Except.ok.injEq] at h
            rw [← h]
            exact upsertSectionScore_assessments columns db s key sv mv pv
  · cases h

theorem saveSectionScores_assessments (columns : ScoreColumns) (l : List SectionScore)
    (db : Database) : (saveSectionScores columns l db).1.assessments = db.assessments := by
  induction l generalizing db with
  | nil => rfl
  | cons s rest ih =>
    unfold saveSectionScores
    cases h : AssessmentService.SaveSectionScore columns db s with
    | error e => rfl
    | ok db1 =>
      simp only
      rw [ih db1, SaveSectionScore_assessments columns db db1 s h]

theorem accepts_values (columns : ScoreColumns) (e : SectionScore) (h : accepts columns e) :
    ∃ key s m p, columns.nameKey e.SectionName = some key ∧
      columns.toDecimal e.Score = some s ∧ columns.toDecimal e.MaxScore = some m ∧
      columns.toDecimal e.Percentage = some p := by
  obtain ⟨h1, h2, h3, h4⟩ := h
  obtain ⟨key, hk⟩ := Option.isSome_iff_exists.1 h1
  obtain ⟨s, hs⟩ := Option.isSome_iff_exists.1 h2
  obtain ⟨m, hm⟩ := Option.isSome_iff_exists.1 h3
  obtain ⟨p, hp⟩ := Option.isSome_iff_exists.1 h4
  exact ⟨key, s, m, p, hk, hs, hm, hp⟩

theorem saveSectionScores_keeps (columns : ScoreColumns) (l : List SectionScore)
    (db : Database) (row : SectionScore) (hrow : row ∈ db.section_scores)
    (hne : ∀ s ∈ l, ¬ (row.AssessmentID = s.AssessmentID ∧
      columns.nameKey row.SectionName = columns.nameKey s.SectionName))
    (hacc : ∀ s ∈ l, accepts columns s)
    (hfk : ∀ s ∈ l, db.assessments.any (fun a => decide (a.ID = s.AssessmentID)) = true) :
    row ∈ (saveSectionScores columns l db).1.section_scores := by
  induction l generalizing db with
  | nil => exact hrow
  | cons s rest ih =>
    unfold saveSectionScores
    obtain ⟨key, sv, mv, pv, hk, h1, h2, h3⟩ :=
      accepts_values columns s (hacc s (List.mem_cons_self _ _))
    rw [SaveSectionScore_accepted columns db s key sv mv pv (hfk s (List.mem_cons_self _ _))
      hk h1 h2 h3]
    simp only
    apply ih
    · apply upsertSectionScore_keeps columns db s key sv mv pv row hrow
      rw [← hk]
      exact hne s (List.mem_cons_self _ _)
    · intro s' hs'
      exact hne s' (List.mem_cons_of_mem _ hs')
    · intro s' hs'
      exact hacc s' (List.mem_cons_of_mem _ hs')
    · intro s' hs'
      rw [upsertSectionScore_assessments]
      exact hfk s' (List.mem_cons_of_mem _ hs')

theorem saveSectionScores_persists (columns : ScoreColumns) (assessmentID : Int)
    (l : List SectionScore) (db : Database)
    (hid : ∀ s ∈ l, s.AssessmentID = assessmentID)
    (hnames : (l.map (fun e => columns.nameKey e.SectionName)).Nodup)
    (hacc : ∀ s ∈ l, accepts columns s)
    (hfk : db.assessments.any (fun a => decide (a.ID = assessmentID)) = true) :
    (saveSectionScores columns l db).2 = .ok () ∧
    ∀ e ∈ l, ∃ row ∈ (saveSectionScores columns l db).1.section_scores,
      row.AssessmentID = assessmentID ∧
      columns.nameKey row.SectionName = columns.nameKey e.SectionName ∧
      columns.toDecimal e.Score = some row.Score ∧
      columns.toDecimal e.MaxScore = some row.MaxScore ∧
      columns.toDecimal e.Percentage = some row.Percentage := by
  induction l generalizing db with
  | nil => exact ⟨rfl, by simp⟩
  | cons s rest ih =>
    have hs : s.AssessmentID = assessmentID := hid s (List.mem_cons_self _ _)
    rw [List.map_cons, List.nodup_cons] at hnames
    obtain ⟨key, sv, mv, pv, hk, h1, h2, h3⟩ :=
      accepts_values columns s (hacc s (List.mem_cons_self _ _))
    have hsave := SaveSectionScore_accepted columns db s key sv mv pv
      (by rw [hs]; exact hfk) hk h1 h2 h3
    obtain ⟨row, hrow, hr1, hr2, hr3, hr4, hr5⟩ :=
      upsertSectionScore_row columns db s key sv mv pv hk
    have hfk1 : (upsertSectionScore columns db s key sv mv pv).assessments.any
        (fun a => decide (a.ID = assessmentID)) = true := by
      rw [upsertSectionScore_assessments]
      exact hfk
    have ih1 := ih (upsertSectionScore columns db s key sv mv pv)
      (fun s' hs' => hid s' (List.mem_cons_of_mem _ hs')) hnames.2
      (fun s' hs' => hacc s' (List.mem_cons_of_mem _ hs')) hfk1
    unfold saveSectionScores
    rw [hsave]
    simp only
    refine ⟨ih1.1, ?_⟩
    intro e he
    rcases List.mem_cons.1 he with rfl | he
    · refine ⟨row, ?_, hr1.trans hs, by rw [hr2, hk], by rw [h1, hr3], by rw [h2, hr4],
        by rw [h3, hr5]⟩
      apply saveSectionScores_keeps columns rest _ row hrow
      · intro s' hs' hkey
        apply hnames.1
        exact List.mem_map.2 ⟨s', hs', by rw [← hkey.2, hr2, hk]⟩
      · intro s' hs'
        exact hacc s' (List.mem_cons_of_mem _ hs')
      · intro s' hs'
        rw [hid s' (List.mem_cons_of_mem _ hs')]
        exact hfk1
    · exact ih1.2 e he

theorem CalculateSectionScores_AssessmentID (survey : Survey) (assessmentID : Int) :
    ∀ e ∈ CalculateSectionScores survey assessmentID, e.AssessmentID = assessmentID := by
  intro e he
  unfold CalculateSectionScores at he
  simp only [foldl_totals_zero] at he
  have h := foldl_cond_append
    (fun sec : Section => decide (0 < (sec.Questions.map CalculateQuestionMaxScore).sum))
    (fun sec : Section =>
      ({ ID := 0, AssessmentID := assessmentID, SectionName := sec.SectionName,
         Score := (sec.Questions.map CalculateQuestionScore).sum,
         MaxScore := (sec.Questions.map CalculateQuestionMaxScore).sum,
         Percentage := (sec.Questions.map CalculateQuestionScore).sum
           / (sec.Questions.map CalculateQuestionMaxScore).sum * 100 } : SectionScore))
    survey.Sections []
  simp only [decide_eq_true_eq, List.nil_append] at h
  simp only [gt_iff_lt] at he
  rw [h] at he
  obtain ⟨sec, _, rfl⟩ := List.mem_map.1 he
  rfl

theorem mem_sectionScoreRows (db : Database) (assessmentID : Int) (row : SectionScore) :
    row ∈ sectionScoreRows db assessmentID ↔
      row ∈ db.section_scores ∧ row.AssessmentID = assessmentID := by
  unfold sectionScoreRows
  rw [List.mem_insertionSort, List.mem_filter]
  simp

theorem CompleteAssessment_in_progress (db : Database) (now : Int) (assessmentID : Int)
    (a : Assessment)
    (hfind : db.assessments.find? (fun x => decide (x.ID = assessmentID)) = some a)
    (hst : a.Status = StatusInProgress) :
    ∃ db2, AssessmentService.CompleteAssessment db now assessmentID = .ok db2 ∧
      db2.section_scores = db.section_scores ∧
      AssessmentService.GetAssessmentByID db2 assessmentID
        = .ok { a with Status := StatusCompleted, CompletedAt := some now } := by
  have hmem : a ∈ db.assessments := List.mem_of_find?_eq_some hfind
  have hid : a.ID = assessmentID := by simpa using List.find?_some hfind
  have hpos : (db.assessments.filter (fun a =>
      decide (a.ID = assessmentID ∧ a.Status = StatusInProgress))).length ≠ 0 := by
    intro h0
    have hnil := List.length_eq_zero.1 h0
    rw [List.filter_eq_nil_iff] at hnil
    exact hnil a hmem (by simp [hid, hst])
  unfold AssessmentService.CompleteAssessment
  simp only [hpos, if_false]
  refine ⟨_, rfl, rfl, ?_⟩
  unfold AssessmentService.GetAssessmentByID
  simp only
  rw [List.find?_map]
  have hcomp : ((fun x : Assessment => decide (x.ID = assessmentID)) ∘
      (fun a : Assessment => if a.ID = assessmentID ∧ a.Status = StatusInProgress then
        { a with Status := StatusCompleted, CompletedAt := some now } else a))
      = (fun x : Assessment => decide (x.ID = assessmentID)) := by
    funext x
    simp only [Function.comp_apply]
    split <;> rfl
  rw [hcomp, hfind]
  simp [hid, hst]

theorem CalculateResults_of_read
    (rangeOrder : List (String × SectionScore) → List (String × SectionScore))
    (columns : ScoreColumns) (read : RowsOutcome) (sections : List Section) (now : Int)
    (db : Database) (assessmentID : Int) (responses : List Response)
    (hread : AssessmentService.GetAssessmentResponses read db assessmentID = .ok responses) :
    SurveyService.CalculateResults rangeOrder columns read (.ok sections) now db assessmentID
      = match saveSectionScores columns
          (CalculateSectionScores (ApplyResponses (LoadQuestions sections) responses)
            assessmentID) db with
        | (db1, .error err) => (db1, .error err)
        | (db1, .ok _) =>
          match AssessmentService.CompleteAssessment db1 now assessmentID with
          | .error err => (db1, .error (Error.Wrap "failed to complete assessment" err))
          | .ok db2 =>
            (db2, .ok
              { AssessmentID := assessmentID, Team := none,
                SectionScores := CalculateSectionScores
                  (ApplyResponses (LoadQuestions sections) responses) assessmentID,
                SubCategoryScores := collectSubCategoryScores rangeOrder
                  (ApplyResponses (LoadQuestions sections) responses) assessmentID,
                Survey := ApplyResponses (LoadQuestions sections) responses }) := by
  unfold SurveyService.CalculateResults
  simp only [hread]

theorem GetAssessmentResponses_complete (db : Database) (assessmentID : Int) :
    AssessmentService.GetAssessmentResponses .complete db assessmentID
      = .ok (responseRows db assessmentID) := rfl

theorem GetAssessmentScores_complete (db : Database) (assessmentID : Int) :
    AssessmentService.GetAssessmentScores .complete db assessmentID
      = .ok (sectionScoreRows db assessmentID) := rfl

/-- C15 (amended): for an in-progress assessment whose read of the stored responses returns
all of them, and a catalog whose scored sections have names that are accepted by the server
and pairwise distinct as keys of `section_scores` and whose scores the server accepts,
`CalculateResults` succeeds, returns exactly `CalculateSectionScores(ApplyResponses(C, R))`
for the stored responses `R`, leaves for every returned entry a stored row under that entry's
key with the entry's score, max score and percentage as converted by the `DECIMAL(5,2)`
columns, and sets the status to completed with the completion instant. -/
theorem CalculateResults_in_progress
    (rangeOrder : List (String × SectionScore) → List (String × SectionScore))
    (columns : ScoreColumns) (read : RowsOutcome) (sections : List Section) (now : Int)
    (db : Database) (assessmentID : Int) (a : Assessment)
    (hfind : AssessmentService.GetAssessmentByID db assessmentID = .ok a)
    (hst : a.Status = StatusInProgress)
    (hread : AssessmentService.GetAssessmentResponses read db assessmentID
      = .ok (responseRows db assessmentID))
    (hacc : ∀ e ∈ CalculateSectionScores (ApplyResponses (LoadQuestions sections)
        (responseRows db assessmentID)) assessmentID, accepts columns e)
    (hnames : ((CalculateSectionScores (ApplyResponses (LoadQuestions sections)
        (responseRows db assessmentID)) assessmentID).map
          (fun e => columns.nameKey e.SectionName)).Nodup) :
    ∃ results db1,
      SurveyService.CalculateResults rangeOrder columns read (.ok sections) now db
        assessmentID = (db1, .ok results) ∧
      results.SectionScores = CalculateSectionScores (ApplyResponses (LoadQuestions sections)
        (responseRows db assessmentID)) assessmentID ∧
      (∀ e ∈ results.SectionScores,
        ∃ row ∈ sectionScoreRows db1 assessmentID,
          columns.nameKey row.SectionName = columns.nameKey e.SectionName ∧
          columns.toDecimal e.Score = some row.Score ∧
          columns.toDecimal e.MaxScore = some row.MaxScore ∧
          columns.toDecimal e.Percentage = some row.Percentage) ∧
      AssessmentService.GetAssessmentByID db1 assessmentID
        = .ok { a with Status := StatusCompleted, CompletedAt := some now } := by
  obtain ⟨hf, hmem, hid⟩ := GetAssessmentByID_ok db assessmentID a hfind
  have hfk : db.assessments.any (fun x => decide (x.ID = assessmentID)) = true :=
    List.any_eq_true.2 ⟨a, hmem, by simp [hid]⟩
  obtain ⟨hok, hrows⟩ := saveSectionScores_persists columns assessmentID
    (CalculateSectionScores (ApplyResponses (LoadQuestions sections)
      (responseRows db assessmentID)) assessmentID) db
    (CalculateSectionScores_AssessmentID _ _) hnames hacc hfk
  have hassess := saveSectionScores_assessments columns
    (CalculateSectionScores (ApplyResponses (LoadQuestions sections)
      (responseRows db assessmentID)) assessmentID) db
  obtain ⟨db2, hcomplete, hscores, hget⟩ := CompleteAssessment_in_progress
    (saveSectionScores columns
      (CalculateSectionScores (ApplyResponses (LoadQuestions sections)
        (responseRows db assessmentID)) assessmentID) db).1
    now assessmentID a (by rw [hassess]; exact hf) hst
  refine ⟨
    { AssessmentID := assessmentID,
      Team := none,
      SectionScores := CalculateSectionScores (ApplyResponses (LoadQuestions sections)
        (responseRows db assessmentID)) assessmentID,
      SubCategoryScores := collectSubCategoryScores rangeOrder
        (ApplyResponses (LoadQuestions sections)
          (responseRows db assessmentID)) assessmentID,
      Survey := ApplyResponses (LoadQuestions sections)
        (responseRows db assessmentID) },
    db2, ?_, rfl, ?_, hget⟩
  · rw [CalculateResults_of_read rangeOrder columns read sections now db assessmentID _ hread]
    generalize hsv : saveSectionScores columns
      (CalculateSectionScores (ApplyResponses (LoadQuestions sections)
        (responseRows db assessmentID)) assessmentID) db = sv
      at hok hcomplete
    obtain ⟨dbs, res⟩ := sv
    simp only at hok hcomplete
    subst hok
    simp only [hcomplete]
  · intro e he
    obtain ⟨row, hrow, h1, h2, h3, h4, h5⟩ := hrows e he
    refine ⟨row, ?_, h2, h3, h4, h5⟩
    rw [mem_sectionScoreRows, hscores]
    exact ⟨hrow, h1⟩

theorem singleCatalog_scores :
    CalculateSectionScores (ApplyResponses (LoadQuestions singleCatalog)
      (responseRows answeredDB 1)) 1 = [fullScore] := by
  have h1 : ApplyResponses (LoadQuestions singleCatalog)
      (responseRows answeredDB 1) = appliedSingle := by decide
  rw [h1]
  simp [CalculateSectionScores, appliedSingle, CalculateQuestionScore,
    CalculateQuestionMaxScore, fullScore]
  norm_num

theorem duplicateNames_scores :
    CalculateSectionScores (ApplyResponses (LoadQuestions duplicateNames)
      (responseRows answeredDB 1)) 1 = [fullScore, zeroScore] := by
  have h1 : ApplyResponses (LoadQuestions duplicateNames)
      (responseRows answeredDB 1) = appliedDuplicate := by decide
  rw [h1]
  simp [CalculateSectionScores, appliedDuplicate, CalculateQuestionScore,
    CalculateQuestionMaxScore, fullScore, zeroScore]
  norm_num

theorem duplicateNames_persisted :
    sectionScoreRows
      (SurveyService.CalculateResults id sampleColumns .complete (.ok duplicateNames) 300
        answeredDB 1).1 1
      = [{ ID := 1, AssessmentID := 1, SectionName := "Culture", Score := 0, MaxScore := 1,
           Percentage := 0 }] := by
  rw [CalculateResults_of_read id sampleColumns .complete duplicateNames 300 answeredDB 1 _
    (GetAssessmentResponses_complete answeredDB 1)]
  simp only [duplicateNames_scores]
  decide

/-- C15 (as stated) fails: with the catalog `duplicateNames`, whose two sections share the name
Culture, `CalculateResults` returns the two entries 1/1 and 0/1 but only the second is
persisted, the first being overwritten under the same key. -/
theorem CalculateResults_not_all_persisted :
    ¬ (∀ (rangeOrder : List (String × SectionScore) → List (String × SectionScore))
        (columns : ScoreColumns) (sections : List Section) (now : Int) (db : Database)
        (assessmentID : Int) (a : Assessment),
        AssessmentService.GetAssessmentByID db assessmentID = .ok a →
        a.Status = StatusInProgress →
        ∃ results db1,
          SurveyService.CalculateResults rangeOrder columns .complete (.ok sections) now db
            assessmentID = (db1, .ok results) ∧
          results.SectionScores = CalculateSectionScores (ApplyResponses
            (LoadQuestions sections) (responseRows db assessmentID)) assessmentID ∧
          ∀ e ∈ results.SectionScores,
            ∃ row ∈ sectionScoreRows db1 assessmentID,
              row.SectionName = e.SectionName ∧ columns.toDecimal e.Score = some row.Score ∧
              columns.toDecimal e.MaxScore = some row.MaxScore ∧
              columns.toDecimal e.Percentage = some row.Percentage) := by
  intro h
  obtain ⟨results, db1, hCR, hL, hrows⟩ :=
    h id sampleColumns duplicateNames 300 answeredDB 1 sampleAssessment (by decide)
      (by decide)
  have hdb : db1 = (SurveyService.CalculateResults id sampleColumns .complete
      (.ok duplicateNames) 300 answeredDB 1).1 := by rw [hCR]
  rw [duplicateNames_scores] at hL
  obtain ⟨row, hrow, _, hscore, _⟩ := hrows fullScore (by rw [hL]; simp)
  rw [hdb, duplicateNames_persisted, List.mem_singleton] at hrow
  rw [hrow] at hscore
  simp [fullScore, sampleColumns] at hscore

/-- Witness for C15 (amended), the example of the claim: with one section whose only question
`S1-Q1` is an Option question with answers scored 1 and 0, and the stored responses
`{S1-Q1: [S1-Q1-A1]}`, completing the in-progress assessment 1 returns and persists the single
section score 1 of 1, 100 percent. -/
theorem CalculateResults_in_progress_witness :
    (∃ results db1,
      SurveyService.CalculateResults id sampleColumns .complete (.ok singleCatalog) 300
        answeredDB 1 = (db1, .ok results) ∧
      results.SectionScores = CalculateSectionScores (ApplyResponses
        (LoadQuestions singleCatalog) (responseRows answeredDB 1)) 1 ∧
      (∀ e ∈ results.SectionScores,
        ∃ row ∈ sectionScoreRows db1 1,
          sampleColumns.nameKey row.SectionName = sampleColumns.nameKey e.SectionName ∧
          sampleColumns.toDecimal e.Score = some row.Score ∧
          sampleColumns.toDecimal e.MaxScore = some row.MaxScore ∧
          sampleColumns.toDecimal e.Percentage = some row.Percentage) ∧
      AssessmentService.GetAssessmentByID db1 1
        = .ok { sampleAssessment with Status := StatusCompleted, CompletedAt := some 300 }) ∧
    CalculateSectionScores (ApplyResponses (LoadQuestions singleCatalog)
      (responseRows answeredDB 1)) 1
      = [{ ID := 0, AssessmentID := 1, SectionName := "Culture", Score := 1, MaxScore := 1,
           Percentage := 100 }] :=
  ⟨CalculateResults_in_progress id sampleColumns .complete singleCatalog 300 answeredDB 1
      sampleAssessment (by decide) (by decide) rfl
      (by rw [singleCatalog_scores]; decide) (by rw [singleCatalog_scores]; decide),
    singleCatalog_scores⟩

/-! ## C17: a failing completion and the persisted section scores -/

/-- C17: evaluation at the failing input.  On `staleDB`, whose assessment 1 is completed with
the persisted section score 0 of 1, `CalculateResults` fails ("assessment not found or already
completed") and leaves the persisted section score rewritten to 1 of 1, 100 percent. -/
theorem failed_completion_rewrites_scores :
    (SurveyService.CalculateResults id sampleColumns .complete (.ok singleCatalog) 300
        staleDB 1).2
      = .error (Error.Wrap "failed to complete assessment"
          (Error.New "assessment not found or already completed")) ∧
    sectionScoreRows staleDB 1
      = [{ ID := 1, AssessmentID := 1, SectionName := "Culture", Score := 0, MaxScore := 1,
           Percentage := 0 }] ∧
    sectionScoreRows
      (SurveyService.CalculateResults id sampleColumns .complete (.ok singleCatalog) 300
        staleDB 1).1 1
      = [{ ID := 1, AssessmentID := 1, SectionName := "Culture", Score := 1, MaxScore := 1,
           Percentage := 100 }] := by
  have hL : CalculateSectionScores (ApplyResponses (LoadQuestions singleCatalog)
      (responseRows staleDB 1)) 1 = [fullScore] := by
    have h1 : ApplyResponses (LoadQuestions singleCatalog)
        (responseRows staleDB 1) = appliedSingle := by decide
    rw [h1]
    simp [CalculateSectionScores, appliedSingle, CalculateQuestionScore,
      CalculateQuestionMaxScore, fullScore]
    norm_num
  rw [CalculateResults_of_read id sampleColumns .complete singleCatalog 300 staleDB 1 _
    (GetAssessmentResponses_complete staleDB 1)]
  simp only [hL]
  decide

/-! ## C16: a completed assessment stays completed -/

theorem foldl_max_bounds (l : List Int) (init : Int) :
    init ≤ l.foldl max init ∧ ∀ x ∈ l, x ≤ l.foldl max init := by
  induction l generalizing init with
  | nil => simp
  | cons y ys ih =>
    simp only [List.foldl_cons]
    obtain ⟨h1, h2⟩ := ih (max init y)
    refine ⟨le_trans (le_max_left _ _) h1, ?_⟩
    intro x hx
    rcases List.mem_cons.1 hx with rfl | hx
    · exact le_trans (le_max_right _ _) h1
    · exact h2 x hx

theorem lt_nextID (ids : List Int) : ∀ x ∈ ids, x < nextID ids := by
  intro x hx
  unfold nextID
  have := (foldl_max_bounds ids 0).2 x hx
  omega

theorem CompleteAssessment_ok (db db2 : Database) (now : Int) (assessmentID : Int)
    (h : AssessmentService.CompleteAssessment db now assessmentID = .ok db2) :
    (∃ a ∈ db.assessments, a.ID = assessmentID ∧ a.Status = StatusInProgress) ∧
    db2.assessments = db.assessments.map (fun a =>
      if a.ID = assessmentID ∧ a.Status = StatusInProgress then
        { a with Status := StatusCompleted, CompletedAt := some now }
      else a) := by
  unfold AssessmentService.CompleteAssessment at h
  simp only at h
  split at h
  · cases h
  · rename_i hlen
    simp only [Except.ok.injEq] at h
    subst h
    refine ⟨?_, rfl⟩
    have hne : db.assessments.filter (fun a =>
        decide (a.ID = assessmentID ∧ a.Status = StatusInProgress)) ≠ [] := by
      intro h0
      exact hlen (by rw [h0]; rfl)
    obtain ⟨a, ha⟩ := List.exists_mem_of_ne_nil _ hne
    have hf := List.mem_filter.1 ha
    exact ⟨a, hf.1, by simpa using hf.2⟩

theorem CalculateResults_assessments
    (rangeOrder : List (String × SectionScore) → List (String × SectionScore))
    (columns : ScoreColumns) (read : RowsOutcome) (source : Except Error (List Section))
    (now : Int) (db : Database) (assessmentID : Int) :
    ((∃ err, (SurveyService.CalculateResults rangeOrder columns read source now db
          assessmentID).2 = .error err) ∧
      (SurveyService.CalculateResults rangeOrder columns read source now db
          assessmentID).1.assessments = db.assessments) ∨
    ((∃ results, (SurveyService.CalculateResults rangeOrder columns read source now db
          assessmentID).2 = .ok results) ∧
      (∃ a ∈ db.assessments, a.ID = assessmentID ∧ a.Status = StatusInProgress) ∧
      (SurveyService.CalculateResults rangeOrder columns read source now db
          assessmentID).1.assessments = db.assessments.map (fun a =>
        if a.ID = assessmentID ∧ a.Status = StatusInProgress then
          { a with Status := StatusCompleted, CompletedAt := some now }
        else a)) := by
  cases source with
  | error e => exact Or.inl ⟨⟨_, rfl⟩, rfl⟩
  | ok sections =>
    cases hread : AssessmentService.GetAssessmentResponses read db assessmentID with
    | error e =>
      have hCR : SurveyService.CalculateResults rangeOrder columns read (.ok sections) now
          db assessmentID = (db, .error (Error.Wrap "failed to load responses" e)) := by
        unfold SurveyService.CalculateResults
        simp only [hread]
      rw [hCR]
      exact Or.inl ⟨⟨_, rfl⟩, rfl⟩
    | ok responses =>
      rw [CalculateResults_of_read rangeOrder columns read sections now db assessmentID
        responses hread]
      have hassess := saveSectionScores_assessments columns
        (CalculateSectionScores (ApplyResponses (LoadQuestions sections) responses)
          assessmentID) db
      generalize saveSectionScores columns
        (CalculateSectionScores (ApplyResponses (LoadQuestions sections) responses)
          assessmentID) db = sv at hassess
      obtain ⟨dbs, res⟩ := sv
      simp only at hassess
      cases res with
      | error e => exact Or.inl ⟨⟨_, rfl⟩, hassess⟩
      | ok u =>
        simp only
        cases hc : AssessmentService.CompleteAssessment dbs now assessmentID with
        | error e => exact Or.inl ⟨⟨_, rfl⟩, hassess⟩
        | ok db2 =>
          obtain ⟨hex, hmap⟩ := CompleteAssessment_ok dbs db2 now assessmentID hc
          rw [hassess] at hex hmap
          exact Or.inr ⟨⟨_, rfl⟩, hex, hmap⟩

theorem filter_map_completed (l : List Assessment) (assessmentID other : Int) (now : Int)
    (h : ∀ a ∈ l, a.ID = assessmentID → a.Status = StatusCompleted) :
    (l.map (fun a =>
        if a.ID = other ∧ a.Status = StatusInProgress then
          { a with Status := StatusCompleted, CompletedAt := some now }
        else a)).filter (fun a => decide (a.ID = assessmentID))
      = l.filter (fun a => decide (a.ID = assessmentID)) := by
  induction l with
  | nil => rfl
  | cons a l ih =>
    have ih1 := ih (fun b hb => h b (List.mem_cons_of_mem _ hb))
    rw [List.map_cons]
    by_cases hc : a.ID = other ∧ a.Status = StatusInProgress
    · rw [if_pos hc]
      by_cases hid : a.ID = assessmentID
      · have hcomp := h a (List.mem_cons_self _ _) hid
        rw [hcomp] at hc
        exact absurd hc.2 (by decide)
      · rw [List.filter_cons_of_neg (by simpa using hid),
          List.filter_cons_of_neg (by simpa using hid)]
        exact ih1
    · rw [if_neg hc]
      by_cases hid : a.ID = assessmentID
      · rw [List.filter_cons_of_pos (by simpa using hid),
          List.filter_cons_of_pos (by simpa using hid), ih1]
      · rw [List.filter_cons_of_neg (by simpa using hid),
          List.filter_cons_of_neg (by simpa using hid)]
        exact ih1

theorem SaveResponse_assessments (db db1 : Database) (r : Response)
    (h : AssessmentService.SaveResponse db r = .ok db1) :
    db1.assessments = db.assessments := by
  unfold AssessmentService.SaveResponse at h
  split at h
  · split at h
    · simp only [Except.ok.injEq] at h
      subst h
      rfl
    · simp only [Except.ok.injEq] at h
      subst h
      rfl
  · cases h

theorem saveQuestionResponses_assessments (assessmentID : Int)
    (formData : List (String × List String)) (qs : List Question) (db : Database) :
    (saveQuestionResponses AssessmentService.SaveResponse assessmentID formData qs
      db).1.assessments = db.assessments := by
  induction qs generalizing db with
  | nil => rfl
  | cons q qs ih =>
    unfold saveQuestionResponses
    split
    · exact ih db
    · simp only
      split
      · cases hsave : AssessmentService.SaveResponse db
            { ID := 0, AssessmentID := assessmentID, QuestionID := q.ID,
              AnswerIDs := collectAnswerIDs formData q } with
        | error e => rfl
        | ok db1 =>
          simp only
          rw [ih db1, SaveResponse_assessments db db1 _ hsave]
      · exact ih db

theorem SaveResponses_assessments (toLower : Char → Char)
    (source : Except Error (List Section)) (db : Database) (assessmentID : Int)
    (sectionName : String) (formData : List (String × List String)) :
    (SurveyService.SaveResponses AssessmentService.SaveResponse toLower source db assessmentID
      sectionName formData).1.assessments = db.assessments := by
  unfold SurveyService.SaveResponses
  cases source with
  | error e => rfl
  | ok sections =>
    simp only
    cases GetSectionByURLName toLower (LoadQuestions sections) sectionName with
    | error e => rfl
    | ok sec => exact saveQuestionResponses_assessments assessmentID formData sec.Questions db

theorem StartAssessment_rows (source : Except Error (List Section)) (now : Int)
    (generated : String) (db : Database) (teamID userID : Int) (assessmentID : Int)
    (hex : ∃ a ∈ db.assessments, a.ID = assessmentID) :
    assessmentRows (SurveyService.StartAssessment source now generated db teamID userID).1
      assessmentID = assessmentRows db assessmentID := by
  have hcreate : ∀ input : Assessment,
      assessmentRows (AssessmentService.CreateAssessment db now generated input).1
        assessmentID = assessmentRows db assessmentID := by
    intro input
    unfold AssessmentService.CreateAssessment
    simp only
    generalize (if input.Status = "" then StatusInProgress else input.Status) = status
    generalize (if input.SessionID = "" then generated else input.SessionID) = sessionID
    split
    · rfl
    · split
      · obtain ⟨a, ha, hid⟩ := hex
        have hlt : assessmentID < nextID (db.assessments.map (fun a => a.ID)) := by
          apply lt_nextID
          exact List.mem_map.2 ⟨a, ha, hid⟩
        have hne : ¬ nextID (db.assessments.map (fun a => a.ID)) = assessmentID := by omega
        simp [assessmentRows, List.filter_append, hne]
      · rfl
  unfold SurveyService.StartAssessment
  generalize hin : ({ ID := 0, TeamID := teamID, CreatedBy := userID, SessionID := "",
                      Status := StatusInProgress, CreatedAt := 0,
                      CompletedAt := none } : Assessment) = input
  have h0 := hcreate input
  generalize AssessmentService.CreateAssessment db now generated input = cr at h0
  obtain ⟨db1, res⟩ := cr
  cases res with
  | error e => exact h0
  | ok a =>
    simp only
    cases source with
    | error e => exact h0
    | ok sections => exact h0

theorem runCall_rows (rangeOrder : List (String × SectionScore) → List (String × SectionScore))
    (columns : ScoreColumns) (toLower : Char → Char) (source : Except Error (List Section))
    (db : Database) (assessmentID : Int) (call : LifecycleCall)
    (hex : ∃ a ∈ db.assessments, a.ID = assessmentID)
    (hall : ∀ a ∈ db.assessments, a.ID = assessmentID → a.Status = StatusCompleted) :
    assessmentRows (runCall rangeOrder columns toLower source db call) assessmentID
      = assessmentRows db assessmentID := by
  cases call with
  | Start teamID userID generated now =>
    exact StartAssessment_rows source now generated db teamID userID assessmentID hex
  | Save other sectionName formData =>
    simp only [runCall, assessmentRows, SaveResponses_assessments]
  | Complete other now read =>
    simp only [runCall, assessmentRows]
    rcases CalculateResults_assessments rangeOrder columns read source now db other with
      ⟨_, h⟩ | ⟨_, _, h⟩
    · rw [h]
    · rw [h]
      exact filter_map_completed db.assessments assessmentID other now hall

theorem runCalls_rows (rangeOrder : List (String × SectionScore) → List (String × SectionScore))
    (columns : ScoreColumns) (toLower : Char → Char) (source : Except Error (List Section))
    (calls : List LifecycleCall) (db : Database) (assessmentID : Int)
    (hex : ∃ a ∈ db.assessments, a.ID = assessmentID)
    (hall : ∀ a ∈ db.assessments, a.ID = assessmentID → a.Status = StatusCompleted) :
    assessmentRows (runCalls rangeOrder columns toLower source calls db) assessmentID
      = assessmentRows db assessmentID := by
  induction calls generalizing db with
  | nil => rfl
  | cons call calls ih =>
    have hstep := runCall_rows rangeOrder columns toLower source db assessmentID call hex hall
    have hmem : ∀ a, a ∈ (runCall rangeOrder columns toLower source db call).assessments ∧
        a.ID = assessmentID ↔ a ∈ db.assessments ∧ a.ID = assessmentID := by
      intro a
      have h1 : a ∈ assessmentRows (runCall rangeOrder columns toLower source db call)
          assessmentID ↔ a ∈ assessmentRows db assessmentID := by rw [hstep]
      simpa [assessmentRows, List.mem_filter] using h1
    simp only [runCalls, List.foldl_cons]
    have ih1 := ih (runCall rangeOrder columns toLower source db call)
      (by
        obtain ⟨a, ha, hid⟩ := hex
        exact ⟨a, ((hmem a).2 ⟨ha, hid⟩).1, hid⟩)
      (by
        intro a ha hid
        exact hall a ((hmem a).1 ⟨ha, hid⟩).1 hid)
    simp only [runCalls] at ih1
    rw [ih1, hstep]

/-- C16: `CalculateResults` (Complete) succeeds only if the assessment exists with status
in_progress; on an assessment whose rows all have status completed it fails and leaves the
`assessments` table (status and completed_at) unchanged; and no sequence of Start, Save and
Complete calls changes the rows of a completed assessment, so it never returns to
in_progress. -/
theorem completed_stays_completed
    (rangeOrder : List (String × SectionScore) → List (String × SectionScore))
    (columns : ScoreColumns) (toLower : Char → Char) (source : Except Error (List Section))
    (db : Database) (assessmentID : Int) :
    (∀ now read results db1,
      SurveyService.CalculateResults rangeOrder columns read source now db assessmentID
        = (db1, .ok results) →
      ∃ a ∈ db.assessments, a.ID = assessmentID ∧ a.Status = StatusInProgress) ∧
    ((∃ a ∈ db.assessments, a.ID = assessmentID) →
      (∀ a ∈ db.assessments, a.ID = assessmentID → a.Status = StatusCompleted) →
      (∀ now read,
        (∃ err, (SurveyService.CalculateResults rangeOrder columns read source now db
            assessmentID).2 = .error err) ∧
        (SurveyService.CalculateResults rangeOrder columns read source now db
            assessmentID).1.assessments = db.assessments) ∧
      (∀ calls,
        assessmentRows (runCalls rangeOrder columns toLower source calls db) assessmentID
          = assessmentRows db assessmentID)) := by
  constructor
  · intro now read results db1 hCR
    rcases CalculateResults_assessments rangeOrder columns read source now db assessmentID with
      ⟨⟨err, herr⟩, _⟩ | ⟨_, hex, _⟩
    · rw [hCR] at herr
      cases herr
    · exact hex
  · intro hex hall
    constructor
    · intro now read
      rcases CalculateResults_assessments rangeOrder columns read source now db assessmentID with
        h | ⟨_, ⟨a, ha, hid, hst⟩, _⟩
      · exact h
      · have hcomp := hall a ha hid
        rw [hcomp] at hst
        exact absurd hst (by decide)
    · intro calls
      exact runCalls_rows rangeOrder columns toLower source calls db assessmentID hex hall

/-- Witness for C16: on `completedDB`, whose assessment 1 is completed, every Complete fails
without changing the assessments, and every sequence of calls leaves the rows of assessment 1
as they are. -/
theorem completed_stays_completed_witness :
    (∀ now read,
      (∃ err, (SurveyService.CalculateResults id sampleColumns read (.ok singleCatalog) now
          completedDB 1).2 = .error err) ∧
      (SurveyService.CalculateResults id sampleColumns read (.ok singleCatalog) now
          completedDB 1).1.assessments = completedDB.assessments) ∧
    (∀ calls,
      assessmentRows
          (runCalls id sampleColumns Char.toLower (.ok singleCatalog) calls completedDB) 1
        = assessmentRows completedDB 1) :=
  (completed_stays_completed id sampleColumns Char.toLower (.ok singleCatalog)
      completedDB 1).2
    ⟨completedAssessment, by decide, by decide⟩ (by decide)

/-! ## C18, C19: permission checks -/

theorem length_pos_iff_exists {α : Type} (l : List α) : l.length > 0 ↔ ∃ x, x ∈ l := by
  cases l with
  | nil => simp
  | cons a l => simp

/-- C18: `CheckTeamPermission` is true iff the role of a direct membership of the user in that
team grants `(resource, action)`, or the team belongs to a group on which the user holds a role
that grants it; so it is false for a user who is neither a direct member of the team nor a
member of the team's group, whatever else the store holds. -/
theorem CheckTeamPermission_spec (db : Database) (userID teamID : Int)
    (resource action : String) :
    (RBACService.CheckTeamPermission db userID teamID resource action = true ↔
      (∃ ut ∈ db.user_teams, ut.UserID = userID ∧ ut.TeamID = teamID ∧
        roleGrants db ut.RoleID resource action) ∨
      (∃ t ∈ db.teams, t.ID = teamID ∧
        ∃ ug ∈ db.user_groups, t.GroupID = some ug.GroupID ∧ ug.UserID = userID ∧
          roleGrants db ug.RoleID resource action)) ∧
    ((∀ ut ∈ db.user_teams, ¬ (ut.UserID = userID ∧ ut.TeamID = teamID)) →
      (∀ t ∈ db.teams, t.ID = teamID →
        ∀ ug ∈ db.user_groups, ug.UserID = userID → t.GroupID ≠ some ug.GroupID) →
      RBACService.CheckTeamPermission db userID teamID resource action = false) := by
  have hiff : RBACService.CheckTeamPermission db userID teamID resource action = true ↔
      (∃ ut ∈ db.user_teams, ut.UserID = userID ∧ ut.TeamID = teamID ∧
        roleGrants db ut.RoleID resource action) ∨
      (∃ t ∈ db.teams, t.ID = teamID ∧
        ∃ ug ∈ db.user_groups, t.GroupID = some ug.GroupID ∧ ug.UserID = userID ∧
          roleGrants db ug.RoleID resource action) := by
    unfold RBACService.CheckTeamPermission roleGrants
    simp only [Bool.if_true_left, Bool.or_eq_true, decide_eq_true_eq, length_pos_iff_exists,
      List.mem_flatMap, List.mem_filter]
    constructor
    · rintro (⟨p, ut, hut, rp, hrp, hp, h⟩ | ⟨p, t, ht, ug, hug, rp, hrp, hp, h⟩)
      · exact Or.inl ⟨ut, hut, h.2.2.1, h.2.2.2.1, rp, hrp, h.1.symm, p, hp, h.2.1.symm,
          h.2.2.2.2.1, h.2.2.2.2.2⟩
      · exact Or.inr ⟨t, ht, h.2.2.2.1, ug, hug, h.1, h.2.2.2.2.1, rp, hrp, h.2.1.symm, p, hp,
          h.2.2.1.symm, h.2.2.2.2.2.1, h.2.2.2.2.2.2⟩
    · rintro (⟨ut, hut, h1, h2, rp, hrp, h3, p, hp, h4, h5, h6⟩ |
        ⟨t, ht, h1, ug, hug, h2, h3, rp, hrp, h4, p, hp, h5, h6, h7⟩)
      · exact Or.inl ⟨p, ut, hut, rp, hrp, hp, h3.symm, h4.symm, h1, h2, h5, h6⟩
      · exact Or.inr ⟨p, t, ht, ug, hug, rp, hrp, hp, h2, h4.symm, h5.symm, h1, h3, h6, h7⟩
  refine ⟨hiff, ?_⟩
  intro hno1 hno2
  cases hc : RBACService.CheckTeamPermission db userID teamID resource action with
  | false => rfl
  | true =>
    rcases hiff.1 hc with ⟨ut, hut, h1, h2, _⟩ | ⟨t, ht, h1, ug, hug, h2, h3, _⟩
    · exact absurd ⟨h1, h2⟩ (hno1 ut hut)
    · exact absurd h2 (hno2 t ht h1 ug hug h3)

/-- Witness for C18: in `membershipDB`, user 1 has no membership in team 2 nor in its group 5,
so the permission check for team 2 is false. -/
theorem CheckTeamPermission_spec_witness :
    RBACService.CheckTeamPermission membershipDB 1 2 "assessment" "read" = false :=
  (CheckTeamPermission_spec membershipDB 1 2 "assessment" "read").2 (by decide) (by decide)

/-- C19: `CheckUserPermission` is true iff `(resource, action)` is granted by the role of some
team membership or of some group membership of the user; so it is false for a user with no
team and no group membership. -/
theorem CheckUserPermission_spec (db : Database) (userID : Int) (resource action : String) :
    (RBACService.CheckUserPermission db userID resource action = true ↔
      (∃ ut ∈ db.user_teams, ut.UserID = userID ∧ roleGrants db ut.RoleID resource action) ∨
      (∃ ug ∈ db.user_groups, ug.UserID = userID ∧
        roleGrants db ug.RoleID resource action)) ∧
    ((∀ ut ∈ db.user_teams, ut.UserID ≠ userID) →
      (∀ ug ∈ db.user_groups, ug.UserID ≠ userID) →
      RBACService.CheckUserPermission db userID resource action = false) := by
  have hiff : RBACService.CheckUserPermission db userID resource action = true ↔
      (∃ ut ∈ db.user_teams, ut.UserID = userID ∧ roleGrants db ut.RoleID resource action) ∨
      (∃ ug ∈ db.user_groups, ug.UserID = userID ∧
        roleGrants db ug.RoleID resource action) := by
    unfold RBACService.CheckUserPermission roleGrants
    simp only [decide_eq_true_eq, length_pos_iff_exists, List.mem_dedup, List.mem_append,
      List.mem_flatMap, List.mem_map, List.mem_filter]
    constructor
    · rintro ⟨x, ⟨ut, hut, rp, hrp, p, ⟨hp, h⟩, _⟩ | ⟨ug, hug, rp, hrp, p, ⟨hp, h⟩, _⟩⟩
      · exact Or.inl ⟨ut, hut, h.2.2.1, rp, hrp, h.1.symm, p, hp, h.2.1.symm, h.2.2.2.1,
          h.2.2.2.2⟩
      · exact Or.inr ⟨ug, hug, h.2.2.1, rp, hrp, h.1.symm, p, hp, h.2.1.symm, h.2.2.2.1,
          h.2.2.2.2⟩
    · rintro (⟨ut, hut, h1, rp, hrp, h3, p, hp, h4, h5, h6⟩ |
        ⟨ug, hug, h1, rp, hrp, h3, p, hp, h4, h5, h6⟩)
      · exact ⟨p.ID, Or.inl ⟨ut, hut, rp, hrp, p, ⟨hp, h3.symm, h4.symm, h1, h5, h6⟩, rfl⟩⟩
      · exact ⟨p.ID, Or.inr ⟨ug, hug, rp, hrp, p, ⟨hp, h3.symm, h4.symm, h1, h5, h6⟩, rfl⟩⟩
  refine ⟨hiff, ?_⟩
  intro hno1 hno2
  cases hc : RBACService.CheckUserPermission db userID resource action with
  | false => rfl
  | true =>
    rcases hiff.1 hc with ⟨ut, hut, h1, _⟩ | ⟨ug, hug, h1, _⟩
    · exact absurd h1 (hno1 ut hut)
    · exact absurd h1 (hno2 ug hug)

/-- Witness for C19: user 3 of `membershipDB` has no team and no group membership, so the
permission check is false. -/
theorem CheckUserPermission_spec_witness :
    RBACService.CheckUserPermission membershipDB 3 "assessment" "read" = false :=
  (CheckUserPermission_spec membershipDB 3 "assessment" "read").2 (by decide) (by decide)

/-! ## C20: session validation -/

/-- C20: `ValidateSession` fails with `ErrSessionNotFound` iff no session has the token; for
the session found it fails with `ErrSessionExpired` exactly when `now > ExpiresAt`, and then no
session with the token is left, so that every later `ValidateSession` with the same token
fails with `ErrSessionNotFound`. -/
theorem ValidateSession_spec (db : Database) (now dbNow : Int) (token : String) :
    ((AuthService.ValidateSession db now dbNow token).2 = .error Error.ErrSessionNotFound ↔
      ∀ s ∈ db.user_sessions, s.SessionToken ≠ token) ∧
    (∀ session,
      db.user_sessions.find? (fun s => decide (s.SessionToken = token)) = some session →
      ((AuthService.ValidateSession db now dbNow token).2 = .error Error.ErrSessionExpired ↔
        now > session.ExpiresAt) ∧
      (now > session.ExpiresAt →
        (∀ s ∈ (AuthService.ValidateSession db now dbNow token).1.user_sessions,
          s.SessionToken ≠ token) ∧
        ∀ now2 dbNow2,
          (AuthService.ValidateSession (AuthService.ValidateSession db now dbNow token).1
            now2 dbNow2 token).2 = .error Error.ErrSessionNotFound)) := by
  have hnone : ∀ db0 : Database, (∀ s ∈ db0.user_sessions, s.SessionToken ≠ token) →
      ∀ n d, (AuthService.ValidateSession db0 n d token).2
        = .error Error.ErrSessionNotFound := by
    intro db0 h n d
    have hf : db0.user_sessions.find? (fun s => decide (s.SessionToken = token)) = none := by
      rw [List.find?_eq_none]
      intro s hs
      simpa using h s hs
    unfold AuthService.ValidateSession
    rw [hf]
  constructor
  · constructor
    · intro h
      cases hf : db.user_sessions.find? (fun s => decide (s.SessionToken = token)) with
      | none =>
        rw [List.find?_eq_none] at hf
        intro s hs
        simpa using hf s hs
      | some session =>
        unfold AuthService.ValidateSession at h
        rw [hf] at h
        simp only at h
        split at h
        · cases h
        · cases hu : UserService.GetUserByID db session.UserID with
          | error e => simp [hu] at h
          | ok u => simp [hu] at h
    · intro h
      exact hnone db h now dbNow
  · intro session hf
    constructor
    · unfold AuthService.ValidateSession
      rw [hf]
      simp only
      constructor
      · intro h
        split at h
        · assumption
        · cases hu : UserService.GetUserByID db session.UserID with
          | error e => simp [hu] at h
          | ok u => simp [hu] at h
      · intro h
        rw [if_pos h]
    · intro hexp
      have hdb : (AuthService.ValidateSession db now dbNow token).1
          = AuthService.DeleteSession db token := by
        unfold AuthService.ValidateSession
        rw [hf]
        simp only
        rw [if_pos hexp]
      have hgone : ∀ s ∈ (AuthService.DeleteSession db token).user_sessions,
          s.SessionToken ≠ token := by
        intro s hs
        unfold AuthService.DeleteSession at hs
        simpa using (List.mem_filter.1 hs).2
      rw [hdb]
      exact ⟨hgone, fun n d => hnone _ hgone n d⟩

/-- Witness for C20: the session of `sessionDB` expires at 1000; validated at instant 1001 it
is expired, and afterwards no session with the token is left. -/
theorem ValidateSession_spec_witness :
    ((AuthService.ValidateSession sessionDB 1001 1001 "tok-1").2
        = .error Error.ErrSessionExpired ↔ (1001 : Int) > sampleSession.ExpiresAt) ∧
    ((1001 : Int) > sampleSession.ExpiresAt →
      (∀ s ∈ (AuthService.ValidateSession sessionDB 1001 1001 "tok-1").1.user_sessions,
        s.SessionToken ≠ "tok-1") ∧
      ∀ now2 dbNow2,
        (AuthService.ValidateSession (AuthService.ValidateSession sessionDB 1001 1001
          "tok-1").1 now2 dbNow2 "tok-1").2 = .error Error.ErrSessionNotFound) :=
  (ValidateSession_spec sessionDB 1001 1001 "tok-1").2 sampleSession (by decide)

/-! ## C24: detection of subcategories -/

theorem hasSubCategories_iff (questions : List Question) :
    hasSubCategories questions = true ↔ ∃ q ∈ questions, q.SubCategory ≠ "" := by
  induction questions with
  | nil => simp [hasSubCategories]
  | cons q rest ih =>
    by_cases h : q.SubCategory = ""
    · simp [hasSubCategories, h, ih]
    · simp [hasSubCategories, h]

/-- C24: after `detectSubCategories` every section is the parsed section with its
`HasSubCategories` flag replaced by the truth value of "some question of the section has a
non-empty `SubCategory`", whatever the flag was in the source. -/
theorem detectSubCategories_spec (sections : List Section) :
    (detectSubCategories { Sections := sections }).Sections =
      sections.map (fun sec =>
        { sec with HasSubCategories := decide (∃ q ∈ sec.Questions, q.SubCategory ≠ "") }) := by
  simp only [detectSubCategories]
  apply List.map_congr_left
  intro sec _
  have h := hasSubCategories_iff sec.Questions
  by_cases hb : hasSubCategories sec.Questions = true
  · rw [hb, decide_eq_true (h.mp hb)]
  · have hn : ¬ ∃ q ∈ sec.Questions, q.SubCategory ≠ "" := fun he => hb (h.mpr he)
    rw [Bool.eq_false_iff.mpr hb, decide_eq_false hn]

/-! ## C25: the positional identifiers are distinct -/

theorem digitChar_val (m : Nat) (h : m < 10) : (Nat.digitChar m).toNat - 48 = m := by
  interval_cases m <;> rfl

theorem digitChar_ne_dash (m : Nat) (h : m < 10) : Nat.digitChar m ≠ '-' := by
  interval_cases m <;> decide

theorem toDigitsCore_append (fuel : Nat) : ∀ (n : Nat) (ds : List Char),
    Nat.toDigitsCore 10 fuel n ds = Nat.toDigitsCore 10 fuel n [] ++ ds := by
  induction fuel with
  | zero => intro n ds; simp [Nat.toDigitsCore]
  | succ fuel ih =>
    intro n ds
    simp only [Nat.toDigitsCore]
    split
    · simp
    · rw [ih (n / 10) (_ :: ds), ih (n / 10) [_]]
      simp

theorem decodeDigits_append_singleton (l : List Char) (c : Char) :
    decodeDigits (l ++ [c]) = decodeDigits l * 10 + (c.toNat - 48) := by
  simp [decodeDigits, List.foldl_append]

theorem decodeDigits_toDigitsCore (fuel : Nat) : ∀ n, n < fuel →
    decodeDigits (Nat.toDigitsCore 10 fuel n []) = n := by
  induction fuel with
  | zero => intro n h; omega
  | succ fuel ih =>
    intro n h
    simp only [Nat.toDigitsCore]
    split
    · rename_i h0
      have : n < 10 := by omega
      simp only [decodeDigits, Nat.mod_eq_of_lt this, List.foldl_cons, List.foldl_nil,
        Nat.zero_mul, Nat.zero_add]
      exact digitChar_val n this
    · rename_i h0
      rw [toDigitsCore_append, decodeDigits_append_singleton, ih (n / 10) (by omega),
        digitChar_val _ (Nat.mod_lt n (by decide))]
      omega

theorem toDigitsCore_no_dash (fuel : Nat) :
    ∀ n, ∀ c ∈ Nat.toDigitsCore 10 fuel n [], c ≠ '-' := by
  induction fuel with
  | zero => intro n c h; simp [Nat.toDigitsCore] at h
  | succ fuel ih =>
    intro n c h
    simp only [Nat.toDigitsCore] at h
    split at h
    · simp at h
      rw [h]; exact digitChar_ne_dash _ (Nat.mod_lt n (by decide))
    · rw [toDigitsCore_append] at h
      simp at h
      rcases h with h | h
      · exact ih _ c h
      · rw [h]; exact digitChar_ne_dash _ (Nat.mod_lt n (by decide))

theorem repr_data (n : Nat) : (Nat.repr n).data = Nat.toDigits 10 n := rfl

theorem repr_injective (m n : Nat) (h : Nat.repr m = Nat.repr n) : m = n := by
  have h1 : (Nat.repr m).data = (Nat.repr n).data := by rw [h]
  rw [repr_data, repr_data] at h1
  have h2 := congrArg decodeDigits h1
  simp only [Nat.toDigits] at h2
  rwa [decodeDigits_toDigitsCore _ _ (Nat.lt_succ_self m),
    decodeDigits_toDigitsCore _ _ (Nat.lt_succ_self n)] at h2

theorem repr_no_dash (n : Nat) : '-' ∉ (Nat.repr n).data := by
  intro h
  exact toDigitsCore_no_dash _ n _ h rfl

theorem repr_eq_of_data (m n : Nat) (h : (Nat.repr m).data = (Nat.repr n).data) : m = n :=
  repr_injective m n (String.ext h)

theorem append_dash_inj (l1 l2 r1 r2 : List Char) (h1 : '-' ∉ l1) (h2 : '-' ∉ l2)
    (h : l1 ++ '-' :: r1 = l2 ++ '-' :: r2) : l1 = l2 ∧ r1 = r2 := by
  induction l1 generalizing l2 with
  | nil =>
    cases l2 with
    | nil => simpa using h
    | cons c l2 =>
      simp at h h2
      exact absurd h.1 h2.1
  | cons c l1 ih =>
    cases l2 with
    | nil =>
      simp at h h1
      exact absurd h.1.symm h1.1
    | cons d l2 =>
      simp at h h1 h2
      obtain ⟨hc, ht⟩ := h
      obtain ⟨e1, e2⟩ := ih l2 (by simpa using h1.2) (by simpa using h2.2) ht
      exact ⟨by rw [hc, e1], e2⟩

theorem questionIDFormat_data (s q : Nat) :
    (questionIDFormat s q).data =
      'S' :: ((Nat.repr s).data ++ '-' :: 'Q' :: (Nat.repr q).data) := by
  simp [questionIDFormat, String.data_append]

theorem answerIDFormat_data (s q a : Nat) :
    (answerIDFormat s q a).data =
      'S' :: ((Nat.repr s).data ++ '-' :: 'Q' :: ((Nat.repr q).data ++
        '-' :: 'A' :: (Nat.repr a).data)) := by
  simp [answerIDFormat, String.data_append]

theorem questionIDFormat_injective (s q s' q' : Nat)
    (h : questionIDFormat s q = questionIDFormat s' q') : s = s' ∧ q = q' := by
  have hd := congrArg String.data h
  rw [questionIDFormat_data, questionIDFormat_data] at hd
  obtain ⟨e1, e2⟩ := append_dash_inj _ _ _ _ (repr_no_dash s) (repr_no_dash s')
    (List.cons.inj hd).2
  exact ⟨repr_eq_of_data _ _ e1, repr_eq_of_data _ _ (List.cons.inj e2).2⟩

theorem answerIDFormat_injective (s q a s' q' a' : Nat)
    (h : answerIDFormat s q a = answerIDFormat s' q' a') : s = s' ∧ q = q' ∧ a = a' := by
  have hd := congrArg String.data h
  rw [answerIDFormat_data, answerIDFormat_data] at hd
  obtain ⟨e1, e2⟩ := append_dash_inj _ _ _ _ (repr_no_dash s) (repr_no_dash s')
    (List.cons.inj hd).2
  obtain ⟨e3, e4⟩ := append_dash_inj _ _ _ _ (repr_no_dash q) (repr_no_dash q')
    (List.cons.inj e2).2
  exact ⟨repr_eq_of_data _ _ e1, repr_eq_of_data _ _ e3,
    repr_eq_of_data _ _ (List.cons.inj e4).2⟩

theorem assignQuestionID_Type (i j : Nat) (q : Question) :
    (assignQuestionID i j q).Type_ = q.Type_ := by
  unfold assignQuestionID
  split <;> rfl

theorem assignQuestionID_ids (i j : Nat) (q : Question) (hB : q.Type_ ≠ "Banner") :
    (assignQuestionID i j q).ID = questionIDFormat (i + 1) (j + 1) ∧
    ∀ (k : Nat) (a : Answer), (assignQuestionID i j q).Answers[k]? = some a →
      a.ID = answerIDFormat (i + 1) (j + 1) (k + 1) := by
  constructor
  · simp [assignQuestionID, hB]
  · intro k a hk
    simp [assignQuestionID, hB, List.getElem?_mapIdx] at hk
    obtain ⟨b, _, rfl⟩ := hk
    rfl

theorem assignQuestionIDs_at (sections : List Section) (i j : Nat) (sec : Section)
    (q : Question)
    (hs : (assignQuestionIDs { Sections := sections }).Sections[i]? = some sec)
    (hq : sec.Questions[j]? = some q) :
    ∃ sec0 q0, sections[i]? = some sec0 ∧ sec0.Questions[j]? = some q0 ∧
      sec.SectionName = sec0.SectionName ∧ q = assignQuestionID i j q0 := by
  simp only [assignQuestionIDs, List.getElem?_mapIdx] at hs
  cases h0 : sections[i]? with
  | none => simp [h0] at hs
  | some sec0 =>
    simp only [h0, Option.map_some', Option.some.injEq] at hs
    subst hs
    simp only [List.getElem?_mapIdx] at hq
    cases h1 : sec0.Questions[j]? with
    | none => simp [h1] at hq
    | some q0 =>
      simp only [h1, Option.map_some', Option.some.injEq] at hq
      exact ⟨sec0, q0, rfl, h1, rfl, hq.symm⟩

theorem loaded_ids (sections : List Section) (i j : Nat) (sec : Section) (q : Question)
    (hs : (assignQuestionIDs { Sections := sections }).Sections[i]? = some sec)
    (hq : sec.Questions[j]? = some q) (hB : q.Type_ ≠ "Banner") :
    q.ID = questionIDFormat (i + 1) (j + 1) ∧
    ∀ (k : Nat) (a : Answer), q.Answers[k]? = some a →
      a.ID = answerIDFormat (i + 1) (j + 1) (k + 1) := by
  obtain ⟨sec0, q0, _, _, _, rfl⟩ := assignQuestionIDs_at sections i j sec q hs hq
  rw [assignQuestionID_Type] at hB
  exact assignQuestionID_ids i j q0 hB

/-- C25: after `assignQuestionIDs`, two non-Banner questions with the same ID stand at the
same position `(i, j)` of the catalog, and two answers of non-Banner questions with the same
ID stand at the same position `(i, j, k)`: the IDs of non-Banner questions, and of their
answers, are pairwise distinct across the whole catalog. -/
theorem assignQuestionIDs_distinct (sections : List Section) (i j i' j' : Nat)
    (sec sec' : Section) (q q' : Question)
    (hs : (assignQuestionIDs { Sections := sections }).Sections[i]? = some sec)
    (hq : sec.Questions[j]? = some q)
    (hs' : (assignQuestionIDs { Sections := sections }).Sections[i']? = some sec')
    (hq' : sec'.Questions[j']? = some q')
    (hB : q.Type_ ≠ "Banner") (hB' : q'.Type_ ≠ "Banner") :
    (q.ID = q'.ID → i = i' ∧ j = j') ∧
    ∀ (k k' : Nat) (a a' : Answer), q.Answers[k]? = some a → q'.Answers[k']? = some a' →
      a.ID = a'.ID → i = i' ∧ j = j' ∧ k = k' := by
  obtain ⟨h1, h2⟩ := loaded_ids sections i j sec q hs hq hB
  obtain ⟨h1', h2'⟩ := loaded_ids sections i' j' sec' q' hs' hq' hB'
  constructor
  · intro h
    rw [h1, h1'] at h
    have := questionIDFormat_injective _ _ _ _ h
    omega
  · intro k k' a a' ha ha' h
    rw [h2 k a ha, h2' k' a' ha'] at h
    have := answerIDFormat_injective _ _ _ _ _ _ h
    omega

/-- Witness for C25: in the loaded `parsedAnswered` the questions at positions `(0, 1)` and
`(0, 2)` are not Banners, so their IDs differ and so do the IDs of their answers. -/
theorem assignQuestionIDs_distinct_witness :
    ∃ sec q q', (assignQuestionIDs { Sections := parsedAnswered }).Sections[0]? = some sec ∧
      sec.Questions[1]? = some q ∧ sec.Questions[2]? = some q' ∧
      q.Type_ ≠ "Banner" ∧ q'.Type_ ≠ "Banner" ∧
      (q.ID = q'.ID → 0 = 0 ∧ 1 = 2) ∧
      ∀ (k k' : Nat) (a a' : Answer), q.Answers[k]? = some a → q'.Answers[k']? = some a' →
        a.ID = a'.ID → 0 = 0 ∧ 1 = 2 ∧ k = k' :=
  ⟨_, _, _, rfl, rfl, rfl, by decide, by decide,
    assignQuestionIDs_distinct parsedAnswered 0 1 0 2 _ _ _ _ rfl rfl rfl rfl
      (by decide) (by decide)⟩

/-! ## C23: URL names of sections -/

theorem toLower_eq_low (c d : Char) (hd : d.toNat < 65) : Char.toLower c = d ↔ c = d := by
  by_cases h : 65 ≤ c.toNat ∧ c.toNat ≤ 90
  · have hc : c = Char.ofNat c.toNat := (Char.ofNat_toNat c).symm
    obtain ⟨h1, h2⟩ := h
    generalize c.toNat = n at hc h1 h2
    subst hc
    interval_cases n <;> constructor <;> intro he <;> subst he <;> revert hd <;> decide
  · have : Char.toLower c = c := by
      unfold Char.toLower
      exact if_neg h
    rw [this]

theorem slug_chars (toLower : Char → Char) (hcomma : ∀ c, toLower c = ',' ↔ c = ',')
    (hspace : ∀ c, toLower c = ' ' ↔ c = ' ') (hdash : toLower '-' = '-') (l : List Char) :
    ((l.filter (fun c => decide (c ≠ ','))).map (fun c => if c = ' ' then '-' else c)).map
        toLower =
      ((l.map toLower).filter (fun c => decide (c ≠ ','))).map
        (fun c => if c = ' ' then '-' else c) := by
  induction l with
  | nil => rfl
  | cons c l ih =>
    by_cases h1 : c = ','
    · subst h1
      have : toLower ',' = ',' := (hcomma ',').2 rfl
      simpa [this] using ih
    · have h1' : toLower c ≠ ',' := fun h => h1 ((hcomma c).1 h)
      by_cases h2 : c = ' '
      · subst h2
        have : toLower ' ' = ' ' := (hspace ' ').2 rfl
        simpa [this, hdash] using ih
      · have h2' : toLower c ≠ ' ' := fun h => h2 ((hspace c).1 h)
        simpa [h1, h2, h1', h2'] using ih

/-- C23: when lower-casing fixes the comma, the space and the hyphen and produces no new
comma or space (as `unicode.ToLower` does), `SectionNameToURLName` is the lower-cased name
with every comma removed and every space replaced by a hyphen; `GetSectionByURLName`
succeeds iff some section has the URL name asked for, it then returns the first such section
in catalog order, and otherwise it fails with the error "section not found: " followed by
the URL name. -/
theorem GetSectionByURLName_spec (toLower : Char → Char)
    (hcomma : ∀ c, toLower c = ',' ↔ c = ',') (hspace : ∀ c, toLower c = ' ' ↔ c = ' ')
    (hdash : toLower '-' = '-') (survey : Survey) (urlName : String) :
    (∀ name, SectionNameToURLName toLower name = specSlug toLower name) ∧
    ((∃ sec, GetSectionByURLName toLower survey urlName = .ok sec) ↔
      ∃ sec ∈ survey.Sections, SectionNameToURLName toLower sec.SectionName = urlName) ∧
    (∀ sec, GetSectionByURLName toLower survey urlName = .ok sec ↔
      ∃ before after, survey.Sections = before ++ sec :: after ∧
        SectionNameToURLName toLower sec.SectionName = urlName ∧
        ∀ s ∈ before, SectionNameToURLName toLower s.SectionName ≠ urlName) ∧
    ((¬ ∃ sec ∈ survey.Sections, SectionNameToURLName toLower sec.SectionName = urlName) →
      GetSectionByURLName toLower survey urlName =
        .error (Error.New ("section not found: " ++ urlName))) := by
  have hfirst : ∀ sec, GetSectionByURLName toLower survey urlName = .ok sec ↔
      ∃ before after, survey.Sections = before ++ sec :: after ∧
        SectionNameToURLName toLower sec.SectionName = urlName ∧
        ∀ s ∈ before, SectionNameToURLName toLower s.SectionName ≠ urlName := by
    intro sec
    unfold GetSectionByURLName
    cases hf : survey.Sections.find?
        (fun sec => decide (SectionNameToURLName toLower sec.SectionName = urlName)) with
    | none =>
      simp only [reduceCtorEq, false_iff]
      rintro ⟨before, after, hl, hsec, _⟩
      have := List.find?_eq_none.1 hf sec (by rw [hl]; simp)
      simp [hsec] at this
    | some s =>
      simp only [Except.ok.injEq]
      rw [List.find?_eq_some] at hf
      obtain ⟨hs, as, bs, hl, has⟩ := hf
      constructor
      · rintro rfl
        exact ⟨as, bs, hl, by simpa using hs, fun a ha => by simpa using has a ha⟩
      · rintro ⟨before, after, hl', hsec, hb⟩
        have hf' : survey.Sections.find?
            (fun sec => decide (SectionNameToURLName toLower sec.SectionName = urlName))
            = some sec := by
          rw [List.find?_eq_some]
          exact ⟨by simpa using hsec, before, after, hl', fun a ha => by simpa using hb a ha⟩
        have hf'' : survey.Sections.find?
            (fun sec => decide (SectionNameToURLName toLower sec.SectionName = urlName))
            = some s := by
          rw [List.find?_eq_some]
          exact ⟨hs, as, bs, hl, has⟩
        rw [hf'] at hf''
        exact (Option.some.inj hf'').symm
  refine ⟨?_, ?_, hfirst, ?_⟩
  · intro name
    simp only [SectionNameToURLName, specSlug]
    rw [slug_chars toLower hcomma hspace hdash]
  · constructor
    · rintro ⟨sec, h⟩
      obtain ⟨before, after, hl, hsec, _⟩ := (hfirst sec).1 h
      exact ⟨sec, by rw [hl]; simp, hsec⟩
    · rintro ⟨sec, hmem, hsec⟩
      unfold GetSectionByURLName
      cases hf : survey.Sections.find?
          (fun sec => decide (SectionNameToURLName toLower sec.SectionName = urlName)) with
      | none =>
        have := List.find?_eq_none.1 hf sec hmem
        simp [hsec] at this
      | some s => exact ⟨s, rfl⟩
  · intro hno
    unfold GetSectionByURLName
    cases hf : survey.Sections.find?
        (fun sec => decide (SectionNameToURLName toLower sec.SectionName = urlName)) with
    | none => rfl
    | some s =>
      exfalso
      apply hno
      exact ⟨s, List.mem_of_find?_eq_some hf, by simpa using List.find?_some hf⟩

/-- Witness for C23: with `Char.toLower`, the URL name of "Build, Test and Release" is the
one of the specification, and the slug `culture` resolves to the first section of that URL
name. -/
theorem GetSectionByURLName_spec_witness :
    (∀ c, Char.toLower c = ',' ↔ c = ',') ∧ (∀ c, Char.toLower c = ' ' ↔ c = ' ') ∧
    Char.toLower '-' = '-' ∧
    SectionNameToURLName Char.toLower "Build, Test and Release"
      = specSlug Char.toLower "Build, Test and Release" ∧
    (GetSectionByURLName Char.toLower { Sections := parsedAnswered } "culture"
        = .ok cultureSection ↔
      ∃ before after, parsedAnswered = before ++ cultureSection :: after ∧
        SectionNameToURLName Char.toLower cultureSection.SectionName = "culture" ∧
        ∀ s ∈ before, SectionNameToURLName Char.toLower s.SectionName ≠ "culture") :=
  ⟨fun c => toLower_eq_low c ',' (by decide), fun c => toLower_eq_low c ' ' (by decide),
    by decide,
    (GetSectionByURLName_spec Char.toLower (fun c => toLower_eq_low c ',' (by decide))
      (fun c => toLower_eq_low c ' ' (by decide)) (by decide)
      { Sections := parsedAnswered } "culture").1 "Build, Test and Release",
    (GetSectionByURLName_spec Char.toLower (fun c => toLower_eq_low c ',' (by decide))
      (fun c => toLower_eq_low c ' ' (by decide)) (by decide)
      { Sections := parsedAnswered } "culture").2.2.1 cultureSection⟩

/-! ## C30: order of the chart data -/

theorem foldl_chart (scores : List SectionScore) (labels : List String) (data : List ℚ) :
    scores.foldl (fun (acc : List String × List ℚ) score =>
        (acc.1 ++ [score.SectionName], acc.2 ++ [score.Percentage])) (labels, data)
      = (labels ++ scores.map (fun s => s.SectionName),
         data ++ scores.map (fun s => s.Percentage)) := by
  induction scores generalizing labels data with
  | nil => simp
  | cons s rest ih => simp [ih]

/-- C30: `prepareChartData` returns the names and percentages of `results.SectionScores` in
the order of that list, without sorting them: for `chartResults`, whose scores are in the
order of the section names, the labels are Culture, Delivery although Delivery has the
smaller radar position. -/
theorem prepareChartData_keeps_order :
    (∀ results : AssessmentResults,
      (ResultsHandler.prepareChartData (some results)).Labels
        = results.SectionScores.map (fun s => s.SectionName) ∧
      (ResultsHandler.prepareChartData (some results)).Data
        = results.SectionScores.map (fun s => s.Percentage)) ∧
    (ResultsHandler.prepareChartData (some chartResults)).Labels = ["Culture", "Delivery"] ∧
    (ResultsHandler.prepareChartData (some chartResults)).Data = [50, 75] ∧
    spiderPosOf chartResults.Survey "Culture" = some 2 ∧
    spiderPosOf chartResults.Survey "Delivery" = some 1 := by
  have hgen : ∀ results : AssessmentResults,
      (ResultsHandler.prepareChartData (some results)).Labels
        = results.SectionScores.map (fun s => s.SectionName) ∧
      (ResultsHandler.prepareChartData (some results)).Data
        = results.SectionScores.map (fun s => s.Percentage) := by
    intro results
    simp [ResultsHandler.prepareChartData, foldl_chart]
  refine ⟨hgen, ?_, ?_, by decide, by decide⟩
  · rw [(hgen chartResults).1]; rfl
  · rw [(hgen chartResults).2]; rfl

/-! ## C29: session validation and deactivated users -/

/-- C29: after `DeleteUser` has deactivated user 1 of `sessionDB`, `ValidateCredentials`
rejects the user with `ErrUserInactive` whatever the password, but `ValidateSession` still
accepts the session issued earlier and attaches the inactive user. -/
theorem deactivated_user_passes_validation :
    (UserService.DeleteUser sessionDB 1).2 = .ok () ∧
    (∀ (passwordMatches : String → String → Bool) (password : String),
      UserService.ValidateCredentials passwordMatches (UserService.DeleteUser sessionDB 1).1
        "ana@example.org" password = .error Error.ErrUserInactive) ∧
    (AuthService.ValidateSession (UserService.DeleteUser sessionDB 1).1 500 500 "tok-1").2
      = .ok { sampleSession with User := some { sampleUser with IsActive := false } } := by
  refine ⟨by decide, ?_, by decide⟩
  intro passwordMatches password
  have h : UserService.GetUserByEmail (UserService.DeleteUser sessionDB 1).1 "ana@example.org"
      = .ok { sampleUser with IsActive := false } := by decide
  simp [UserService.ValidateCredentials, h]

/-! ## C22: rows of the CSV export -/

theorem foldl_rows {α β : Type} (c : α → Bool) (f : α → β) (l : List α) (init : List β) :
    l.foldl (fun rows x => if c x then rows else rows ++ [f x]) init
      = init ++ (l.filter (fun x => !c x)).map f := by
  induction l generalizing init with
  | nil => simp
  | cons x xs ih =>
    by_cases hc : c x = true
    · simp [ih, hc]
    · simp [ih, hc]

theorem foldl_flatMap {α β : Type} (g : α → List β) (l : List α) (init : List β) :
    l.foldl (fun rows x => rows ++ g x) init = init ++ l.flatMap g := by
  induction l generalizing init with
  | nil => simp
  | cons x xs ih => simp [ih]

theorem applyToQuestion_length (responseMap : List (String × List String)) (q : Question) :
    (applyToQuestion responseMap q).Answers.length = q.Answers.length := by
  rw [applyToQuestion_eq]
  cases mapLookup responseMap q.ID <;> simp

theorem GetAssessmentResults_Survey
    (rangeOrder : List (String × SectionScore) → List (String × SectionScore))
    (scoresRead responsesRead : RowsOutcome)
    (sections : List Section) (db : Database) (assessmentID : Int) (assessment : Assessment)
    (scores : List SectionScore) (responses : List Response)
    (hget : AssessmentService.GetAssessmentByID db assessmentID = .ok assessment)
    (hstatus : assessment.Status = StatusCompleted)
    (hscores : AssessmentService.GetAssessmentScores scoresRead db assessmentID = .ok scores)
    (hresp : AssessmentService.GetAssessmentResponses responsesRead db assessmentID
      = .ok responses) :
    ∃ results, SurveyService.GetAssessmentResults rangeOrder scoresRead responsesRead
        (.ok sections) db assessmentID = .ok results ∧
      results.SectionScores = scores ∧
      results.Survey = ApplyResponses (LoadQuestions sections) responses := by
  unfold SurveyService.GetAssessmentResults
  simp only [hget, hstatus, ne_eq, not_true_eq_false, if_false, hscores, hresp]
  exact ⟨_, rfl, rfl, rfl⟩

theorem ExportAssessmentCSV_eq
    (rangeOrder : List (String × SectionScore) → List (String × SectionScore))
    (formatFloat : ℚ → String) (isSpace : Char → Bool)
    (scoresRead responsesRead exportRead : RowsOutcome)
    (sections : List Section) (db : Database) (assessmentID : Int) (assessment : Assessment)
    (scores : List SectionScore) (applied exported : List Response)
    (hget : AssessmentService.GetAssessmentByID db assessmentID = .ok assessment)
    (hstatus : assessment.Status = StatusCompleted)
    (hscores : AssessmentService.GetAssessmentScores scoresRead db assessmentID = .ok scores)
    (hresp : AssessmentService.GetAssessmentResponses responsesRead db assessmentID
      = .ok applied)
    (hexport : AssessmentService.GetAssessmentResponses exportRead db assessmentID
      = .ok exported) :
    SurveyService.ExportAssessmentCSV rangeOrder formatFloat isSpace scoresRead responsesRead
        exportRead (.ok sections) db assessmentID
      = (exportHeader ::
          exportRows formatFloat isSpace (buildResponseMap applied)
            (buildResponseMap exported) (LoadQuestions sections), .ok ()) := by
  obtain ⟨results, hres, _, hsurvey⟩ :=
    GetAssessmentResults_Survey rangeOrder scoresRead responsesRead sections db assessmentID
      assessment scores applied hget hstatus hscores hresp
  unfold SurveyService.ExportAssessmentCSV
  simp only [hres, hsurvey, hexport]
  congr 1
  have hinner : ∀ (sec : Section) (rows : List (List String)),
      sec.Questions.foldl (fun rows question =>
          if question.Answers.length = 0 then rows
          else rows ++ [exportRow formatFloat isSpace (buildResponseMap exported)
            sec question]) rows
        = rows ++ (sec.Questions.filter (fun q => decide (q.Answers.length ≠ 0))).map
            (exportRow formatFloat isSpace (buildResponseMap exported) sec) := by
    intro sec rows
    have h := foldl_rows (fun q : Question => decide (q.Answers.length = 0))
      (exportRow formatFloat isSpace (buildResponseMap exported) sec)
      sec.Questions rows
    simp only [decide_eq_true_eq, decide_not] at h
    simpa using h
  simp only [hinner]
  rw [foldl_flatMap]
  simp only [exportRows, ApplyResponses, List.flatMap_map, List.singleton_append]
  congr 1
  apply List.flatMap_congr
  intro sec _
  rw [List.filter_map, List.map_map]
  congr 1
  apply List.filter_congr
  intro q _
  have hlen := applyToQuestion_length (buildResponseMap applied) q
  simp only [Function.comp_apply, hlen]

theorem applyToQuestion_text (responseMap : List (String × List String)) (q : Question) :
    (applyToQuestion responseMap q).SubCategory = q.SubCategory ∧
    (applyToQuestion responseMap q).QuestionText = q.QuestionText ∧
    (applyToQuestion responseMap q).ID = q.ID := by
  rw [applyToQuestion_eq]
  cases mapLookup responseMap q.ID <;> exact ⟨rfl, rfl, rfl⟩

/-- C22 (as stated) fails: on the completed assessment of `completedDB` and the catalog
`parsedWithBannerID`, whose Banner has an authored answer, the export has a row for the
Banner "Next: delivery" after the header and the row of the only question. -/
theorem Banner_with_answers_exported :
    (SurveyService.ExportAssessmentCSV id formatTenths Char.isWhitespace .complete .complete
        .complete (.ok parsedWithBannerID) completedDB 1).2 = .ok () ∧
    (SurveyService.ExportAssessmentCSV id formatTenths Char.isWhitespace .complete .complete
        .complete (.ok parsedWithBannerID) completedDB 1).1.map (List.take 3)
      = [["Section", "Sub Category", "Question"],
         ["Culture", "", "Do you deploy daily?"],
         ["Culture", "", "Next: delivery"]] ∧
    ((questionsOf (LoadQuestions parsedWithBannerID)).filter
        (fun q => decide (q.Type_ = "Banner"))).map (fun q => q.QuestionText)
      = ["Next: delivery"] := by
  rw [ExportAssessmentCSV_eq id formatTenths Char.isWhitespace .complete .complete .complete
    parsedWithBannerID completedDB 1 completedAssessment _ _ _ (by decide) (by decide)
    (GetAssessmentScores_complete completedDB 1)
    (GetAssessmentResponses_complete completedDB 1)
    (GetAssessmentResponses_complete completedDB 1)]
  refine ⟨rfl, ?_, ?_⟩
  · decide
  · decide

/-- C22 (amended): for a completed assessment, a readable questions file and three row reads
that return without error, `ExportAssessmentCSV` hands to the CSV writer the header row
(Section, Sub Category, Question, Possible Answers, Max Score, Answer(s), Score) followed by
exactly one row per question of the loaded catalog that has at least one answer (a Banner
without answers produces no row, a Banner with authored answers produces one), the rows
appearing in catalog order whatever the reads of the stored responses return: the first
three cells of the rows are the section name, the subcategory and the text of these
questions, in catalog order. -/
theorem ExportAssessmentCSV_rows
    (rangeOrder : List (String × SectionScore) → List (String × SectionScore))
    (formatFloat : ℚ → String) (isSpace : Char → Bool)
    (scoresRead responsesRead exportRead : RowsOutcome)
    (sections : List Section) (db : Database) (assessmentID : Int) (assessment : Assessment)
    (scores : List SectionScore) (applied exported : List Response)
    (hget : AssessmentService.GetAssessmentByID db assessmentID = .ok assessment)
    (hstatus : assessment.Status = StatusCompleted)
    (hscores : AssessmentService.GetAssessmentScores scoresRead db assessmentID = .ok scores)
    (hresp : AssessmentService.GetAssessmentResponses responsesRead db assessmentID
      = .ok applied)
    (hexport : AssessmentService.GetAssessmentResponses exportRead db assessmentID
      = .ok exported) :
    SurveyService.ExportAssessmentCSV rangeOrder formatFloat isSpace scoresRead responsesRead
        exportRead (.ok sections) db assessmentID
      = (["Section", "Sub Category", "Question", "Possible Answers", "Max Score",
          "Answer(s)", "Score"] ::
          exportRows formatFloat isSpace (buildResponseMap applied)
            (buildResponseMap exported) (LoadQuestions sections), .ok ()) ∧
    (exportRows formatFloat isSpace (buildResponseMap applied) (buildResponseMap exported)
        (LoadQuestions sections)).map (List.take 3)
      = (LoadQuestions sections).Sections.flatMap (fun sec =>
          (sec.Questions.filter (fun q => decide (q.Answers.length ≠ 0))).map
            (fun q => [sec.SectionName, q.SubCategory, q.QuestionText])) := by
  constructor
  · exact ExportAssessmentCSV_eq rangeOrder formatFloat isSpace scoresRead responsesRead
      exportRead sections db assessmentID assessment scores applied exported hget hstatus
      hscores hresp hexport
  · simp only [exportRows, List.map_flatMap, List.map_map]
    apply List.flatMap_congr
    intro sec _
    apply List.map_congr_left
    intro q _
    obtain ⟨h1, h2, _⟩ := applyToQuestion_text (buildResponseMap applied) q
    simp [exportRow, h1, h2]

/-- Witness for C22: the export of the completed assessment of `completedDB` over the catalog
`parsedAnswered`, with the read of the applied responses stopping before the first row. -/
theorem ExportAssessmentCSV_rows_witness :
    AssessmentService.GetAssessmentByID completedDB 1 = .ok completedAssessment ∧
    completedAssessment.Status = StatusCompleted ∧
    SurveyService.ExportAssessmentCSV id formatTenths Char.isWhitespace .complete
        (.stopsAfter 0) .complete (.ok parsedAnswered) completedDB 1
      = (["Section", "Sub Category", "Question", "Possible Answers", "Max Score",
          "Answer(s)", "Score"] ::
          exportRows formatTenths Char.isWhitespace (buildResponseMap [])
            (buildResponseMap (responseRows completedDB 1))
            (LoadQuestions parsedAnswered), .ok ()) ∧
    (exportRows formatTenths Char.isWhitespace (buildResponseMap [])
        (buildResponseMap (responseRows completedDB 1))
        (LoadQuestions parsedAnswered)).map (List.take 3)
      = (LoadQuestions parsedAnswered).Sections.flatMap (fun sec =>
          (sec.Questions.filter (fun q => decide (q.Answers.length ≠ 0))).map
            (fun q => [sec.SectionName, q.SubCategory, q.QuestionText])) :=
  ⟨by decide, by decide,
    ExportAssessmentCSV_rows id formatTenths Char.isWhitespace .complete (.stopsAfter 0)
      .complete parsedAnswered completedDB 1 completedAssessment
      (sectionScoreRows completedDB 1) [] (responseRows completedDB 1)
      (by decide) (by decide) rfl rfl rfl⟩

/-! ## C21: the Answer(s) and Score cells of a row -/

theorem foldl_append_join (l : List String) (init : String) :
    l.foldl (fun acc s => acc ++ s) init = init ++ String.join l := by
  unfold String.join
  induction l generalizing init with
  | nil => simp
  | cons s rest ih =>
    rw [List.foldl_cons, List.foldl_cons, ih (init ++ s), ih ("" ++ s), String.empty_append,
      String.append_assoc]

theorem join_cons (s : String) (l : List String) :
    String.join (s :: l) = s ++ String.join l := by
  have h := foldl_append_join l ("" ++ s)
  rw [String.empty_append] at h
  rw [← h]
  rfl

theorem foldl_selected (answers : List Answer) (answerIDs : List String) (init : String) :
    answerIDs.foldl (fun text answerID =>
        match answers.find? (fun answer => decide (answer.ID = answerID)) with
        | some answer => text ++ (answer.Answer ++ "\n")
        | none => text) init
      = init ++ String.join (answerIDs.filterMap (fun answerID =>
          (answers.find? (fun answer => decide (answer.ID = answerID))).map
            (fun answer => answer.Answer ++ "\n"))) := by
  induction answerIDs generalizing init with
  | nil => simp [String.join]
  | cons i ids ih =>
    rw [List.foldl_cons, ih]
    cases hf : answers.find? (fun answer => decide (answer.ID = i)) with
    | none => simp [List.filterMap_cons, hf]
    | some a =>
      simp only [List.filterMap_cons, hf, Option.map_some']
      rw [String.append_assoc, join_cons]

theorem find?_applied (answerIDs : List String) (answers : List Answer) (i : String) :
    ((answers.map (fun a : Answer =>
        { a with Value := if a.ID ∈ answerIDs then "checked" else "" })).find?
        (fun answer => decide (answer.ID = i))).map (fun answer => answer.Answer ++ "\n")
      = (answers.find? (fun answer => decide (answer.ID = i))).map
          (fun answer => answer.Answer ++ "\n") := by
  induction answers with
  | nil => rfl
  | cons a rest ih =>
    by_cases h : a.ID = i
    · simp [List.find?_cons, h]
    · simpa [List.find?_cons, h] using ih

theorem selectedAnswersText_applied (responseMap : List (String × List String))
    (q : Question) (answerIDs : List String)
    (h : mapLookup responseMap q.ID = some answerIDs) :
    selectedAnswersText responseMap (applyToQuestion responseMap q)
      = selectedTexts q answerIDs := by
  have hid := (applyToQuestion_text responseMap q).2.2
  unfold selectedAnswersText
  rw [hid, h]
  simp only [foldl_selected, String.empty_append, selectedTexts]
  congr 1
  apply List.filterMap_congr
  intro i _
  rw [applyToQuestion_eq, h]
  exact find?_applied answerIDs q.Answers i

theorem LoadQuestions_mem (sections : List Section) (sec : Section) (q : Question)
    (hsec : sec ∈ (LoadQuestions sections).Sections) (hq : q ∈ sec.Questions) :
    ∃ i j q0, q = assignQuestionID i j q0 := by
  simp only [LoadQuestions, detectSubCategories, assignQuestionIDs, List.mem_map] at hsec
  obtain ⟨sec1, hsec1, rfl⟩ := hsec
  obtain ⟨i, hi, rfl⟩ := List.mem_mapIdx.1 hsec1
  obtain ⟨j, hj, rfl⟩ := List.mem_mapIdx.1 hq
  exact ⟨i, j, _, rfl⟩

theorem assignQuestionID_answers_nodup (i j : Nat) (q : Question) (hB : q.Type_ ≠ "Banner") :
    ((assignQuestionID i j q).Answers.map (fun a => a.ID)).Nodup := by
  have hids := (assignQuestionID_ids i j q hB).2
  rw [List.nodup_iff_getElem?_ne_getElem?]
  intro k k' hlt hk' heq
  rw [List.length_map] at hk'
  have hk : k < (assignQuestionID i j q).Answers.length := by omega
  simp only [List.getElem?_map, List.getElem?_eq_getElem hk, List.getElem?_eq_getElem hk',
    Option.map_some', Option.some.injEq] at heq
  rw [hids k _ (List.getElem?_eq_getElem hk), hids k' _ (List.getElem?_eq_getElem hk')] at heq
  have := answerIDFormat_injective _ _ _ _ _ _ heq
  omega

/-- C21 (as stated) fails: `strings.TrimSpace` also removes leading white space.  On the
completed assessment of `bothSelectedDB` and the catalog `spacedCatalog`, whose Checkbox
question has the answers " Design review" and "Code review", both selected, the "Answer(s)"
cell is "Design review\nCode review", whereas the two texts joined by a newline with only
trailing white space removed are " Design review\nCode review". -/
theorem leading_space_is_trimmed :
    (SurveyService.ExportAssessmentCSV id formatTenths Char.isWhitespace .complete .complete
        .complete (.ok spacedCatalog) bothSelectedDB 1).2 = .ok () ∧
    (SurveyService.ExportAssessmentCSV id formatTenths Char.isWhitespace .complete .complete
        .complete (.ok spacedCatalog) bothSelectedDB 1).1.map (fun row => row[5]?)
      = [some "Answer(s)", some "Design review\nCode review"] ∧
    trimTrailing Char.isWhitespace (" Design review" ++ "\n" ++ "Code review" ++ "\n")
      = " Design review\nCode review" := by
  rw [ExportAssessmentCSV_eq id formatTenths Char.isWhitespace .complete .complete .complete
    spacedCatalog bothSelectedDB 1 completedAssessment _ _ _ (by decide) (by decide)
    (GetAssessmentScores_complete bothSelectedDB 1)
    (GetAssessmentResponses_complete bothSelectedDB 1)
    (GetAssessmentResponses_complete bothSelectedDB 1)]
  refine ⟨rfl, ?_, ?_⟩
  · decide
  · decide

/-- C21 (amended): for a completed assessment whose read of the section scores returns
without error and whose two reads of the stored responses return all of them, every
question `q` of the loaded catalog with at least one answer and a stored response `r` has a
row whose "Answer(s)" cell lists the texts of the selected answers one per line, in the
order of the answer IDs of `r`, with the leading and trailing white space of the cell
trimmed (`strings.TrimSpace`); when `q` is a Checkbox question with the two answers `a1`,
`a2` and `r` holds the two answer IDs once each, that cell is the two answer texts, in the
order of `r`, separated by a newline and trimmed in the same way, and the "Score" cell is the
sum of the two answers' scores in the one-decimal format. -/
theorem ExportAssessmentCSV_answer_cells
    (rangeOrder : List (String × SectionScore) → List (String × SectionScore))
    (formatFloat : ℚ → String) (isSpace : Char → Bool)
    (scoresRead responsesRead exportRead : RowsOutcome)
    (sections : List Section) (db : Database) (assessmentID : Int) (assessment : Assessment)
    (scores : List SectionScore)
    (hget : AssessmentService.GetAssessmentByID db assessmentID = .ok assessment)
    (hstatus : assessment.Status = StatusCompleted)
    (hscores : AssessmentService.GetAssessmentScores scoresRead db assessmentID = .ok scores)
    (hresp : AssessmentService.GetAssessmentResponses responsesRead db assessmentID
      = .ok (responseRows db assessmentID))
    (hexport : AssessmentService.GetAssessmentResponses exportRead db assessmentID
      = .ok (responseRows db assessmentID))
    (sec : Section) (q : Question) (r : Response)
    (hsec : sec ∈ (LoadQuestions sections).Sections) (hq : q ∈ sec.Questions)
    (hans : q.Answers.length ≠ 0)
    (hr : lastResponseFor (responseRows db assessmentID) q.ID = some r) :
    ∃ rows row,
      SurveyService.ExportAssessmentCSV rangeOrder formatFloat isSpace scoresRead
        responsesRead exportRead (.ok sections) db assessmentID = (rows, .ok ()) ∧
      row ∈ rows ∧
      row.take 3 = [sec.SectionName, q.SubCategory, q.QuestionText] ∧
      row[5]? = some (TrimSpace isSpace (selectedTexts q r.AnswerIDs)) ∧
      ∀ a1 a2 : Answer, q.Type_ = "Checkbox" →
        (q.Answers = [a1, a2] ∨ q.Answers = [a2, a1]) → r.AnswerIDs = [a1.ID, a2.ID] →
        row[5]? = some (TrimSpace isSpace (a1.Answer ++ "\n" ++ a2.Answer ++ "\n")) ∧
        row[6]? = some (formatFloat (a1.Score + a2.Score)) := by
  have hlookup : mapLookup (buildResponseMap (responseRows db assessmentID)) q.ID
      = some r.AnswerIDs := by
    rw [mapLookup_buildResponseMap, hr]
    rfl
  obtain ⟨rm, hrm⟩ : ∃ rm, rm = buildResponseMap (responseRows db assessmentID) := ⟨_, rfl⟩
  rw [← hrm] at hlookup
  obtain ⟨h1, h2, hid⟩ := applyToQuestion_text rm q
  have hcell : selectedAnswersText rm (applyToQuestion rm q) = selectedTexts q r.AnswerIDs :=
    selectedAnswersText_applied rm q r.AnswerIDs hlookup
  refine ⟨exportHeader :: exportRows formatFloat isSpace rm rm (LoadQuestions sections),
    exportRow formatFloat isSpace rm sec (applyToQuestion rm q), ?_, ?_, ?_, ?_, ?_⟩
  · rw [hrm]
    exact ExportAssessmentCSV_eq rangeOrder formatFloat isSpace scoresRead responsesRead
      exportRead sections db assessmentID assessment _ _ _ hget hstatus hscores hresp hexport
  · apply List.mem_cons_of_mem
    unfold exportRows
    exact List.mem_flatMap.2 ⟨sec, hsec, List.mem_map.2
      ⟨q, List.mem_filter.2 ⟨hq, by simpa using hans⟩, rfl⟩⟩
  · simp [exportRow, h1, h2]
  · simp [exportRow, hcell]
  · intro a1 a2 hT hA hids
    have hne : a1.ID ≠ a2.ID := by
      obtain ⟨i, j, q0, rfl⟩ := LoadQuestions_mem sections sec q hsec hq
      have hB : q0.Type_ ≠ "Banner" := by
        rw [assignQuestionID_Type] at hT
        rw [hT]
        decide
      have hnd := assignQuestionID_answers_nodup i j q0 hB
      rcases hA with hA | hA
      · rw [hA] at hnd
        simpa using hnd
      · rw [hA] at hnd
        have : a2.ID ≠ a1.ID := by simpa using hnd
        exact fun h => this h.symm
    have hne2 : a2.ID ≠ a1.ID := fun h => hne h.symm
    constructor
    · have : selectedTexts q r.AnswerIDs = a1.Answer ++ "\n" ++ a2.Answer ++ "\n" := by
        rcases hA with hA | hA
        · simp only [selectedTexts, hA, hids, List.filterMap_cons, List.find?_cons,
            decide_True, Option.map_some', List.filterMap_nil]
          simp only [hne, decide_False, decide_True, Option.map_some', join_cons]
          simp [String.join, String.append_assoc]
        · simp only [selectedTexts, hA, hids, List.filterMap_cons, List.find?_cons,
            decide_True, Option.map_some', List.filterMap_nil]
          simp only [hne2, decide_False, decide_True, Option.map_some', join_cons]
          simp [String.join, String.append_assoc]
      simp [exportRow, hcell, this]
    · have hs : exportScore rm (applyToQuestion rm q) = a1.Score + a2.Score := by
        unfold exportScore
        rw [hid, hlookup, applyToQuestion_eq, hlookup]
        rcases hA with hA | hA
        · simp [hA, hids, hne, hne2]
        · simp [hA, hids, hne, hne2]
      simp [exportRow, hs]

/-- Witness for C21: the Checkbox question of `spacedCatalog`, with both answers selected in
`bothSelectedDB`. -/
theorem ExportAssessmentCSV_answer_cells_witness :
    ∃ rows row,
      SurveyService.ExportAssessmentCSV id formatTenths Char.isWhitespace .complete .complete
        .complete (.ok spacedCatalog) bothSelectedDB 1 = (rows, .ok ()) ∧
      row ∈ rows ∧
      row.take 3 = [loadedSpacedSection.SectionName, loadedSpacedQuestion.SubCategory,
        loadedSpacedQuestion.QuestionText] ∧
      row[5]? = some (TrimSpace Char.isWhitespace
        (selectedTexts loadedSpacedQuestion bothSelected.AnswerIDs)) ∧
      ∀ a1 a2 : Answer, loadedSpacedQuestion.Type_ = "Checkbox" →
        (loadedSpacedQuestion.Answers = [a1, a2] ∨ loadedSpacedQuestion.Answers = [a2, a1]) →
        bothSelected.AnswerIDs = [a1.ID, a2.ID] →
        row[5]? = some (TrimSpace Char.isWhitespace
          (a1.Answer ++ "\n" ++ a2.Answer ++ "\n")) ∧
        row[6]? = some (formatTenths (a1.Score + a2.Score)) :=
  ExportAssessmentCSV_answer_cells id formatTenths Char.isWhitespace .complete .complete
    .complete spacedCatalog bothSelectedDB 1 completedAssessment
    (sectionScoreRows bothSelectedDB 1) (by decide) (by decide)
    rfl rfl rfl loadedSpacedSection loadedSpacedQuestion bothSelected (by decide) (by decide)
    (by decide) (by decide)

/-! ## C27: the achieved score of the export and `CalculateQuestionScore` -/

theorem exportInner_eq (all : List String) (answerID : String) (answers : List Answer)
    (s : ℚ) :
    (answers.map (fun a : Answer =>
        { a with Value := if a.ID ∈ all then "checked" else "" })).foldl
        (fun score answer =>
          if answer.ID = answerID ∧ answer.Value = "checked" then score + answer.Score
          else score) s
      = s + ((answers.filter (fun a => decide (a.ID = answerID ∧ a.ID ∈ all))).map
          (fun a => a.Score)).sum := by
  rw [List.foldl_map]
  have h := foldl_cond_add_eq_sum (fun a : Answer => decide (a.ID = answerID ∧ a.ID ∈ all))
    (fun a => a.Score) answers s
  rw [← h]
  congr 1
  funext score a
  by_cases h1 : a.ID ∈ all
  · simp [h1]
  · simp [h1]

theorem sum_filter_split (answerID : String) (rest all : List String) (answers : List Answer)
    (hall : answerID ∈ all) (hnot : answerID ∉ rest) :
    ((answers.filter (fun a => decide (a.ID = answerID ∧ a.ID ∈ all))).map
        (fun a => a.Score)).sum
      + ((answers.filter (fun a => decide (a.ID ∈ rest))).map (fun a => a.Score)).sum
      = ((answers.filter (fun a => decide (a.ID ∈ answerID :: rest))).map
          (fun a => a.Score)).sum := by
  induction answers with
  | nil => simp
  | cons a l ih =>
    by_cases h1 : a.ID = answerID
    · have h2 : a.ID ∉ rest := by rw [h1]; exact hnot
      have h3 : a.ID ∈ all := by rw [h1]; exact hall
      simp only [List.filter_cons, h1, hall, hnot, and_self, decide_True, if_true,
        decide_False, List.mem_cons, true_or, List.map_cons, List.sum_cons,
        Bool.false_eq_true, if_false] at ih ⊢
      linarith
    · simp only [List.filter_cons, h1, false_and, decide_False, Bool.false_eq_true, if_false,
        List.mem_cons, false_or] at ih ⊢
      by_cases h2 : a.ID ∈ rest
      · simp only [h2, decide_True, if_true, List.map_cons, List.sum_cons] at ih ⊢
        linarith
      · simp only [h2, decide_False, Bool.false_eq_true, if_false] at ih ⊢
        exact ih

theorem exportOuter_eq (all : List String) (answers : List Answer) :
    ∀ (answerIDs : List String) (s : ℚ), (∀ i ∈ answerIDs, i ∈ all) → answerIDs.Nodup →
    answerIDs.foldl (fun score answerID =>
        (answers.map (fun a : Answer =>
          { a with Value := if a.ID ∈ all then "checked" else "" })).foldl
          (fun score answer =>
            if answer.ID = answerID ∧ answer.Value = "checked" then score + answer.Score
            else score) score) s
      = s + ((answers.filter (fun a => decide (a.ID ∈ answerIDs))).map
          (fun a => a.Score)).sum := by
  intro answerIDs
  induction answerIDs with
  | nil => intro s _ _; simp
  | cons i rest ih =>
    intro s hsub hnd
    rw [List.foldl_cons, exportInner_eq, ih _ (fun k hk => hsub k (List.mem_cons_of_mem _ hk))
      (List.nodup_cons.1 hnd).2, add_assoc,
      sum_filter_split i rest all answers (hsub i (List.mem_cons_self _ _))
        (List.nodup_cons.1 hnd).1]

theorem exportScore_applied (responseMap : List (String × List String)) (q : Question)
    (answerIDs : List String) (h : mapLookup responseMap q.ID = some answerIDs)
    (hnd : answerIDs.Nodup) :
    exportScore responseMap (applyToQuestion responseMap q)
      = ((q.Answers.filter (fun a => decide (a.ID ∈ answerIDs))).map (fun a => a.Score)).sum := by
  unfold exportScore
  rw [(applyToQuestion_text responseMap q).2.2, h, applyToQuestion_eq, h]
  simp only
  rw [exportOuter_eq answerIDs q.Answers answerIDs 0 (fun _ hi => hi) hnd, zero_add]

theorem CalculateQuestionScore_applied (responseMap : List (String × List String))
    (q : Question) (answerIDs : List String) (h : mapLookup responseMap q.ID = some answerIDs)
    (hB : q.Type_ ≠ "Banner") :
    CalculateQuestionScore (applyToQuestion responseMap q)
      = ((q.Answers.filter (fun a => decide (a.ID ∈ answerIDs))).map (fun a => a.Score)).sum := by
  rw [applyToQuestion_eq, h]
  simp only [CalculateQuestionScore, hB, if_false]
  rw [List.foldl_map]
  have h2 := foldl_cond_add_eq_sum (fun a : Answer => decide (a.ID ∈ answerIDs))
    (fun a => a.Score) q.Answers 0
  rw [zero_add] at h2
  rw [← h2]
  congr 1
  funext score a
  by_cases h1 : a.ID ∈ answerIDs
  · simp [h1]
  · simp [h1]

theorem LoadQuestions_banner (sections : List Section)
    (h : ∀ sec ∈ sections, ∀ q ∈ sec.Questions, q.Type_ = "Banner" → q.Answers = []) :
    ∀ sec ∈ (LoadQuestions sections).Sections, ∀ q ∈ sec.Questions,
      q.Type_ = "Banner" → q.Answers = [] := by
  intro sec hsec q hq hB
  simp only [LoadQuestions, detectSubCategories, assignQuestionIDs, List.mem_map] at hsec
  obtain ⟨sec1, hsec1, rfl⟩ := hsec
  obtain ⟨i, hi, rfl⟩ := List.mem_mapIdx.1 hsec1
  obtain ⟨j, hj, rfl⟩ := List.mem_mapIdx.1 hq
  rw [assignQuestionID_Type] at hB
  have h0 := h _ (List.getElem_mem hi) _ (List.getElem_mem hj) hB
  simp [assignQuestionID, hB, h0]

theorem sum_filter_of_zero {α : Type} (p : α → Bool) (f : α → ℚ) (l : List α)
    (h : ∀ x ∈ l, p x = false → f x = 0) :
    ((l.filter p).map f).sum = (l.map f).sum := by
  induction l with
  | nil => rfl
  | cons x xs ih =>
    have ih2 := ih (fun y hy => h y (List.mem_cons_of_mem _ hy))
    by_cases hp : p x = true
    · simp [List.filter_cons, hp, ih2]
    · have hx := h x (List.mem_cons_self _ _) (by simpa using hp)
      simp [List.filter_cons, hp, ih2, hx]

theorem mem_CalculateSectionScores_Score (survey : Survey) (assessmentID : Int)
    (e : SectionScore) (he : e ∈ CalculateSectionScores survey assessmentID) :
    ∃ sec ∈ survey.Sections, e.SectionName = sec.SectionName ∧
      e.Score = (sec.Questions.map CalculateQuestionScore).sum := by
  unfold CalculateSectionScores at he
  simp only [foldl_totals_zero] at he
  have h := foldl_cond_append
    (fun sec : Section => decide (0 < (sec.Questions.map CalculateQuestionMaxScore).sum))
    (fun sec : Section =>
      ({ ID := 0, AssessmentID := assessmentID, SectionName := sec.SectionName,
         Score := (sec.Questions.map CalculateQuestionScore).sum,
         MaxScore := (sec.Questions.map CalculateQuestionMaxScore).sum,
         Percentage := (sec.Questions.map CalculateQuestionScore).sum
           / (sec.Questions.map CalculateQuestionMaxScore).sum * 100 } : SectionScore))
    survey.Sections []
  simp only [decide_eq_true_eq, List.nil_append] at h
  simp only [gt_iff_lt] at he
  rw [h] at he
  obtain ⟨sec, hsec, rfl⟩ := List.mem_map.1 he
  exact ⟨sec, (List.mem_filter.1 hsec).1, rfl, rfl⟩

theorem exportScore_eq_applied (sections : List Section) (responses : List Response)
    (hflags : ∀ sec ∈ sections, ∀ q ∈ sec.Questions, ∀ a ∈ q.Answers, a.Value ≠ "checked")
    (hbanner : ∀ sec ∈ sections, ∀ q ∈ sec.Questions, q.Type_ = "Banner" → q.Answers = [])
    (hnodup : ∀ r ∈ responses, r.AnswerIDs.Nodup) :
    ∀ sec ∈ (LoadQuestions sections).Sections, ∀ q ∈ sec.Questions,
      exportScore (buildResponseMap responses) (applyToQuestion (buildResponseMap responses) q)
        = CalculateQuestionScore (applyToQuestion (buildResponseMap responses) q) := by
  intro sec hsec q hq
  cases hl : mapLookup (buildResponseMap responses) q.ID with
  | none =>
    have happ : applyToQuestion (buildResponseMap responses) q = q := by
      rw [applyToQuestion_eq, hl]
    rw [happ, CalculateQuestionScore_unchecked q
      (LoadQuestions_unchecked sections hflags sec hsec q hq)]
    simp [exportScore, hl]
  | some ids =>
    have hnd : ids.Nodup := by
      rw [mapLookup_buildResponseMap] at hl
      cases hr : lastResponseFor responses q.ID with
      | none => simp [hr] at hl
      | some r =>
        simp only [hr, Option.map_some', Option.some.injEq] at hl
        rw [← hl]
        apply hnodup
        unfold lastResponseFor at hr
        exact List.mem_reverse.1 (List.mem_of_find?_eq_some hr)
    rw [exportScore_applied _ q ids hl hnd]
    by_cases hB : q.Type_ = "Banner"
    · have h0 := LoadQuestions_banner sections hbanner sec hsec q hq hB
      have hT := applyToQuestion_Type (buildResponseMap responses) q
      simp [CalculateQuestionScore, hT, hB, h0]
    · rw [CalculateQuestionScore_applied _ q ids hl hB]

theorem exportScore_counts_repeated_ids :
    (repeatedChoice.map (fun r => r.QuestionID)).Nodup ∧
    loadedSingleQuestion ∈ questionsOf (LoadQuestions singleCatalog) ∧
    exportScore (buildResponseMap repeatedChoice)
        (applyToQuestion (buildResponseMap repeatedChoice) loadedSingleQuestion) = 2 ∧
    CalculateQuestionScore
        (applyToQuestion (buildResponseMap repeatedChoice) loadedSingleQuestion) = 1 := by
  refine ⟨by decide, by decide, ?_, ?_⟩
  · simp [exportScore, buildResponseMap, repeatedChoice, loadedSingleQuestion,
      applyToQuestion, mapStore, mapLookup]
    norm_num
  · simp [CalculateQuestionScore, buildResponseMap, repeatedChoice, loadedSingleQuestion,
      applyToQuestion, mapStore, mapLookup]

/-- Where the score loop of the export and `CalculateQuestionScore` agree: for a catalog
loaded from a source without authored checked flags and without answers on Banners, and
responses none of which names an answer ID twice, the loop yields for every question the
value of `CalculateQuestionScore` after `ApplyResponses` with the same responses, and the
`Score` of every entry of `CalculateSectionScores` is the sum of these values over the
questions of its section that have an answer. -/
theorem exportScore_spec (sections : List Section) (responses : List Response)
    (assessmentID : Int)
    (hflags : ∀ sec ∈ sections, ∀ q ∈ sec.Questions, ∀ a ∈ q.Answers, a.Value ≠ "checked")
    (hbanner : ∀ sec ∈ sections, ∀ q ∈ sec.Questions, q.Type_ = "Banner" → q.Answers = [])
    (hnodup : ∀ r ∈ responses, r.AnswerIDs.Nodup) :
    (∀ sec ∈ (LoadQuestions sections).Sections, ∀ q ∈ sec.Questions,
      exportScore (buildResponseMap responses) (applyToQuestion (buildResponseMap responses) q)
        = CalculateQuestionScore (applyToQuestion (buildResponseMap responses) q)) ∧
    (∀ e ∈ CalculateSectionScores (ApplyResponses (LoadQuestions sections) responses)
        assessmentID,
      ∃ sec ∈ (LoadQuestions sections).Sections, e.SectionName = sec.SectionName ∧
        e.Score = ((sec.Questions.filter (fun q => decide (q.Answers.length ≠ 0))).map
          (fun q => exportScore (buildResponseMap responses)
            (applyToQuestion (buildResponseMap responses) q))).sum) := by
  have hq := exportScore_eq_applied sections responses hflags hbanner hnodup
  refine ⟨hq, ?_⟩
  intro e he
  obtain ⟨sec', hsec', hname, hscore⟩ := mem_CalculateSectionScores_Score _ _ e he
  simp only [ApplyResponses, List.mem_map] at hsec'
  obtain ⟨sec, hsec, rfl⟩ := hsec'
  refine ⟨sec, hsec, hname, ?_⟩
  rw [hscore, sum_filter_of_zero, List.map_map]
  · congr 1
    apply List.map_congr_left
    intro q hmem
    exact (hq sec hsec q hmem).symm
  · intro q hmem hp
    rw [hq sec hsec q hmem]
    apply CalculateQuestionScore_unchecked
    intro a ha
    have hlen := applyToQuestion_length (buildResponseMap responses) q
    have h0 : q.Answers.length = 0 := by simpa using hp
    rw [h0] at hlen
    rw [List.length_eq_zero.1 hlen] at ha
    simp at ha

/-- The agreement of the score loop with `CalculateQuestionScore` on the catalog
`singleCatalog` with the response `{S1-Q1: [S1-Q1-A1]}`. -/
theorem exportScore_spec_witness :
    (∀ sec ∈ singleCatalog, ∀ q ∈ sec.Questions, ∀ a ∈ q.Answers, a.Value ≠ "checked") ∧
    (∀ sec ∈ singleCatalog, ∀ q ∈ sec.Questions, q.Type_ = "Banner" → q.Answers = []) ∧
    (∀ r ∈ singleChoice, r.AnswerIDs.Nodup) ∧
    (∀ sec ∈ (LoadQuestions singleCatalog).Sections, ∀ q ∈ sec.Questions,
      exportScore (buildResponseMap singleChoice)
          (applyToQuestion (buildResponseMap singleChoice) q)
        = CalculateQuestionScore (applyToQuestion (buildResponseMap singleChoice) q)) ∧
    (∀ e ∈ CalculateSectionScores (ApplyResponses (LoadQuestions singleCatalog) singleChoice)
        1,
      ∃ sec ∈ (LoadQuestions singleCatalog).Sections, e.SectionName = sec.SectionName ∧
        e.Score = ((sec.Questions.filter (fun q => decide (q.Answers.length ≠ 0))).map
          (fun q => exportScore (buildResponseMap singleChoice)
            (applyToQuestion (buildResponseMap singleChoice) q))).sum) :=
  ⟨by decide, by decide, by decide,
    exportScore_spec singleCatalog singleChoice 1 (by decide) (by decide) (by decide)⟩

/-- C27: evaluation at two failing inputs.  (1) On `completedDB`, whose completed assessment 1
holds the single stored response `{S1-Q4: [S1-Q4-A2]}`, and the catalog loaded from
`parsedAnswered`, whose source authors checked answers on `S1-Q2` and `S1-Q3`, the export
writes the score 0 in the "Score" cell of all three rows, whereas `CalculateQuestionScore`
after `ApplyResponses` with the same stored responses is 1 for `S1-Q2` and 5 for `S1-Q3`,
and the section score computed by `CalculateSectionScores` is 6.  (2) On `repeatedDB`, whose
completed assessment 1 holds the stored response `{S1-Q1: [S1-Q1-A1, S1-Q1-A1]}`, the export
over the catalog `singleCatalog` writes the score 2 in the "Score" cell of the question
`S1-Q1` (the answer `S1-Q1-A1`, score 1, is counted once per occurrence of its ID), whereas
`CalculateQuestionScore` of that question after `ApplyResponses` is 1 and so is the section
score computed by `CalculateSectionScores`. -/
theorem ExportAssessmentCSV_score_differs :
    ((responseRows completedDB 1).map (fun r => (r.QuestionID, r.AnswerIDs))
        = [("S1-Q4", ["S1-Q4-A2"])] ∧
      (∀ formatFloat : ℚ → String,
        (SurveyService.ExportAssessmentCSV id formatFloat Char.isWhitespace .complete
            .complete .complete (.ok parsedAnswered) completedDB 1).1.map
              (fun row => (row[2]?, row[6]?))
          = [(some "Question", some "Score"),
             (some "Do you deploy daily?", some (formatFloat 0)),
             (some "Which checks run on every commit?", some (formatFloat 0)),
             (some "Is trunk always green?", some (formatFloat 0))]) ∧
      (ApplyResponses (LoadQuestions parsedAnswered) (responseRows completedDB 1)).Sections.map
          (fun sec => sec.Questions.map (fun q => (q.QuestionText, CalculateQuestionScore q)))
        = [[("Welcome", 0), ("Do you deploy daily?", 1),
            ("Which checks run on every commit?", 5), ("Is trunk always green?", 0)]] ∧
      (CalculateSectionScores (ApplyResponses (LoadQuestions parsedAnswered)
          (responseRows completedDB 1)) 1).map (fun e => e.Score) = [6]) ∧
    (responseRows repeatedDB 1 = repeatedChoice ∧
      (∀ formatFloat : ℚ → String,
        (SurveyService.ExportAssessmentCSV id formatFloat Char.isWhitespace .complete
            .complete .complete (.ok singleCatalog) repeatedDB 1).1.map (fun row => row[6]?)
          = [some "Score", some (formatFloat 2)]) ∧
      (ApplyResponses (LoadQuestions singleCatalog) repeatedChoice).Sections.map
          (fun sec => sec.Questions.map CalculateQuestionScore) = [[1]] ∧
      (CalculateSectionScores (ApplyResponses (LoadQuestions singleCatalog) repeatedChoice)
          1).map (fun e => e.Score) = [1]) := by
  have hstored : responseRows completedDB 1
      = [{ ID := 1, AssessmentID := 1, QuestionID := "S1-Q4",
           AnswerIDs := ["S1-Q4-A2"] }] := by decide
  have hculture : LoadQuestions parsedAnswered = { Sections := [loadedCultureSection] } := by
    decide
  have hrows : responseRows repeatedDB 1 = repeatedChoice := by decide
  have hload : LoadQuestions singleCatalog
      = { Sections := [{ SectionName := "Culture", SpiderPos := 1, HasSubCategories := false,
                         Questions := [loadedSingleQuestion] }] } := by decide
  have happ : ApplyResponses (LoadQuestions singleCatalog) repeatedChoice
      = appliedSingle := by decide
  obtain ⟨_, _, h2, _⟩ := exportScore_counts_repeated_ids
  refine ⟨⟨by rw [hstored]; rfl, ?_, ?_, ?_⟩, hrows, ?_, ?_, ?_⟩
  · intro formatFloat
    rw [ExportAssessmentCSV_eq id formatFloat Char.isWhitespace .complete .complete .complete
      parsedAnswered completedDB 1 completedAssessment _ _ _ (by decide) (by decide)
      (GetAssessmentScores_complete completedDB 1)
      (GetAssessmentResponses_complete completedDB 1)
      (GetAssessmentResponses_complete completedDB 1), hstored, hculture]
    simp [exportHeader, exportRows, exportRow, loadedCultureSection, welcomeBanner,
      exportScore, buildResponseMap, applyToQuestion, mapStore, mapLookup]
  · rw [hstored, hculture]
    simp [ApplyResponses, loadedCultureSection, welcomeBanner, CalculateQuestionScore,
      buildResponseMap, applyToQuestion, mapStore, mapLookup]
    norm_num
  · rw [hstored, hculture]
    simp [CalculateSectionScores, ApplyResponses, loadedCultureSection, welcomeBanner,
      CalculateQuestionScore, CalculateQuestionMaxScore, buildResponseMap, applyToQuestion,
      mapStore, mapLookup]
    norm_num
  · intro formatFloat
    rw [ExportAssessmentCSV_eq id formatFloat Char.isWhitespace .complete .complete .complete
      singleCatalog repeatedDB 1 completedAssessment _ _ _ (by decide) (by decide)
      (GetAssessmentScores_complete repeatedDB 1)
      (GetAssessmentResponses_complete repeatedDB 1)
      (GetAssessmentResponses_complete repeatedDB 1), hrows, hload]
    simp only [exportRows, List.flatMap_cons, List.flatMap_nil, List.append_nil]
    have hf : [loadedSingleQuestion].filter (fun q => decide (q.Answers.length ≠ 0))
        = [loadedSingleQuestion] := by decide
    rw [hf]
    simp only [List.map_cons, List.map_nil, exportRow, h2]
    rfl
  · rw [happ]
    simp [appliedSingle, CalculateQuestionScore]
  · rw [happ]
    simp [CalculateSectionScores, appliedSingle, CalculateQuestionScore,
      CalculateQuestionMaxScore]
    norm_num

/-! ## C28: the answer IDs of the saved responses -/

/-- C28 (as stated) fails: the value submitted for an Option question is stored without a
check against the question's answers.  On the catalog loaded from `parsedAnswered`, the form
map `bogusForm` makes `SaveResponses` persist the response `[bogus]` for `S1-Q2`, and
`bogus` is the ID of no answer of the catalog. -/
theorem Option_value_is_not_checked :
    (SurveyService.SaveResponses AssessmentService.SaveResponse Char.toLower
        (.ok parsedAnswered) sampleDB 1 "culture" bogusForm).2 = .ok () ∧
    (storedResponse
        (SurveyService.SaveResponses AssessmentService.SaveResponse Char.toLower
          (.ok parsedAnswered) sampleDB 1 "culture" bogusForm).1 1 "S1-Q2").map
        (fun r => r.AnswerIDs) = some ["bogus"] ∧
    ∀ sec ∈ (LoadQuestions parsedAnswered).Sections, ∀ q ∈ sec.Questions,
      ∀ a ∈ q.Answers, a.ID ≠ "bogus" := by
  decide

/-- C28 (amended): for a loaded catalog, a slug resolving to the section `s` and a form
map, every response that `SaveResponses` hands to the ledger belongs to a non-Banner
question `q` of `s` and contains no duplicates; when `q` is a Checkbox question it contains
only IDs of `q`'s own answers, and when `q` is an Option question it contains exactly one
value, the first one submitted under `q`'s ID, whether or not that value is the ID of an
answer of `q`. -/
theorem SaveResponses_answer_ids (toLower : Char → Char) (sections : List Section)
    (assessmentID : Int) (sectionName : String) (formData : List (String × List String))
    (s : Section) (r : Response)
    (hs : GetSectionByURLName toLower (LoadQuestions sections) sectionName = .ok s)
    (hr : r ∈ (SurveyService.SaveResponses recordCall toLower (.ok sections) [] assessmentID
      sectionName formData).1) :
    ∃ q ∈ s.Questions, q.Type_ ≠ "Banner" ∧ r.QuestionID = q.ID ∧ r.AnswerIDs.Nodup ∧
      (q.Type_ = "Checkbox" ∨ q.Type_ = "Option") ∧
      (q.Type_ = "Checkbox" → ∀ i ∈ r.AnswerIDs, ∃ a ∈ q.Answers, a.ID = i) ∧
      (q.Type_ = "Option" → ∃ first rest,
        mapLookup formData q.ID = some (first :: rest) ∧ r.AnswerIDs = [first]) := by
  rw [SaveResponses_eq_saveInOrder recordCall toLower sections [] assessmentID sectionName
    formData s hs, saveInOrder_recordCall] at hr
  simp only [List.nil_append, List.mem_map, List.mem_filter, decide_eq_true_eq] at hr
  obtain ⟨q, ⟨hq, hB, hsel⟩, rfl⟩ := hr
  refine ⟨q, hq, hB, rfl, ?_⟩
  by_cases hO : q.Type_ = "Option"
  · have hC : q.Type_ ≠ "Checkbox" := by rw [hO]; decide
    cases hl : mapLookup formData q.ID with
    | none => simp [selectionOf, hO, hl] at hsel
    | some values =>
      cases values with
      | nil => simp [selectionOf, hO, hl] at hsel
      | cons first rest =>
        have hv : selectionOf formData q = [first] := by simp [selectionOf, hO, hl]
        refine ⟨by simp [hv], Or.inr hO, fun h => absurd h hC, fun _ => ⟨first, rest, rfl, hv⟩⟩
  · by_cases hC : q.Type_ = "Checkbox"
    · have hv : selectionOf formData q
          = (q.Answers.filter (fun a => (mapLookup formData a.ID).isSome)).map
              (fun a => a.ID) := by
        simp [selectionOf, hO, hC]
      refine ⟨?_, Or.inl hC, ?_, fun h => absurd h hO⟩
      · simp only [hv]
        obtain ⟨i, j, q0, rfl⟩ := LoadQuestions_mem sections s q
          (GetSectionByURLName_mem toLower _ _ s hs) hq
        have hB0 : q0.Type_ ≠ "Banner" := by rwa [assignQuestionID_Type] at hB
        exact (assignQuestionID_answers_nodup i j q0 hB0).sublist
          ((List.filter_sublist _).map _)
      · intro _ i hi
        simp only [hv, List.mem_map, List.mem_filter] at hi
        obtain ⟨a, ⟨ha, _⟩, rfl⟩ := hi
        exact ⟨a, ha, rfl⟩
    · simp [selectionOf, hO, hC] at hsel

/-- Witness for C28: under `sampleForm` the response recorded for the Checkbox question
`S1-Q3` of the catalog loaded from `parsedAnswered` is `[S1-Q3-A3]`. -/
theorem SaveResponses_answer_ids_witness :
    ∃ q ∈ loadedCultureSection.Questions, q.Type_ ≠ "Banner" ∧
      checkboxResponse.QuestionID = q.ID ∧ checkboxResponse.AnswerIDs.Nodup ∧
      (q.Type_ = "Checkbox" ∨ q.Type_ = "Option") ∧
      (q.Type_ = "Checkbox" → ∀ i ∈ checkboxResponse.AnswerIDs, ∃ a ∈ q.Answers, a.ID = i) ∧
      (q.Type_ = "Option" → ∃ first rest,
        mapLookup sampleForm q.ID = some (first :: rest) ∧
          checkboxResponse.AnswerIDs = [first]) :=
  SaveResponses_answer_ids Char.toLower parsedAnswered 1 "culture" sampleForm
    loadedCultureSection checkboxResponse (by decide) (by decide)

/-! ## Subcategory totals and section totals in exact arithmetic -/

theorem questionMax_facts (q : Question)
    (hType : q.Type_ = "Option" ∨ q.Type_ = "Checkbox" ∨ q.Type_ = "Banner")
    (hScore : ∀ a ∈ q.Answers, 0 ≤ a.Score) :
    0 ≤ CalculateQuestionMaxScore q ∧
      (CalculateQuestionMaxScore q = 0 → CalculateQuestionScore q = 0) := by
  have hsum : ∀ l : List Answer, l.foldl
      (fun score answer => if answer.Value = "checked" then score + answer.Score else score) 0
      = ((l.filter isChecked).map (fun a => a.Score)).sum := by
    intro l
    have := foldl_cond_add_eq_sum isChecked (fun a => a.Score) l 0
    simpa [isChecked] using this
  have hzero : (∀ a ∈ q.Answers, a.Score = 0) →
      ((q.Answers.filter isChecked).map (fun a => a.Score)).sum = 0 := by
    intro hall
    apply List.sum_eq_zero
    intro x hx
    obtain ⟨a, ha, rfl⟩ := List.mem_map.1 hx
    exact hall a (List.mem_filter.1 ha).1
  rcases hType with hT | hT | hT
  · have hS : CalculateQuestionScore q
        = ((q.Answers.filter isChecked).map (fun a => a.Score)).sum := by
      simp [CalculateQuestionScore, hT, hsum]
    have hM : CalculateQuestionMaxScore q
        = q.Answers.foldl (fun m a => if a.Score > m then a.Score else m) 0 := by
      simp [CalculateQuestionMaxScore, hT]
    rw [hS, hM]
    refine ⟨foldl_max_ge_init (fun x : Answer => x.Score) q.Answers 0, ?_⟩
    intro h0
    apply hzero
    intro a ha
    have h1 := foldl_max_ge_mem (fun x : Answer => x.Score) q.Answers 0 a ha
    rw [h0] at h1
    exact le_antisymm h1 (hScore a ha)
  · have hS : CalculateQuestionScore q
        = ((q.Answers.filter isChecked).map (fun a => a.Score)).sum := by
      simp [CalculateQuestionScore, hT, hsum]
    have hM : CalculateQuestionMaxScore q = (q.Answers.map (fun a => a.Score)).sum := by
      simp [CalculateQuestionMaxScore, hT, foldl_add_eq_sum]
    rw [hS, hM]
    have hb := sum_filter_bounds isChecked q.Answers hScore
    have hn := sum_map_bounds (fun a : Answer => a.Score) (fun a : Answer => a.Score)
      q.Answers (fun a ha => ⟨hScore a ha, le_refl _⟩)
    refine ⟨hn.1, ?_⟩
    intro h0
    rw [h0] at hb
    exact le_antisymm hb.2 hb.1
  · simp [CalculateQuestionScore, CalculateQuestionMaxScore, hT]

theorem sum_zero_of_max_zero {α : Type} (S M : α → ℚ) (l : List α)
    (h : ∀ x ∈ l, 0 ≤ M x ∧ (M x = 0 → S x = 0)) (hM : (l.map M).sum ≤ 0) :
    (l.map S).sum = 0 := by
  induction l with
  | nil => rfl
  | cons x xs ih =>
    have hx := h x (List.mem_cons_self _ _)
    have hrest : 0 ≤ (xs.map M).sum :=
      (sum_map_bounds M M xs (fun y hy =>
        ⟨(h y (List.mem_cons_of_mem _ hy)).1, le_refl _⟩)).1
    simp only [List.map_cons, List.sum_cons] at hM ⊢
    have hx0 : M x = 0 := by linarith [hx.1]
    rw [hx.2 hx0, ih (fun y hy => h y (List.mem_cons_of_mem _ hy)) (by linarith), add_zero]

theorem sum_filter_mem_cons {α : Type} (g : α → String) (f : α → ℚ) (L : String)
    (ls : List String) (hnot : L ∉ ls) (l : List α) :
    ((l.filter (fun x => decide (g x = L))).map f).sum
      + ((l.filter (fun x => decide (g x ∈ ls))).map f).sum
      = ((l.filter (fun x => decide (g x ∈ L :: ls))).map f).sum := by
  induction l with
  | nil => simp
  | cons a l ih =>
    by_cases h1 : g a = L
    · have h2 : g a ∉ ls := by rw [h1]; exact hnot
      simp only [List.filter_cons, h1, hnot, decide_True, if_true, decide_False,
        List.mem_cons, true_or, List.map_cons, List.sum_cons, Bool.false_eq_true,
        if_false] at ih ⊢
      linarith
    · simp only [List.filter_cons, h1, decide_False, Bool.false_eq_true, if_false,
        List.mem_cons, false_or] at ih ⊢
      by_cases h2 : g a ∈ ls
      · simp only [h2, decide_True, if_true, List.map_cons, List.sum_cons] at ih ⊢
        linarith
      · simp only [h2, decide_False, Bool.false_eq_true, if_false] at ih ⊢
        exact ih

theorem sum_groups {α : Type} (g : α → String) (f : α → ℚ) (l : List α) :
    ∀ labels : List String, labels.Nodup →
      (labels.map (fun L => ((l.filter (fun x => decide (g x = L))).map f).sum)).sum
        = ((l.filter (fun x => decide (g x ∈ labels))).map f).sum := by
  intro labels
  induction labels with
  | nil => intro _; simp
  | cons L ls ih =>
    intro hnd
    rw [List.map_cons, List.sum_cons, ih (List.nodup_cons.1 hnd).2,
      sum_filter_mem_cons g f L ls (List.nodup_cons.1 hnd).1 l]

theorem group_sum_eq (f : Question → ℚ) (qs : List Question)
    (hz : ∀ q ∈ qs, q.SubCategory = "" → f q = 0) :
    ((subCategoryLabels qs).map (fun L =>
        ((qs.filter (fun q => decide (q.SubCategory = L))).map f).sum)).sum
      = (qs.map f).sum := by
  rw [sum_groups (fun q : Question => q.SubCategory) f qs (subCategoryLabels qs)
    (List.nodup_dedup _)]
  apply sum_filter_of_zero
  intro q hq hp
  apply hz q hq
  by_contra hne
  have hmem : q.SubCategory ∈ subCategoryLabels qs := by
    simp only [subCategoryLabels, List.mem_dedup, List.mem_filter, List.mem_map,
      decide_eq_true_eq]
    exact ⟨⟨q, hq, rfl⟩, hne⟩
  simp [hmem] at hp

theorem find?_of_unique (survey : Survey) (sec : Section) (hsec : sec ∈ survey.Sections)
    (huniq : ∀ s ∈ survey.Sections, s.SectionName = sec.SectionName → s = sec) :
    survey.Sections.find? (fun s => decide (s.SectionName = sec.SectionName)) = some sec := by
  cases hf : survey.Sections.find? (fun s => decide (s.SectionName = sec.SectionName)) with
  | none =>
    have := List.find?_eq_none.1 hf sec hsec
    simp at this
  | some s =>
    have h1 := List.mem_of_find?_eq_some hf
    have h2 := List.find?_some hf
    rw [huniq s h1 (by simpa using h2)]

theorem CalculateSubCategoryScores_perm
    (rangeOrder : List (String × SectionScore) → List (String × SectionScore))
    (hrange : ∀ m, (rangeOrder m).Perm m)
    (survey : Survey) (sec : Section) (assessmentID : Int)
    (hfind : survey.Sections.find? (fun s => decide (s.SectionName = sec.SectionName))
      = some sec) :
    (CalculateSubCategoryScores rangeOrder survey sec.SectionName assessmentID).Perm
      (((subCategoryLabels sec.Questions).filter
          (fun L => decide (0 < (groupTotals assessmentID sec.Questions L).MaxScore))).map
        (fun L => { groupTotals assessmentID sec.Questions L with
          Percentage := ((groupTotals assessmentID sec.Questions L).Score
            / (groupTotals assessmentID sec.Questions L).MaxScore) * 100 })) := by
  unfold CalculateSubCategoryScores
  rw [hfind]
  simp only [foldl_range_entries]
  have h1 := ((hrange (sec.Questions.foldl (addToSubCategory assessmentID) [])).filter
    (fun e => decide (0 < e.2.MaxScore))).map
    (fun e => ({ e.2 with Percentage := (e.2.Score / e.2.MaxScore) * 100 } : SectionScore))
  have h2 := ((fold_perm_labels assessmentID sec.Questions).filter
    (fun e => decide (0 < e.2.MaxScore))).map
    (fun e => ({ e.2 with Percentage := (e.2.Score / e.2.MaxScore) * 100 } : SectionScore))
  refine (h1.trans h2).trans ?_
  rw [List.filter_map, List.map_map]
  exact List.Perm.refl _

/-- The subcategory totals in exact arithmetic.  With scores read as exact rationals: when
every question of the catalog is of type Option, Checkbox or Banner and every answer score is
non-negative, then for a section with a unique name in which every non-Banner question
carries a non-empty subcategory label, and whatever order Go's `range` visits the map in, the
`Score` values of the entries of `CalculateSubCategoryScores` sum to the sum of
`CalculateQuestionScore` over the section's questions and the `MaxScore` values to the sum
of `CalculateQuestionMaxScore`.  The `float64` sums of the code are formed in another order
for the section than for the groups and can differ in the last digit. -/
theorem CalculateSubCategoryScores_totals
    (rangeOrder : List (String × SectionScore) → List (String × SectionScore))
    (hrange : ∀ m, (rangeOrder m).Perm m)
    (survey : Survey) (sec : Section) (assessmentID : Int)
    (hType : ∀ s ∈ survey.Sections, ∀ q ∈ s.Questions,
      q.Type_ = "Option" ∨ q.Type_ = "Checkbox" ∨ q.Type_ = "Banner")
    (hScore : ∀ s ∈ survey.Sections, ∀ q ∈ s.Questions, ∀ a ∈ q.Answers, 0 ≤ a.Score)
    (hsec : sec ∈ survey.Sections)
    (huniq : ∀ s ∈ survey.Sections, s.SectionName = sec.SectionName → s = sec)
    (hlabel : ∀ q ∈ sec.Questions, q.Type_ ≠ "Banner" → q.SubCategory ≠ "") :
    ((CalculateSubCategoryScores rangeOrder survey sec.SectionName assessmentID).map
        (fun e => e.Score)).sum = (sec.Questions.map CalculateQuestionScore).sum ∧
    ((CalculateSubCategoryScores rangeOrder survey sec.SectionName assessmentID).map
        (fun e => e.MaxScore)).sum = (sec.Questions.map CalculateQuestionMaxScore).sum := by
  have hperm := CalculateSubCategoryScores_perm rangeOrder hrange survey sec assessmentID
    (find?_of_unique survey sec hsec huniq)
  have hfacts : ∀ q ∈ sec.Questions, 0 ≤ CalculateQuestionMaxScore q ∧
      (CalculateQuestionMaxScore q = 0 → CalculateQuestionScore q = 0) :=
    fun q hq => questionMax_facts q (hType sec hsec q hq) (hScore sec hsec q hq)
  have hBanner : ∀ q ∈ sec.Questions, q.SubCategory = "" → q.Type_ = "Banner" := by
    intro q hq h0
    by_contra hB
    exact hlabel q hq hB h0
  have hmaxnn : ∀ L, 0 ≤ (groupTotals assessmentID sec.Questions L).MaxScore := by
    intro L
    exact (sum_map_bounds CalculateQuestionMaxScore CalculateQuestionMaxScore _
      (fun q hq => ⟨(hfacts q (List.mem_filter.1 hq).1).1, le_refl _⟩)).1
  constructor
  · rw [(hperm.map (fun e => e.Score)).sum_eq, List.map_map]
    have h1 := sum_filter_of_zero
      (fun L => decide (0 < (groupTotals assessmentID sec.Questions L).MaxScore))
      (fun L => (groupTotals assessmentID sec.Questions L).Score)
      (subCategoryLabels sec.Questions) (by
        intro L _ hp
        have hle : (groupTotals assessmentID sec.Questions L).MaxScore ≤ 0 := by
          simpa using hp
        exact sum_zero_of_max_zero CalculateQuestionScore CalculateQuestionMaxScore _
          (fun q hq => hfacts q (List.mem_filter.1 hq).1) hle)
    have h2 := group_sum_eq CalculateQuestionScore sec.Questions (by
      intro q hq h0
      simp [CalculateQuestionScore, hBanner q hq h0])
    exact h1.trans h2
  · rw [(hperm.map (fun e => e.MaxScore)).sum_eq, List.map_map]
    have h1 := sum_filter_of_zero
      (fun L => decide (0 < (groupTotals assessmentID sec.Questions L).MaxScore))
      (fun L => (groupTotals assessmentID sec.Questions L).MaxScore)
      (subCategoryLabels sec.Questions) (by
        intro L _ hp
        have hle : (groupTotals assessmentID sec.Questions L).MaxScore ≤ 0 := by
          simpa using hp
        exact le_antisymm hle (hmaxnn L))
    have h2 := group_sum_eq CalculateQuestionMaxScore sec.Questions (by
      intro q hq h0
      simp [CalculateQuestionMaxScore, hBanner q hq h0])
    exact h1.trans h2

/-- The subcategory totals of the section of `groupedCatalog`, whose group Docs has the
maximum score 0 and is dropped, with `range` visiting the map in reverse insertion order. -/
theorem CalculateSubCategoryScores_totals_witness :
    (∀ s ∈ groupedCatalog.Sections, ∀ q ∈ s.Questions,
      q.Type_ = "Option" ∨ q.Type_ = "Checkbox" ∨ q.Type_ = "Banner") ∧
    (∀ s ∈ groupedCatalog.Sections, ∀ q ∈ s.Questions, ∀ a ∈ q.Answers, 0 ≤ a.Score) ∧
    groupedSection ∈ groupedCatalog.Sections ∧
    (∀ q ∈ groupedSection.Questions, q.Type_ ≠ "Banner" → q.SubCategory ≠ "") ∧
    ((CalculateSubCategoryScores List.reverse groupedCatalog groupedSection.SectionName 7).map
        (fun e => e.Score)).sum = (groupedSection.Questions.map CalculateQuestionScore).sum ∧
    ((CalculateSubCategoryScores List.reverse groupedCatalog groupedSection.SectionName 7).map
        (fun e => e.MaxScore)).sum
      = (groupedSection.Questions.map CalculateQuestionMaxScore).sum :=
  ⟨by decide, by decide, by decide, by decide,
    CalculateSubCategoryScores_totals List.reverse (fun m => List.reverse_perm m)
      groupedCatalog groupedSection 7 (by decide) (by decide) (by decide)
      (by simp [groupedCatalog]) (by decide)⟩

end Models
